import Mathlib

/-!
Verification of the topology-aware energy reconciliation engine of the
`hass-atlas` repository against its natural-language specification.

The Python sources are shallowly embedded:

* Python strings are Lean `String`s; `str.endswith` / the `in` substring
  test are `sEndsWith` / `sContains` below, defined by structural
  recursion over the character lists so that they both evaluate in the
  kernel and admit reasoning via `List.IsSuffix`.
* `None` / `str` optional fields become `Option String`; Python
  truthiness of such a field (`if x:`) is `optStrTruthy` (`None` and
  `""` are falsy).
* Python dicts are association lists with first-occurrence lookup
  (`lookupA`) and replace-in-place-or-append assignment (`setA`),
  which is exactly the observable behaviour of an insertion-ordered
  dict.  Python sets whose only use is membership are plain lists.
* `sorted` on strings is an insertion sort by code-point order
  (`insSortStr`), matching Python lexicographic string ordering.
* dataclasses become structures.  The derived `HADevice.children`
  list is never read by any embedded function and is omitted.
-/

/-! ## String helpers -/

/-- `prefixB sub l`: `sub` is a prefix of `l` (executable). -/
def prefixB {α : Type} [DecidableEq α] : List α → List α → Bool
  | [], _ => true
  | _ :: _, [] => false
  | a :: s, b :: t => a == b && prefixB s t

/-- `suffixB sub l`: `sub` is a suffix of `l` (executable). -/
def suffixB {α : Type} [DecidableEq α] (sub : List α) : List α → Bool
  | [] => sub == ([] : List α)
  | b :: t => sub == b :: t || suffixB sub t

/-- `infixB sub l`: `sub` occurs contiguously inside `l` (executable). -/
def infixB {α : Type} [DecidableEq α] (sub : List α) : List α → Bool
  | [] => sub == ([] : List α)
  | b :: t => prefixB sub (b :: t) || infixB sub t

/-- Python `s.endswith(suffix)`. -/
def sEndsWith (s suffix : String) : Bool := suffixB suffix.toList s.toList

/-- Python `sub in s` (substring containment). -/
def sContains (s sub : String) : Bool := infixB sub.toList s.toList

/-- Python truthiness of an optional string: `None` and `""` are falsy. -/
def optStrTruthy : Option String → Bool
  | none => false
  | some s => s != ""

/-- The value of an optional string when truthy, otherwise `none`. -/
def truthyVal : Option String → Option String
  | none => none
  | some s => if s == "" then none else some s

/-- Code-point comparison of strings, matching Python `<=` on `str`. -/
def charListLe : List Char → List Char → Bool
  | [], _ => true
  | _ :: _, [] => false
  | c :: cs, d :: ds =>
    if c.toNat < d.toNat then true
    else if d.toNat < c.toNat then false
    else charListLe cs ds

def strLeB (a b : String) : Bool := charListLe a.toList b.toList

/-- Stable insertion into an ascending list (helper for `insSortStr`). -/
def insertAsc (a : String) : List String → List String
  | [] => [a]
  | b :: t => if strLeB a b then a :: b :: t else b :: insertAsc a t

/-- Python `sorted` on a list of strings. -/
def insSortStr : List String → List String
  | [] => []
  | a :: t => insertAsc a (insSortStr t)

/-! ## Association-list (Python dict) helpers -/

/-- Python `d.get(k)` / `d[k]`: first-occurrence lookup. -/
def lookupA {β : Type} (l : List (String × β)) (k : String) : Option β :=
  (l.find? (fun p => p.1 == k)).map (·.2)

/-- Python `d[k] = v`: replace the value in place, or append a new pair. -/
def setA {β : Type} : List (String × β) → String → β → List (String × β)
  | [], k, v => [(k, v)]
  | (k', v') :: rest, k, v =>
    if k' == k then (k', v) :: rest else (k', v') :: setA rest k v

/-- Append a value to the list stored under a key (Python
`d.setdefault(k, []).append(v)`). -/
def appendA {β : Type} : List (String × List β) → String → β → List (String × List β)
  | [], k, v => [(k, [v])]
  | (k', vs) :: rest, k, v =>
    if k' == k then (k', vs ++ [v]) :: rest else (k', vs) :: appendA rest k v

/-! ## Data model (`models.py`) -/

/-- `HAEntity` — an entity from the entity registry. -/
structure HAEntity where
  entity_id : String
  unique_id : String
  platform : String
  device_id : Option String := none
  device_class : Option String := none
  state_class : Option String := none
  unit_of_measurement : Option String := none
  name : Option String := none
  original_name : Option String := none
  disabled_by : Option String := none
  entity_category : Option String := none
  has_entity_name : Bool := false
deriving DecidableEq

/-- `HADevice` — a device from the device registry.  The derived
`children` list is never read by the embedded functions and is
omitted. -/
structure HADevice where
  id : String
  name : Option String := none
  name_by_user : Option String := none
  model : Option String := none
  identifiers : List (String × String) := []
  via_device_id : Option String := none
  area_id : Option String := none
  entities : List HAEntity := []
deriving DecidableEq

/-- `SpanDeviceTree` — a SPAN panel and its classified child devices. -/
structure SpanDeviceTree where
  panel : HADevice
  circuits : List HADevice := []
  battery : Option HADevice := none
  solar : Option HADevice := none
  ev_charger : Option HADevice := none
  site_metering : Option HADevice := none
deriving DecidableEq

/-- The `serial` property: local id of the first `span_ebus` identifier. -/
def SpanDeviceTree.serial (t : SpanDeviceTree) : Option String :=
  (t.panel.identifiers.find? (fun p => p.1 == "span_ebus")).map (·.2)

/-- `SpanTopology` — decoded physical properties of one panel. -/
structure SpanTopology where
  serial : String
  battery_position : Option String := none
  battery_vendor : Option String := none
  battery_model : Option String := none
  battery_serial : Option String := none
  battery_feed_circuit_name : Option String := none
  battery_feed_circuit_id : Option String := none
  solar_position : Option String := none
  solar_vendor : Option String := none
  solar_product : Option String := none
  solar_feed_circuit_name : Option String := none
  solar_feed_circuit_id : Option String := none
  is_lead_panel : Bool := false
deriving DecidableEq

/-- `EnergyIntegration` — a non-SPAN integration with energy entities. -/
structure EnergyIntegration where
  platform : String
  devices : List HADevice := []
  energy_entities : List HAEntity := []
deriving DecidableEq

/-- `CircuitRole` — the classification of one circuit. -/
structure CircuitRole where
  circuit : HADevice
  role : String
  skip_return_energy : Bool
  skip_consumption : Bool
  reason : String
deriving DecidableEq

/-- `EnergyRole` — one role assignment emitted by the decision engine. -/
structure EnergyRole where
  role : String
  entity_id : String
  platform : String
  preferred : Bool
  reason : String
  parent_entity_id : Option String := none
  rate_entity_id : Option String := none
deriving DecidableEq

/-- `EnergyTopology` — the full output of the decision engine. -/
structure EnergyTopology where
  panels : List SpanTopology := []
  integrations : List EnergyIntegration := []
  circuit_roles : List CircuitRole := []
  role_assignments : List EnergyRole := []
  warnings : List String := []
deriving DecidableEq

/-! ## `topology.py` — helper functions -/

/-- `VENDOR_PLATFORM_MAP` (insertion order of the Python dict). -/
def VENDOR_PLATFORM_MAP : List (String × List String) :=
  [("tesla", ["powerwall", "tesla_fleet"]),
   ("enphase", ["enphase_envoy"]),
   ("solaredge", ["solaredge"]),
   ("generac", ["generac"]),
   ("sonnen", ["sonnen"])]

/-- `str.lower()` on the code points (the vendor names the map is
matched against are ASCII). -/
def sLower (s : String) : String := String.mk (s.toList.map Char.toLower)

/-- `_find_platform_for_vendor`: first integration whose platform is in
the candidate set collected by case-insensitive substring matching of
the map keys against the vendor name. -/
def find_platform_for_vendor (vendor : Option String)
    (integrations : List EnergyIntegration) : Option EnergyIntegration :=
  match truthyVal vendor with
  | none => none
  | some v =>
    let vendor_lower := sLower v
    let candidate_platforms :=
      VENDOR_PLATFORM_MAP.foldl
        (fun acc p => if sContains vendor_lower p.1 then acc ++ p.2 else acc) []
    integrations.find? (fun i => candidate_platforms.contains i.platform)

/-- `_find_circuit_entity`: first enabled entity on a device whose
`unique_id` ends with the given suffix. -/
def find_circuit_entity (circuit : HADevice) (property_suffix : String) :
    Option HAEntity :=
  circuit.entities.find?
    (fun e => !optStrTruthy e.disabled_by && sEndsWith e.unique_id property_suffix)

/-- `_find_upstream_energy`: panel lugs-upstream, then site-metering
child, then the panel with the bare suffix. -/
def find_upstream_energy (tree : SpanDeviceTree) (suffix : String) :
    Option HAEntity :=
  match find_circuit_entity tree.panel ("lugs-upstream_" ++ suffix) with
  | some e => some e
  | none =>
    match tree.site_metering with
    | some sm =>
      match find_circuit_entity sm suffix with
      | some e => some e
      | none => find_circuit_entity tree.panel suffix
    | none => find_circuit_entity tree.panel suffix

/-- `_find_entity_on_integration`: first energy entity whose
`entity_id` contains the keyword. -/
def find_entity_on_integration (integration : EnergyIntegration)
    (keyword : String) : Option HAEntity :=
  integration.energy_entities.find? (fun e => sContains e.entity_id keyword)

/-- The part of a string after its first underscore (Python
`s.split("_", 1)[1]`, defined when an underscore is present). -/
def afterFirstUnderscore (s : String) : String :=
  String.mk ((s.toList.dropWhile (fun c => c != '_')).tail)

/-- `_circuit_node_id`: node-id portion of the first `span_ebus`
identifier that contains an underscore. -/
def circuit_node_id (circuit : HADevice) : Option String :=
  (circuit.identifiers.find?
      (fun p => p.1 == "span_ebus" && sContains p.2 "_")).map
    (fun p => afterFirstUnderscore p.2)

/-- `_find_circuit_by_node_id`: first circuit across all trees whose
node id equals the target. -/
def find_circuit_by_node_id (trees : List SpanDeviceTree)
    (target_node_id : String) : Option HADevice :=
  (trees.flatMap (·.circuits)).find?
    (fun c => circuit_node_id c == some target_node_id)

/-- A tree serial that passes the Python truthiness test. -/
def treeSerial (t : SpanDeviceTree) : Option String := truthyVal t.serial

/-- Breadth-first traversal used by `_topo_sort_trees`.  The Python
loop can diverge when duplicate serials close a cycle among the
child lists; the embedding bounds it with fuel and returns the
partial result in that (out-of-spec) case. -/
def topoBfs (serial_to_tree : List (String × SpanDeviceTree))
    (children : List (String × List String)) :
    Nat → List String → List SpanDeviceTree → List SpanDeviceTree
  | 0, _, acc => acc
  | _, [], acc => acc
  | fuel + 1, s :: queue, acc =>
    match lookupA serial_to_tree s with
    | some t =>
      topoBfs serial_to_tree children fuel
        (queue ++ ((lookupA children s).getD [])) (acc ++ [t])
    | none => topoBfs serial_to_tree children fuel queue acc

/-- `_topo_sort_trees`: parents before children, unreached trees
appended at the end. -/
def topo_sort_trees (trees : List SpanDeviceTree)
    (device_id_to_serial : List (String × String)) : List SpanDeviceTree :=
  let serial_to_tree : List (String × SpanDeviceTree) :=
    trees.foldl
      (fun acc t =>
        match treeSerial t with
        | some s => setA acc s t
        | none => acc) []
  let step := fun (acc : List (String × List String) × List String) t =>
    match treeSerial t with
    | none => acc
    | some s =>
      let parent_serial :=
        lookupA device_id_to_serial ((t.panel.via_device_id).getD "")
      match truthyVal parent_serial with
      | some ps =>
        if (lookupA serial_to_tree ps).isSome then (appendA acc.1 ps s, acc.2)
        else (acc.1, acc.2 ++ [s])
      | none => (acc.1, acc.2 ++ [s])
  let cr := trees.foldl step ([], [])
  let result := topoBfs serial_to_tree cr.1 ((trees.length + 1) * (trees.length + 1)) cr.2 []
  let seen := result.filterMap treeSerial
  result ++ trees.filter
    (fun t =>
      match treeSerial t with
      | some s => !seen.contains s
      | none => false)

/-! ## `topology.py` — `build_energy_topology` -/

/-- `all_bess_upstream`: the topology list is non-empty and every
panel reports battery position UPSTREAM. -/
def all_bess_upstream (topologies : List SpanTopology) : Bool :=
  !topologies.isEmpty &&
    topologies.all (fun t => t.battery_position == some "UPSTREAM")

/-- First truthy battery vendor among the topologies. -/
def bess_vendor (topologies : List SpanTopology) : Option String :=
  topologies.findSome? (fun t => truthyVal t.battery_vendor)

/-- First truthy solar vendor among the topologies. -/
def pv_vendor (topologies : List SpanTopology) : Option String :=
  topologies.findSome? (fun t => truthyVal t.solar_vendor)

/-- Grid-source section of `build_energy_topology` (assignments and
warnings).  Branch A (all batteries upstream and a matched
integration): site-level integration entities preferred, SPAN
upstream entities non-preferred.  Branch B: SPAN upstream entities
preferred per tree. -/
def grid_section (trees : List SpanDeviceTree) (topologies : List SpanTopology)
    (bess_integration : Option EnergyIntegration) :
    List EnergyRole × List String :=
  match bess_integration, all_bess_upstream topologies with
  | some bi, true =>
    let importPart :=
      match find_entity_on_integration bi "import" with
      | some grid_import =>
        let site_import :=
          (bi.energy_entities.find?
              (fun e => sContains e.entity_id "site_import")).getD grid_import
        [{ role := "grid_import", entity_id := site_import.entity_id,
           platform := bi.platform, preferred := true,
           reason := "BESS UPSTREAM on all panels — " ++ bi.platform ++
             " meters true grid" }]
      | none => []
    let exportPart :=
      match find_entity_on_integration bi "export" with
      | some grid_export =>
        let site_export :=
          (bi.energy_entities.find?
              (fun e => sContains e.entity_id "site_export")).getD grid_export
        [{ role := "grid_export", entity_id := site_export.entity_id,
           platform := bi.platform, preferred := true,
           reason := "BESS UPSTREAM on all panels — " ++ bi.platform ++
             " meters true grid" }]
      | none => []
    let spanPart :=
      trees.flatMap (fun t =>
        (match find_upstream_energy t "imported-energy" with
         | some e =>
           [{ role := "grid_import", entity_id := e.entity_id,
              platform := "span_ebus", preferred := false,
              reason := "BESS UPSTREAM — SPAN upstream is post-battery, not true grid" }]
         | none => []) ++
        (match find_upstream_energy t "exported-energy" with
         | some e =>
           [{ role := "grid_export", entity_id := e.entity_id,
              platform := "span_ebus", preferred := false,
              reason := "BESS UPSTREAM — SPAN upstream is post-battery, not true grid" }]
         | none => []))
    (importPart ++ exportPart ++ spanPart,
     ["BESS is UPSTREAM of all panels (vendor=" ++
        (bess_vendor topologies).getD "None" ++ ") — using " ++ bi.platform ++
        " for grid metering"])
  | _, _ =>
    (trees.flatMap (fun t =>
      (match find_upstream_energy t "imported-energy" with
       | some e =>
         [{ role := "grid_import", entity_id := e.entity_id,
            platform := "span_ebus", preferred := true,
            reason := "SPAN upstream metering — no UPSTREAM BESS or no matching integration" }]
       | none => []) ++
      (match find_upstream_energy t "exported-energy" with
       | some e =>
         [{ role := "grid_export", entity_id := e.entity_id,
            platform := "span_ebus", preferred := true,
            reason := "SPAN upstream metering — no UPSTREAM BESS or no matching integration" }]
       | none => [])), [])

/-- Battery-source section of `build_energy_topology`.  The Python
loop emits per IN_PANEL topology and stops (break) after the first
UPSTREAM topology with a matched integration. -/
def battery_section (trees : List SpanDeviceTree)
    (bess_integration : Option EnergyIntegration) :
    List SpanTopology → List EnergyRole
  | [] => []
  | topo :: rest =>
    if topo.battery_position == some "IN_PANEL" &&
        optStrTruthy topo.battery_feed_circuit_id then
      let circuitPart :=
        match find_circuit_by_node_id trees
            ((topo.battery_feed_circuit_id).getD "") with
        | some circuit =>
          let batt_rate :=
            (find_circuit_entity circuit "active-power").map (·.entity_id)
          (match find_circuit_entity circuit "imported-energy" with
           | some discharge =>
             [{ role := "battery_discharge", entity_id := discharge.entity_id,
                platform := "span_ebus", preferred := true,
                reason := "BESS IN_PANEL — SPAN circuit imported-energy = discharge",
                rate_entity_id := batt_rate }]
           | none => []) ++
          (match find_circuit_entity circuit "exported-energy" with
           | some charge =>
             [{ role := "battery_charge", entity_id := charge.entity_id,
                platform := "span_ebus", preferred := true,
                reason := "BESS IN_PANEL — SPAN circuit exported-energy = charge",
                rate_entity_id := batt_rate }]
           | none => [])
        | none => []
      let integrationPart :=
        match bess_integration with
        | some bi =>
          bi.energy_entities.flatMap (fun e =>
            if sContains e.entity_id "battery" then
              [{ role := if sContains e.entity_id "export" then "battery_discharge"
                   else "battery_charge",
                 entity_id := e.entity_id, platform := bi.platform,
                 preferred := false,
                 reason := "BESS IN_PANEL — SPAN circuit is preferred (measurement consistency)" }]
            else [])
        | none => []
      circuitPart ++ integrationPart ++ battery_section trees bess_integration rest
    else
      match bess_integration with
      | some bi =>
        if topo.battery_position == some "UPSTREAM" then
          bi.energy_entities.flatMap (fun e =>
            if sContains e.entity_id "battery" then
              if sContains e.entity_id "export" then
                [{ role := "battery_discharge", entity_id := e.entity_id,
                   platform := bi.platform, preferred := true,
                   reason := "BESS UPSTREAM — " ++ bi.platform ++ " meters battery" }]
              else if sContains e.entity_id "import" then
                [{ role := "battery_charge", entity_id := e.entity_id,
                   platform := bi.platform, preferred := true,
                   reason := "BESS UPSTREAM — " ++ bi.platform ++ " meters battery" }]
              else []
            else [])
        else battery_section trees bess_integration rest
      | none => battery_section trees bess_integration rest

/-- Solar-source section of `build_energy_topology`.  Both branches
of the Python loop break after emitting. -/
def solar_section (trees : List SpanDeviceTree)
    (pv_integration : Option EnergyIntegration) :
    List SpanTopology → List EnergyRole
  | [] => []
  | topo :: rest =>
    if topo.solar_position == some "IN_PANEL" &&
        optStrTruthy topo.solar_feed_circuit_id then
      let circuitPart :=
        match find_circuit_by_node_id trees ((topo.solar_feed_circuit_id).getD "") with
        | some circuit =>
          match find_circuit_entity circuit "imported-energy" with
          | some solar_entity =>
            [{ role := "solar", entity_id := solar_entity.entity_id,
               platform := "span_ebus", preferred := true,
               reason := "PV IN_PANEL — SPAN circuit imported-energy = solar production",
               rate_entity_id :=
                 (find_circuit_entity circuit "active-power").map (·.entity_id) }]
          | none => []
        | none => []
      let integrationPart :=
        match pv_integration with
        | some pi =>
          pi.energy_entities.map (fun e =>
            { role := "solar", entity_id := e.entity_id, platform := pi.platform,
              preferred := false,
              reason := "PV IN_PANEL — SPAN circuit is preferred (measurement consistency)" })
        | none => []
      circuitPart ++ integrationPart
    else
      match pv_integration with
      | some pi =>
        if topo.solar_position == some "UPSTREAM" then
          pi.energy_entities.map (fun e =>
            { role := "solar", entity_id := e.entity_id, platform := pi.platform,
              preferred := true,
              reason := "PV UPSTREAM — " ++ pi.platform ++ " meters solar" })
        else solar_section trees pv_integration rest
      | none => solar_section trees pv_integration rest

/-- Solar fallback: first tree with a solar sub-device carrying an
imported-energy entity (the loop breaks only after a successful
emission). -/
def solar_fallback : List SpanDeviceTree → List EnergyRole
  | [] => []
  | t :: rest =>
    match t.solar with
    | some sd =>
      match find_circuit_entity sd "imported-energy" with
      | some solar_entity =>
        [{ role := "solar", entity_id := solar_entity.entity_id,
           platform := "span_ebus", preferred := true,
           reason := "SPAN solar device — no dedicated PV integration found",
           rate_entity_id := (find_circuit_entity sd "active-power").map (·.entity_id) }]
      | none => solar_fallback rest
    | none => solar_fallback rest

/-- The panel loop of the consumption section: accumulates
assignments and the serial-to-upstream-entity map
(`panel_parent_eids`), which grows while the loop runs. -/
def panel_consumption_loop (preferred_grid_eids : List String)
    (device_id_to_serial : List (String × String))
    (acc : List EnergyRole × List (String × String)) :
    List SpanDeviceTree → List EnergyRole × List (String × String)
  | [] => acc
  | t :: rest =>
    match treeSerial t with
    | none =>
      panel_consumption_loop preferred_grid_eids device_id_to_serial acc rest
    | some s =>
      match find_upstream_energy t "imported-energy" with
      | some upstream =>
        if preferred_grid_eids.contains upstream.entity_id then
          panel_consumption_loop preferred_grid_eids device_id_to_serial acc rest
        else
          let parent_eid :=
            match truthyVal t.panel.via_device_id with
            | some via =>
              match truthyVal (lookupA device_id_to_serial via) with
              | some parent_serial => lookupA acc.2 parent_serial
              | none => none
            | none => none
          let upstream_power :=
            (find_upstream_energy t "active-power").map (·.entity_id)
          panel_consumption_loop preferred_grid_eids device_id_to_serial
            (acc.1 ++
              [{ role := "device_consumption", entity_id := upstream.entity_id,
                 platform := "span_ebus", preferred := true,
                 reason := "Panel total energy — Sankey hierarchy parent",
                 parent_entity_id := parent_eid,
                 rate_entity_id := upstream_power }],
             setA acc.2 s upstream.entity_id) rest
      | none =>
        panel_consumption_loop preferred_grid_eids device_id_to_serial acc rest

/-- Circuit-consumption part of the consumption section. -/
def circuit_consumption (circuit_role_map : List (String × CircuitRole))
    (panel_parent_eids : List (String × String))
    (trees : List SpanDeviceTree) : List EnergyRole :=
  trees.flatMap (fun t =>
    let parent_eid :=
      match treeSerial t with
      | some s => lookupA panel_parent_eids s
      | none => none
    t.circuits.flatMap (fun circuit =>
      let cr := lookupA circuit_role_map circuit.id
      match find_circuit_entity circuit "exported-energy" with
      | some consumption =>
        if (match cr with
            | none => true
            | some r => !r.skip_consumption) then
          [{ role := "device_consumption", entity_id := consumption.entity_id,
             platform := "span_ebus", preferred := true,
             reason := (match cr with
               | some r => r.reason
               | none => "Circuit consumption"),
             parent_entity_id := parent_eid,
             rate_entity_id :=
               (find_circuit_entity circuit "active-power").map (·.entity_id) }]
        else []
      | none => []))

/-- Device-consumption section of `build_energy_topology` (panel
entries in topological order, then circuit entries). -/
def consumption_section (trees : List SpanDeviceTree)
    (circuit_roles : List CircuitRole)
    (assignments : List EnergyRole) : List EnergyRole :=
  let preferred_grid_eids :=
    (assignments.filter
        (fun a => a.role == "grid_import" && a.preferred)).map (·.entity_id)
  let device_id_to_serial : List (String × String) :=
    trees.foldl
      (fun acc t =>
        match treeSerial t with
        | some s => setA acc t.panel.id s
        | none => acc) []
  let sorted_trees := topo_sort_trees trees device_id_to_serial
  let pr := panel_consumption_loop preferred_grid_eids device_id_to_serial
    ([], []) sorted_trees
  let circuit_role_map : List (String × CircuitRole) :=
    circuit_roles.foldl (fun acc cr => setA acc cr.circuit.id cr) []
  pr.1 ++ circuit_consumption circuit_role_map pr.2 trees

/-- `build_energy_topology`: the decision engine.  Sections are
emitted in source order: grid, battery, solar, solar fallback
(only when no preferred solar assignment exists yet), consumption. -/
def build_energy_topology (trees : List SpanDeviceTree)
    (topologies : List SpanTopology)
    (integrations : List EnergyIntegration)
    (circuit_roles : List CircuitRole) : EnergyTopology :=
  let bess_integration := find_platform_for_vendor (bess_vendor topologies) integrations
  let pv_integration := find_platform_for_vendor (pv_vendor topologies) integrations
  let gw := grid_section trees topologies bess_integration
  let a2 := gw.1 ++ battery_section trees bess_integration topologies
  let a3 := a2 ++ solar_section trees pv_integration topologies
  let a4 :=
    if a3.any (fun a => a.role == "solar" && a.preferred) then a3
    else a3 ++ solar_fallback trees
  let a5 := a4 ++ consumption_section trees circuit_roles a4
  { panels := topologies, integrations := integrations,
    circuit_roles := circuit_roles, role_assignments := a5,
    warnings := gw.2 }

/-! ## `energy.py` — the preferences document model

`PrefsDocument` is a JSON object.  The embedding follows the shapes
the specification gives for the document: string-valued scalar
fields, flow lists of objects under `flow_from` / `flow_to`, and
arbitrary unrecognized keys/values.  A value the code never inspects
is an opaque blob `Prim.pb n`; such a blob models a *truthy*
non-string JSON value (falsy non-strings behave exactly like `""` in
every position the code reads, and can be modelled by `Prim.ps ""`).
-/

/-- A scalar JSON value: a string, or an opaque truthy non-string. -/
inductive Prim where
  | ps : String → Prim
  | pb : Nat → Prim
deriving DecidableEq

/-- A flat JSON object (flow objects, consumption entries). -/
abbrev Obj := List (String × Prim)

/-- A value inside an energy-source object: a scalar or a flow list. -/
inductive SVal where
  | pv : Prim → SVal
  | fl : List Obj → SVal
deriving DecidableEq

/-- An energy-source object. -/
abbrev Source := List (String × SVal)

/-- A top-level value of the preferences document. -/
inductive DVal where
  | srcs : List Source → DVal
  | cons : List Obj → DVal
  | dv : Prim → DVal
deriving DecidableEq

/-- The preferences document. -/
abbrev PrefsDoc := List (String × DVal)

/-- `prefs.get("energy_sources", [])` (a non-list value under the key
is outside the specified document shape and reads as absent). -/
def getSources (d : PrefsDoc) : List Source :=
  match lookupA d "energy_sources" with
  | some (.srcs l) => l
  | _ => []

/-- `prefs.get("device_consumption", [])`. -/
def getConsumption (d : PrefsDoc) : List Obj :=
  match lookupA d "device_consumption" with
  | some (.cons l) => l
  | _ => []

/-- A scalar field of a source object (`source.get(k)` when the value
is a scalar). -/
def primField (s : Source) (k : String) : Option Prim :=
  match lookupA s k with
  | some (.pv p) => some p
  | _ => none

/-- A flow list of a source object (`source.get(k, [])`). -/
def flowsOf (s : Source) (k : String) : List Obj :=
  match lookupA s k with
  | some (.fl l) => l
  | _ => []

/-- String value of an object field with `""` default
(`f.get(k, "")` under the specified shapes). -/
def objStrD (o : Obj) (k : String) : String :=
  match lookupA o k with
  | some (.ps v) => v
  | _ => ""

/-- String value of a scalar source field with `""` default. -/
def srcStrD (s : Source) (k : String) : String :=
  match primField s k with
  | some (.ps v) => v
  | _ => ""

/-- The `type` of a source when it is a string (any other value
compares unequal to every recognized type tag in Python). -/
def sourceType (s : Source) : Option String :=
  match primField s "type" with
  | some (.ps t) => some t
  | _ => none

/-- `_source_key`.  For the unrecognized-type branch Python uses
`f"{stype}:{id(source)}"`, a key that is distinct from the key of
every other live object and from every structural key; the embedding
returns `none` for it, and the callers treat `none` as
never-present. -/
def source_key (s : Source) : Option String :=
  match sourceType s with
  | some "grid" =>
    let from_ids :=
      insSortStr ((flowsOf s "flow_from").map (fun f => objStrD f "stat_energy_from"))
    let to_ids :=
      insSortStr ((flowsOf s "flow_to").map (fun f => objStrD f "stat_energy_to"))
    some ("grid:" ++ String.intercalate "," from_ids ++ ":" ++
      String.intercalate "," to_ids)
  | some "solar" => some ("solar:" ++ srcStrD s "stat_energy_from")
  | some "battery" =>
    some ("battery:" ++ srcStrD s "stat_energy_from" ++ ":" ++
      srcStrD s "stat_energy_to")
  | _ => none

/-- Python truthiness filter on an optional scalar (walrus tests
`if eid := ...`). -/
def truthyPrim : Option Prim → Option Prim
  | some (.ps s) => if s == "" then none else some (.ps s)
  | some (.pb n) => some (.pb n)
  | none => none

/-- `_extract_source_entity_ids` (a Python set used only through
membership, union and subset tests; modelled as the list of its
elements, possibly with repetitions). -/
def extract_source_entity_ids (s : Source) : List Prim :=
  ((flowsOf s "flow_from").filterMap
      (fun f => truthyPrim (lookupA f "stat_energy_from"))) ++
  ((flowsOf s "flow_to").filterMap
      (fun f => truthyPrim (lookupA f "stat_energy_to"))) ++
  ((truthyPrim (primField s "stat_energy_from")).toList) ++
  ((truthyPrim (primField s "stat_energy_to")).toList)

/-! ## `energy.py` — `merge_prefs` -/

/-- The source loop of `merge_prefs`: append each proposed source
whose dedup key is not yet present; a source with an
unrecognized-type (per-object) key is always appended. -/
def merge_sources_loop :
    List Source × List String → List Source → List Source × List String
  | acc, [] => acc
  | acc, s :: rest =>
    match source_key s with
    | none => merge_sources_loop (acc.1 ++ [s], acc.2) rest
    | some k =>
      if acc.2.contains k then merge_sources_loop acc rest
      else merge_sources_loop (acc.1 ++ [s], acc.2 ++ [k]) rest

/-- The consumption loop of `merge_prefs`: append each proposed entry
whose `stat_consumption` value is not yet present. -/
def merge_consumption_loop :
    List Obj × List (Option Prim) → List Obj → List Obj × List (Option Prim)
  | acc, [] => acc
  | acc, e :: rest =>
    let k := lookupA e "stat_consumption"
    if acc.2.contains k then merge_consumption_loop acc rest
    else merge_consumption_loop (acc.1 ++ [e], acc.2 ++ [k]) rest

/-- `merge_prefs`: additive merge of a proposed configuration into
the current preferences. -/
def merge_prefs (current proposed : PrefsDoc) : PrefsDoc :=
  let existing_sources := getSources current
  let existing_source_keys := existing_sources.filterMap source_key
  let mergedSources :=
    (merge_sources_loop (existing_sources, existing_source_keys)
      (getSources proposed)).1
  let m1 := setA current "energy_sources" (.srcs mergedSources)
  let existing_consumption := getConsumption current
  let existing_stats :=
    existing_consumption.map (fun e => lookupA e "stat_consumption")
  let mergedConsumption :=
    (merge_consumption_loop (existing_consumption, existing_stats)
      (getConsumption proposed)).1
  setA m1 "device_consumption" (.cons mergedConsumption)

/-! ## `energy.py` — `build_topology_aware_config` (hass_atlas) -/

/-- The preferred assignments of a topology. -/
def preferredOf (topo : EnergyTopology) : List EnergyRole :=
  topo.role_assignments.filter (·.preferred)

/-- The aggregated grid source (a singleton when any preferred grid
assignment exists). -/
def gridPartOf (topo : EnergyTopology) : List Source :=
  let grid_imports := (preferredOf topo).filter (fun a => a.role == "grid_import")
  let grid_exports := (preferredOf topo).filter (fun a => a.role == "grid_export")
  if !grid_imports.isEmpty || !grid_exports.isEmpty then
    [[("type", SVal.pv (.ps "grid")),
      ("flow_from", SVal.fl (grid_imports.map
        (fun a => [("stat_energy_from", Prim.ps a.entity_id)]))),
      ("flow_to", SVal.fl (grid_exports.map
        (fun a => [("stat_energy_to", Prim.ps a.entity_id)])))]]
  else []

/-- One solar source per preferred solar assignment. -/
def solarPartOf (topo : EnergyTopology) : List Source :=
  ((preferredOf topo).filter (fun a => a.role == "solar")).map (fun a =>
    [("type", SVal.pv (.ps "solar")),
     ("stat_energy_from", SVal.pv (.ps a.entity_id))] ++
    (match truthyVal a.rate_entity_id with
     | some r => [("stat_rate", SVal.pv (.ps r))]
     | none => []))

/-- The aggregated battery source (first preferred discharge/charge). -/
def battPartOf (topo : EnergyTopology) : List Source :=
  let batt_discharge := (preferredOf topo).filter (fun a => a.role == "battery_discharge")
  let batt_charge := (preferredOf topo).filter (fun a => a.role == "battery_charge")
  if !batt_discharge.isEmpty || !batt_charge.isEmpty then
    [[("type", SVal.pv (.ps "battery"))] ++
     (match batt_discharge.head? with
      | some a => [("stat_energy_from", SVal.pv (.ps a.entity_id))]
      | none => []) ++
     (match batt_charge.head? with
      | some a => [("stat_energy_to", SVal.pv (.ps a.entity_id))]
      | none => []) ++
     (match (batt_discharge ++ batt_charge).findSome?
         (fun a => truthyVal a.rate_entity_id) with
      | some r => [("stat_rate", SVal.pv (.ps r))]
      | none => [])]
  else []

/-- One consumption entry per preferred consumption assignment. -/
def consumptionPartOf (topo : EnergyTopology) : List Obj :=
  ((preferredOf topo).filter (fun a => a.role == "device_consumption")).map
    (fun a =>
      [("stat_consumption", Prim.ps a.entity_id)] ++
      (match truthyVal a.parent_entity_id with
       | some p => [("included_in_stat", Prim.ps p)]
       | none => []) ++
      (match truthyVal a.rate_entity_id with
       | some r => [("stat_rate", Prim.ps r)]
       | none => []))

/-- `build_topology_aware_config`: preferred role assignments turned
into an energy-dashboard configuration document (grid source, solar
sources, battery source, consumption entries, in this order). -/
def build_topology_aware_config (topo : EnergyTopology) : PrefsDoc :=
  [("energy_sources",
    DVal.srcs (gridPartOf topo ++ solarPartOf topo ++ battPartOf topo)),
   ("device_consumption", DVal.cons (consumptionPartOf topo))]

/-! ## `energy.py` — `apply_topology_prefs` (hass_atlas) -/

/-- The per-entry update of a kept wanted consumption entry: merge in
the parent and rate proposed by the topology (overwriting). -/
def updConsEntry (cp cr : String → Option String) (s : String) (e : Obj) : Obj :=
  let e1 :=
    match cp s with
    | some v => setA e "included_in_stat" (Prim.ps v)
    | none => e
  match cr s with
  | some v => setA e1 "stat_rate" (Prim.ps v)
  | none => e1

/-- A freshly appended consumption entry for a still-missing wanted
entity id. -/
def newConsEntry (cp cr : String → Option String) (s : String) : Obj :=
  [("stat_consumption", Prim.ps s)] ++
  (match cp s with
   | some v => [("included_in_stat", Prim.ps v)]
   | none => []) ++
  (match cr s with
   | some v => [("stat_rate", Prim.ps v)]
   | none => [])

/-- The consumption loop of `apply_topology_prefs`: keep a wanted
entry (merging in parent/rate and discarding its id from the wanted
set), drop a skipped one, keep a user-authored one, and return the
kept list together with the still-missing wanted ids. -/
def apply_consumption_loop (skipped : List String)
    (cp cr : String → Option String) :
    List String → List Obj → List Obj × List String
  | w, [] => ([], w)
  | w, e :: rest =>
    let stat := (lookupA e "stat_consumption").getD (Prim.ps "")
    match stat with
    | .ps s =>
      if w.contains s then
        let r := apply_consumption_loop skipped cp cr (w.erase s) rest
        (updConsEntry cp cr s e :: r.1, r.2)
      else if skipped.contains s then
        apply_consumption_loop skipped cp cr w rest
      else
        let r := apply_consumption_loop skipped cp cr w rest
        (e :: r.1, r.2)
    | .pb _ =>
      let r := apply_consumption_loop skipped cp cr w rest
      (e :: r.1, r.2)

/-- Whether a Prim is one of the given strings. -/
def primInStrs (strs : List String) : Prim → Bool
  | .ps s => strs.contains s
  | .pb _ => false

/-- The rate update applied to a kept wanted source: replace
`stat_rate` when the topology proposes a (truthy) different one for
the source with the same dedup key. -/
def updSourceRate (proposed_rate : String → Option String) (s : Source) : Source :=
  match source_key s with
  | some k =>
    match proposed_rate k with
    | some r =>
      if r != "" && (lookupA s "stat_rate" != some (SVal.pv (.ps r))) then
        setA s "stat_rate" (SVal.pv (.ps r))
      else s
    | none => s
  | none => s

/-- The existing-source loop of `apply_topology_prefs`: drop a source
touching a skipped entity id, keep (with rate update) a source whose
ids are all wanted while collecting its ids into the matched set,
keep a user-authored source.  Matched ids are only ever tested for
membership, so the list order is immaterial. -/
def apply_sources_loop (skipped wanted : List String)
    (proposed_rate : String → Option String) :
    List Source → List Source × List Prim
  | [] => ([], [])
  | s :: rest =>
    let r := apply_sources_loop skipped wanted proposed_rate rest
    let eids := extract_source_entity_ids s
    if eids.any (primInStrs skipped) then r
    else if !eids.isEmpty && eids.all (primInStrs wanted) then
      (updSourceRate proposed_rate s :: r.1, eids ++ r.2)
    else (s :: r.1, r.2)

/-- The proposed-source append loop of `apply_topology_prefs`: append
any proposed source whose entity ids are not yet all matched. -/
def apply_sources_append (matched : List Prim) :
    List Source → List Source
  | [] => []
  | p :: rest =>
    let eids := extract_source_entity_ids p
    if eids.all (matched.contains ·) then apply_sources_append matched rest
    else p :: apply_sources_append (matched ++ eids) rest

/-- The deduplicated Python set of preferred device-consumption
entity ids. -/
def dedupStr : List String → List String
  | [] => []
  | s :: rest =>
    let r := dedupStr rest
    if r.contains s then r else s :: r

/-- Wanted consumption ids of a topology (a Python set: its members,
without repetition). -/
def wanted_consumption_of (topo : EnergyTopology) : List String :=
  dedupStr (((topo.role_assignments.filter (·.preferred)).filter
      (fun a => a.role == "device_consumption")).map (·.entity_id))

/-- Skipped (non-preferred) entity ids of a topology. -/
def skipped_eids_of (topo : EnergyTopology) : List String :=
  (topo.role_assignments.filter (fun a => !a.preferred)).map (·.entity_id)

/-- Wanted source entity ids (preferred, non-consumption). -/
def wanted_source_eids_of (topo : EnergyTopology) : List String :=
  ((topo.role_assignments.filter (·.preferred)).filter
      (fun a => a.role != "device_consumption")).map (·.entity_id)

/-- `consumption_parents`: a dict comprehension over preferred
consumption assignments with a truthy parent (later duplicates
overwrite earlier ones). -/
def consumption_parents_of (topo : EnergyTopology) (eid : String) :
    Option String :=
  (((topo.role_assignments.filter (·.preferred)).filter
        (fun a => a.role == "device_consumption" &&
          optStrTruthy a.parent_entity_id)).reverse.find?
      (fun a => a.entity_id == eid)).bind (·.parent_entity_id)

/-- `consumption_rates`: as above, for the truthy rate entity. -/
def consumption_rates_of (topo : EnergyTopology) (eid : String) :
    Option String :=
  (((topo.role_assignments.filter (·.preferred)).filter
        (fun a => a.role == "device_consumption" &&
          optStrTruthy a.rate_entity_id)).reverse.find?
      (fun a => a.entity_id == eid)).bind (·.rate_entity_id)

/-- `proposed_source_rates`: dedup key of a proposed source mapped to
its (possibly absent) `stat_rate`, later entries overwriting
earlier. -/
def proposed_rate_of (topo : EnergyTopology) (k : String) : Option String :=
  ((getSources (build_topology_aware_config topo)).reverse.find?
      (fun s => source_key s == some k)).bind
    (fun s =>
      match lookupA s "stat_rate" with
      | some (.pv (.ps r)) => some r
      | _ => none)

/-- `apply_topology_prefs` (the `hass_atlas` version, with the
stat-rate update): authoritative replacement of the SPAN-managed
slice of the document. -/
def apply_topology_prefs (current : PrefsDoc) (topo : EnergyTopology) :
    PrefsDoc :=
  let skipped := skipped_eids_of topo
  let cp := consumption_parents_of topo
  let cr := consumption_rates_of topo
  let consRun :=
    apply_consumption_loop skipped cp cr (wanted_consumption_of topo)
      (getConsumption current)
  let keepConsumption :=
    consRun.1 ++ (insSortStr consRun.2).map (newConsEntry cp cr)
  let result1 := setA current "device_consumption" (.cons keepConsumption)
  let srcRun :=
    apply_sources_loop skipped (wanted_source_eids_of topo)
      (proposed_rate_of topo) (getSources result1)
  let keepSources :=
    srcRun.1 ++
      apply_sources_append srcRun.2 (getSources (build_topology_aware_config topo))
  setA result1 "energy_sources" (.srcs keepSources)

/-! ## `registry.py` — tree builder and state enrichment (hass_atlas) -/

/-- `_is_span_device`: the device owns a `span_ebus` identifier. -/
def is_span_device (device : HADevice) : Bool :=
  device.identifiers.any (fun p => p.1 == "span_ebus")

/-- Replace a device in place by id, or append (the Python
`span_devices[device.id] = device` dict assignment). -/
def setDeviceById : List HADevice → HADevice → List HADevice
  | [], d => [d]
  | d' :: rest, d =>
    if d'.id == d.id then d :: rest else d' :: setDeviceById rest d

/-- The entity index restricted to one device (Python groups entities
by truthy `device_id`; lookup of an absent key yields `[]`). -/
def entitiesForDevice (entities : List HAEntity) (did : String) :
    List HAEntity :=
  entities.filter (fun e =>
    match e.device_id with
    | some v => v != "" && v == did
    | none => false)

/-- The `span_devices` dict of `_build_trees`: span devices with
their entities attached, in insertion order with id overwrite. -/
def span_devices_of (devices : List HADevice) (entities : List HAEntity) :
    List HADevice :=
  devices.foldl
    (fun acc d =>
      if is_span_device d then
        setDeviceById acc { d with entities := entitiesForDevice entities d.id }
      else acc) []

/-- The panel condition of the `hass_atlas` `_build_trees`: model is
the SPAN Panel model, or the `via` reference does not resolve to
another span device. -/
def isPanelDevice (span_devices : List HADevice) (d : HADevice) : Bool :=
  d.model == some "SPAN Panel" ||
    !(match d.via_device_id with
      | some v => v != "" && span_devices.any (fun sd => sd.id == v)
      | none => false)

/-- The panel list of `_build_trees`. -/
def panels_of (span_devices : List HADevice) : List HADevice :=
  span_devices.filter (isPanelDevice span_devices)

/-- The children-by-parent grouping of `_build_trees`. -/
def children_by_parent_of (span_devices : List HADevice) :
    List (String × List HADevice) :=
  span_devices.foldl
    (fun acc d =>
      if isPanelDevice span_devices d then acc
      else appendA acc ((d.via_device_id).getD "") d) []

/-- Child classification by model string (any unrecognized model
falls back to circuit). -/
def classifyChild (tree : SpanDeviceTree) (child : HADevice) :
    SpanDeviceTree :=
  let model := (child.model).getD ""
  if model == "Circuit" then { tree with circuits := tree.circuits ++ [child] }
  else if model == "Battery Storage" then { tree with battery := some child }
  else if model == "Solar PV" then { tree with solar := some child }
  else if model == "EV Charger" then { tree with ev_charger := some child }
  else if model == "Site Metering" then { tree with site_metering := some child }
  else { tree with circuits := tree.circuits ++ [child] }

/-- `_build_trees` (the `hass_atlas` version, with the SPAN-Panel
model check). -/
def build_trees (devices : List HADevice) (entities : List HAEntity) :
    List SpanDeviceTree :=
  let span_devices := span_devices_of devices entities
  let children_by_parent := children_by_parent_of span_devices
  (panels_of span_devices).map (fun panel =>
    ((lookupA children_by_parent panel.id).getD []).foldl classifyChild
      { panel := panel })

/-- One entry of the live-states dict (`{"state": ..., "attributes":
...}` as produced by `fetch_entity_states`; such an entry is always a
truthy non-empty dict). -/
structure StateEntry where
  state : Prim := .ps ""
  attributes : List (String × String) := []
deriving DecidableEq

/-- `enrich_entities_from_states` on a single entity: populate
`device_class`, `state_class` and `unit_of_measurement` from the
state attributes only when the registry value is falsy. -/
def enrich_entity (states : List (String × StateEntry)) (e : HAEntity) :
    HAEntity :=
  match lookupA states e.entity_id with
  | none => e
  | some entry =>
    let attrs := entry.attributes
    let e1 :=
      if !optStrTruthy e.device_class then
        match lookupA attrs "device_class" with
        | some v => { e with device_class := some v }
        | none => e
      else e
    let e2 :=
      if !optStrTruthy e1.state_class then
        match lookupA attrs "state_class" with
        | some v => { e1 with state_class := some v }
        | none => e1
      else e1
    if !optStrTruthy e2.unit_of_measurement then
      match lookupA attrs "unit_of_measurement" with
      | some v => { e2 with unit_of_measurement := some v }
      | none => e2
    else e2

/-- `enrich_entities_from_states` (it mutates the entity list in
place in Python; the embedding returns the updated list). -/
def enrich_entities_from_states (entities : List HAEntity)
    (states : List (String × StateEntry)) : List HAEntity :=
  entities.map (enrich_entity states)

/-! ## Lemma library: strings, suffixes, association lists -/

theorem suffixB_iff {α : Type} [DecidableEq α] (sub l : List α) :
    suffixB sub l = true ↔ sub <:+ l := by
  induction l with
  | nil => simp [suffixB, List.suffix_nil]
  | cons b t ih => simp [suffixB, ih, List.suffix_cons_iff]

theorem sEndsWith_iff (s suffix : String) :
    sEndsWith s suffix = true ↔ suffix.toList <:+ s.toList := by
  simp [sEndsWith, suffixB_iff]

/-- A suffix check against `pre ++ suf` entails one against `suf`. -/
theorem sEndsWith_of_append {u pre suf : String}
    (h : sEndsWith u (pre ++ suf) = true) : sEndsWith u suf = true := by
  rw [sEndsWith_iff] at h ⊢
  refine List.IsSuffix.trans ?_ h
  rw [show (pre ++ suf).toList = pre.toList ++ suf.toList from String.data_append ..]
  exact List.suffix_append _ _

/-- Two suffixes of the same list with equal lengths are equal. -/
theorem suffix_eq_of_length {α : Type} {x y a : List α}
    (hx : x <:+ a) (hy : y <:+ a) (h : x.length = y.length) : x = y := by
  obtain ⟨u, rfl⟩ := hx
  obtain ⟨v, hv⟩ := hy
  have hlen : v.length = u.length := by
    have := congrArg List.length hv
    simp only [List.length_append] at this
    omega
  exact ((List.append_inj hv hlen).2).symm ▸ rfl

/-- A unique id cannot end both with `imported-energy` and with
`exported-energy`. -/
theorem not_imported_and_exported {u : String}
    (h1 : sEndsWith u "imported-energy" = true)
    (h2 : sEndsWith u "exported-energy" = true) : False := by
  rw [sEndsWith_iff] at h1 h2
  have := suffix_eq_of_length h1 h2 (by decide)
  simp at this

theorem lookupA_setA_same {β : Type} (l : List (String × β)) (k : String)
    (v : β) : lookupA (setA l k v) k = some v := by
  induction l with
  | nil => simp [setA, lookupA]
  | cons p rest ih =>
    obtain ⟨a, b⟩ := p
    by_cases h : a = k
    · simp [setA, h, lookupA, List.find?]
    · have hb : (a == k) = false := beq_eq_false_iff_ne.mpr h
      simpa [setA, hb, lookupA, List.find?] using ih

theorem lookupA_setA_other {β : Type} (l : List (String × β)) {k k' : String}
    (hne : k' ≠ k) (v : β) : lookupA (setA l k v) k' = lookupA l k' := by
  have hb0 : (k == k') = false := beq_eq_false_iff_ne.mpr (Ne.symm hne)
  induction l with
  | nil => simp [setA, lookupA, List.find?, hb0]
  | cons p rest ih =>
    obtain ⟨a, b⟩ := p
    by_cases h : a = k
    · have hb : (a == k) = true := beq_iff_eq.mpr h
      have hb2 : (a == k') = false := beq_eq_false_iff_ne.mpr (h ▸ Ne.symm hne)
      simp [setA, hb, lookupA, List.find?, hb2]
    · have hb : (a == k) = false := beq_eq_false_iff_ne.mpr h
      by_cases h2 : a = k'
      · have hb2 : (a == k') = true := beq_iff_eq.mpr h2
        simp [setA, hb, lookupA, List.find?, hb2]
      · have hb2 : (a == k') = false := beq_eq_false_iff_ne.mpr h2
        simpa [setA, hb, lookupA, List.find?, hb2] using ih

/-- Re-assigning the value a key already holds leaves the association
list unchanged. -/
theorem setA_self {β : Type} {l : List (String × β)} {k : String} {v : β}
    (h : lookupA l k = some v) : setA l k v = l := by
  induction l with
  | nil => simp [lookupA] at h
  | cons p rest ih =>
    obtain ⟨a, b⟩ := p
    by_cases hk : a = k
    · have hb : (a == k) = true := beq_iff_eq.mpr hk
      simp only [lookupA, List.find?, hb, Option.map_some] at h
      simp only [setA, hb, if_pos rfl]
      simp_all
    · have hb : (a == k) = false := beq_eq_false_iff_ne.mpr hk
      simp only [lookupA, List.find?, hb] at h
      simp only [setA, hb]
      simp only [Bool.false_eq_true, if_false]
      rw [ih h]

/-- A pair under a different key survives `setA`. -/
theorem mem_setA_of_ne {β : Type} {l : List (String × β)} {k k' : String}
    {v v' : β} (hm : (k', v') ∈ l) (hne : k' ≠ k) :
    (k', v') ∈ setA l k v := by
  induction l with
  | nil => simp at hm
  | cons p rest ih =>
    obtain ⟨a, b⟩ := p
    rcases List.mem_cons.mp hm with hm1 | hm2
    · rw [← hm1]
      have hb : (k' == k) = false := beq_eq_false_iff_ne.mpr hne
      simp [setA, hb]
    · by_cases hk : a = k
      · have hb : (a == k) = true := beq_iff_eq.mpr hk
        simp [setA, hb, hm2]
      · have hb : (a == k) = false := beq_eq_false_iff_ne.mpr hk
        simp only [setA, hb, Bool.false_eq_true, if_false]
        exact List.mem_cons_of_mem _ (ih hm2)

/-! ## Claim C7 — upstream lookup fallback chain -/

/-- C7: for every tree and suffix, `_find_upstream_energy` returns
the first non-null of exactly three lookups, in order: (1) the first
enabled entity on the panel whose unique id ends with
`lugs-upstream_` followed by the suffix, (2) the first enabled
entity on the site-metering child whose unique id ends with the
suffix, (3) the first enabled entity on the panel whose unique id
ends with the suffix; and `none` when all three are absent. -/
theorem upstream_fallback_chain (t : SpanDeviceTree) (suffix : String) :
    find_upstream_energy t suffix =
      ((t.panel.entities.find? (fun e =>
          !optStrTruthy e.disabled_by &&
            sEndsWith e.unique_id ("lugs-upstream_" ++ suffix))).orElse
        (fun _ =>
          (t.site_metering.bind (fun sm =>
              sm.entities.find? (fun e =>
                !optStrTruthy e.disabled_by &&
                  sEndsWith e.unique_id suffix))).orElse
            (fun _ =>
              t.panel.entities.find? (fun e =>
                !optStrTruthy e.disabled_by &&
                  sEndsWith e.unique_id suffix)))) := by
  unfold find_upstream_energy find_circuit_entity
  cases h1 : t.panel.entities.find? (fun e =>
      !optStrTruthy e.disabled_by &&
        sEndsWith e.unique_id ("lugs-upstream_" ++ suffix)) with
  | some e => simp [Option.orElse]
  | none =>
    cases hsm : t.site_metering with
    | none => simp [Option.orElse]
    | some sm =>
      cases h2 : sm.entities.find? (fun e =>
          !optStrTruthy e.disabled_by && sEndsWith e.unique_id suffix) with
      | some e => simp [Option.orElse, h2]
      | none => simp [Option.orElse, h2]

/-! ## Claim C10 — enrichment never overwrites registry values -/

/-- The per-field update rule of `enrich_entity`: keep a truthy
value, otherwise take the attribute when present. -/
def enrichField (attrs : List (String × String)) (old : Option String)
    (k : String) : Option String :=
  if optStrTruthy old then old
  else
    match lookupA attrs k with
    | some v => some v
    | none => old

/-- Closed form of `enrich_entity` when a state entry exists. -/
theorem enrich_entity_eq (states : List (String × StateEntry)) (e : HAEntity)
    (entry : StateEntry) (hs : lookupA states e.entity_id = some entry) :
    enrich_entity states e =
      { e with
        device_class := enrichField entry.attributes e.device_class "device_class",
        state_class := enrichField entry.attributes e.state_class "state_class",
        unit_of_measurement :=
          enrichField entry.attributes e.unit_of_measurement "unit_of_measurement" } := by
  simp only [enrich_entity, hs, enrichField]
  by_cases t1 : optStrTruthy e.device_class <;>
    by_cases t2 : optStrTruthy e.state_class <;>
    by_cases t3 : optStrTruthy e.unit_of_measurement <;>
    cases hdc : lookupA entry.attributes "device_class" <;>
    cases hsc : lookupA entry.attributes "state_class" <;>
    cases hu : lookupA entry.attributes "unit_of_measurement" <;>
    simp [t1, t2, t3, hdc, hsc, hu]

/-- C10: `enrich_entities_from_states` never overwrites a (truthy)
value already present on an entity — `device_class`, `state_class`
and `unit_of_measurement` are unchanged whenever already set, even
when the state attributes carry a different value — and a field that
is absent is populated from the corresponding state attribute when
one exists. -/
theorem enrich_never_overwrites (states : List (String × StateEntry))
    (e : HAEntity) :
    (optStrTruthy e.device_class = true →
      (enrich_entity states e).device_class = e.device_class) ∧
    (optStrTruthy e.state_class = true →
      (enrich_entity states e).state_class = e.state_class) ∧
    (optStrTruthy e.unit_of_measurement = true →
      (enrich_entity states e).unit_of_measurement = e.unit_of_measurement) ∧
    (∀ entry v, optStrTruthy e.device_class = false →
      lookupA states e.entity_id = some entry →
      lookupA entry.attributes "device_class" = some v →
      (enrich_entity states e).device_class = some v) := by
  cases hs : lookupA states e.entity_id with
  | none => simp [enrich_entity, hs]
  | some entry =>
    rw [enrich_entity_eq states e entry hs]
    refine ⟨fun h1 => ?_, fun h2 => ?_, fun h3 => ?_,
      fun entry' v h4 hs' ha => ?_⟩
    · simp [enrichField, h1]
    · simp [enrichField, h2]
    · simp [enrichField, h3]
    · have he : entry' = entry := (Option.some_inj.mp hs').symm
      subst he
      simp [enrichField, h4, ha]

/-! ## Claims C8/C9 — tree-builder partition and cycle handling -/

theorem lookupA_appendA_same {β : Type} (m : List (String × List β))
    (k : String) (v : β) :
    lookupA (appendA m k v) k = some ((lookupA m k).getD [] ++ [v]) := by
  induction m with
  | nil => simp [appendA, lookupA]
  | cons p rest ih =>
    obtain ⟨a, vs⟩ := p
    by_cases h : a = k
    · simp [appendA, h, lookupA, List.find?]
    · have hb : (a == k) = false := beq_eq_false_iff_ne.mpr h
      simpa [appendA, hb, lookupA, List.find?] using ih

theorem lookupA_appendA_other {β : Type} (m : List (String × List β))
    {k k' : String} (hne : k' ≠ k) (v : β) :
    lookupA (appendA m k v) k' = lookupA m k' := by
  have hb0 : (k == k') = false := beq_eq_false_iff_ne.mpr (Ne.symm hne)
  induction m with
  | nil => simp [appendA, lookupA, List.find?, hb0]
  | cons p rest ih =>
    obtain ⟨a, vs⟩ := p
    by_cases h : a = k
    · have hb : (a == k) = true := beq_iff_eq.mpr h
      have hb2 : (a == k') = false := beq_eq_false_iff_ne.mpr (h ▸ Ne.symm hne)
      simp [appendA, hb, lookupA, List.find?, hb2]
    · have hb : (a == k) = false := beq_eq_false_iff_ne.mpr h
      by_cases h2 : a = k'
      · have hb2 : (a == k') = true := beq_iff_eq.mpr h2
        simp [appendA, hb, lookupA, List.find?, hb2]
      · have hb2 : (a == k') = false := beq_eq_false_iff_ne.mpr h2
        simpa [appendA, hb, lookupA, List.find?, hb2] using ih

/-- The children-grouping fold only grows each bucket. -/
theorem childmap_mono (sd : List HADevice) :
    ∀ (l : List HADevice) (acc : List (String × List HADevice)) (k : String)
      (x : HADevice), x ∈ (lookupA acc k).getD [] →
      x ∈ (lookupA (l.foldl
        (fun acc d =>
          if isPanelDevice sd d then acc
          else appendA acc ((d.via_device_id).getD "") d) acc) k).getD [] := by
  intro l
  induction l with
  | nil => intro acc k x hx; simpa using hx
  | cons d rest ih =>
    intro acc k x hx
    simp only [List.foldl_cons]
    by_cases hp : isPanelDevice sd d
    · rw [if_pos hp]; exact ih acc k x hx
    · rw [if_neg hp]
      refine ih _ k x ?_
      by_cases hk : ((d.via_device_id).getD "") = k
      · rw [← hk] at hx ⊢
        rw [lookupA_appendA_same]
        simp only [Option.getD_some]
        exact List.mem_append_left _ hx
      · rw [lookupA_appendA_other _ (fun h => hk h.symm)]
        exact hx

/-- Every non-panel span device processed by the grouping fold ends
up in the bucket of its `via` key. -/
theorem childmap_mem (sd : List HADevice) :
    ∀ (l : List HADevice) (acc : List (String × List HADevice)) (d : HADevice),
      d ∈ l → isPanelDevice sd d = false →
      d ∈ (lookupA (l.foldl
        (fun acc d =>
          if isPanelDevice sd d then acc
          else appendA acc ((d.via_device_id).getD "") d) acc)
        ((d.via_device_id).getD "")).getD [] := by
  intro l
  induction l with
  | nil => intro acc d hd; simp at hd
  | cons h rest ih =>
    intro acc d hd hnp
    rcases List.mem_cons.mp hd with rfl | hmem
    · simp only [List.foldl_cons, hnp, Bool.false_eq_true, if_false]
      refine childmap_mono sd rest _ _ _ ?_
      rw [lookupA_appendA_same]
      simp
    · simp only [List.foldl_cons]
      by_cases hp : isPanelDevice sd h
      · rw [if_pos hp]; exact ih acc d hmem hnp
      · rw [if_neg hp]; exact ih _ d hmem hnp

/-- The Bool panel condition as a proposition. -/
theorem isPanelDevice_iff (sd : List HADevice) (d : HADevice) :
    isPanelDevice sd d = true ↔
      (d.model = some "SPAN Panel" ∨
        ¬ ∃ v, d.via_device_id = some v ∧ v ≠ "" ∧ ∃ p ∈ sd, p.id = v) := by
  unfold isPanelDevice
  cases hv : d.via_device_id with
  | none => simp
  | some v =>
    by_cases hvv : v = ""
    · subst hvv; simp
    · simp [hvv, List.any_eq_true]

/-- C8: a span device is treated as a root panel exactly when its
model equals the SPAN Panel model or its `via` reference does not
resolve to another span device; every remaining span device is
grouped as a child under its immediate `via` parent. -/
theorem tree_builder_partition (devices : List HADevice)
    (entities : List HAEntity) (d : HADevice)
    (hd : d ∈ span_devices_of devices entities) :
    (d ∈ panels_of (span_devices_of devices entities) ↔
      (d.model = some "SPAN Panel" ∨
        ¬ ∃ v, d.via_device_id = some v ∧ v ≠ "" ∧
          ∃ p ∈ span_devices_of devices entities, p.id = v)) ∧
    (d ∉ panels_of (span_devices_of devices entities) →
      ∃ v, d.via_device_id = some v ∧
        d ∈ (lookupA (children_by_parent_of (span_devices_of devices entities))
          v).getD []) := by
  set sd := span_devices_of devices entities with hsd
  constructor
  · rw [panels_of, List.mem_filter]
    rw [isPanelDevice_iff]
    exact ⟨fun h => h.2, fun h => ⟨hd, h⟩⟩
  · intro hnp
    have hb : isPanelDevice sd d = false := by
      by_contra hc
      have : isPanelDevice sd d = true := by
        cases h : isPanelDevice sd d
        · exact absurd h hc
        · rfl
      exact hnp (List.mem_filter.mpr ⟨hd, this⟩)
    have hv : ∃ v, d.via_device_id = some v ∧ v ≠ "" := by
      cases hvv : d.via_device_id with
      | none =>
        exfalso
        have ht : isPanelDevice sd d = true := by
          rw [isPanelDevice_iff]
          exact Or.inr (by rintro ⟨v, hv, _⟩; rw [hvv] at hv; cases hv)
        rw [ht] at hb; cases hb
      | some v =>
        refine ⟨v, rfl, ?_⟩
        intro hvv2
        subst hvv2
        have ht : isPanelDevice sd d = true := by
          rw [isPanelDevice_iff]
          exact Or.inr (by
            rintro ⟨w, hw, hwne, _⟩
            rw [hvv] at hw
            cases hw
            exact hwne rfl)
        rw [ht] at hb; cases hb
    obtain ⟨v, hveq, hvne⟩ := hv
    refine ⟨v, hveq, ?_⟩
    have := childmap_mem sd sd [] d hd hb
    rw [children_by_parent_of]
    rw [hveq] at this
    simpa using this

/-- Two span devices of an unrecognized (circuit) model whose `via`
references form a two-cycle. -/
def cycDevA : HADevice :=
  { id := "a", model := some "Circuit",
    identifiers := [("span_ebus", "s_a")], via_device_id := some "b" }

def cycDevB : HADevice :=
  { id := "b", model := some "Circuit",
    identifiers := [("span_ebus", "s_b")], via_device_id := some "a" }

/-- C9 (failing input): on a `via` cycle among span devices the tree
builder returns no trees at all — both devices are classified as
children, no panel exists, and the devices are silently dropped;
`_build_trees` has no warning output at all, so no warning can be
recorded, contradicting the required abort-with-warning behaviour. -/
theorem via_cycle_silently_dropped : build_trees [cycDevA, cycDevB] [] = [] := by
  decide

/-! ## Claim C5 — merge idempotence -/

/-- The key set carried by the source loop stays in sync with the
accumulated list. -/
theorem merge_sources_loop_keys :
    ∀ (prop : List Source) (lst : List Source) (keys : List String),
      keys = lst.filterMap source_key →
      (merge_sources_loop (lst, keys) prop).2 =
        (merge_sources_loop (lst, keys) prop).1.filterMap source_key := by
  intro prop
  induction prop with
  | nil => intro lst keys h; simpa [merge_sources_loop] using h
  | cons s rest ih =>
    intro lst keys h
    cases hk : source_key s with
    | none =>
      simp only [merge_sources_loop, hk]
      exact ih (lst ++ [s]) keys (by rw [h, List.filterMap_append]; simp [hk])
    | some k =>
      simp only [merge_sources_loop, hk]
      by_cases hmem : keys.contains k
      · rw [if_pos hmem]; exact ih lst keys h
      · rw [if_neg hmem]
        exact ih (lst ++ [s]) (keys ++ [k])
          (by rw [h, List.filterMap_append]; simp [hk])

/-- Keys only accumulate along the source loop. -/
theorem merge_sources_loop_keys_mono :
    ∀ (prop : List Source) (acc : List Source × List String) (x : String),
      x ∈ acc.2 → x ∈ (merge_sources_loop acc prop).2 := by
  intro prop
  induction prop with
  | nil => intro acc x hx; simpa [merge_sources_loop] using hx
  | cons s rest ih =>
    intro acc x hx
    cases hk : source_key s with
    | none => simp only [merge_sources_loop, hk]; exact ih _ x hx
    | some k =>
      simp only [merge_sources_loop, hk]
      by_cases hmem : acc.2.contains k
      · rw [if_pos hmem]; exact ih _ x hx
      · rw [if_neg hmem]; exact ih _ x (List.mem_append_left _ hx)

/-- After the source loop, the key of every proposed recognized-type
source is present in the key set. -/
theorem merge_sources_loop_covers :
    ∀ (prop : List Source) (acc : List Source × List String) (s : Source)
      (k : String), s ∈ prop → source_key s = some k →
      k ∈ (merge_sources_loop acc prop).2 := by
  intro prop
  induction prop with
  | nil => intro acc s k hs; simp at hs
  | cons t rest ih =>
    intro acc s k hs hk
    rcases List.mem_cons.mp hs with rfl | hmem
    · simp only [merge_sources_loop, hk]
      by_cases hmemk : acc.2.contains k
      · rw [if_pos hmemk]
        exact merge_sources_loop_keys_mono rest acc k (by simpa using hmemk)
      · rw [if_neg hmemk]
        exact merge_sources_loop_keys_mono rest _ k (by simp)
    · cases hkt : source_key t with
      | none => simp only [merge_sources_loop, hkt]; exact ih _ s k hmem hk
      | some kt =>
        simp only [merge_sources_loop, hkt]
        by_cases hmemk : acc.2.contains kt
        · rw [if_pos hmemk]; exact ih _ s k hmem hk
        · rw [if_neg hmemk]; exact ih _ s k hmem hk

/-- When every proposed source has a recognized type and its key is
already present, the source loop is the identity. -/
theorem merge_sources_loop_stable :
    ∀ (prop : List Source) (acc : List Source × List String),
      (∀ s ∈ prop, ∃ k, source_key s = some k ∧ acc.2.contains k) →
      merge_sources_loop acc prop = acc := by
  intro prop
  induction prop with
  | nil => intro acc _; simp [merge_sources_loop]
  | cons s rest ih =>
    intro acc h
    obtain ⟨k, hk, hmem⟩ := h s (List.mem_cons_self s rest)
    simp only [merge_sources_loop, hk, if_pos hmem]
    exact ih acc (fun t ht => h t (List.mem_cons_of_mem _ ht))

/-- The stat set carried by the consumption loop stays in sync. -/
theorem merge_consumption_loop_keys :
    ∀ (prop : List Obj) (lst : List Obj) (stats : List (Option Prim)),
      stats = lst.map (fun e => lookupA e "stat_consumption") →
      (merge_consumption_loop (lst, stats) prop).2 =
        (merge_consumption_loop (lst, stats) prop).1.map
          (fun e => lookupA e "stat_consumption") := by
  intro prop
  induction prop with
  | nil => intro lst stats h; simpa [merge_consumption_loop] using h
  | cons e rest ih =>
    intro lst stats h
    simp only [merge_consumption_loop]
    by_cases hmem : stats.contains (lookupA e "stat_consumption")
    · rw [if_pos hmem]; exact ih lst stats h
    · rw [if_neg hmem]
      exact ih (lst ++ [e]) _ (by rw [h]; simp)

theorem merge_consumption_loop_keys_mono :
    ∀ (prop : List Obj) (acc : List Obj × List (Option Prim))
      (x : Option Prim), x ∈ acc.2 →
      x ∈ (merge_consumption_loop acc prop).2 := by
  intro prop
  induction prop with
  | nil => intro acc x hx; simpa [merge_consumption_loop] using hx
  | cons e rest ih =>
    intro acc x hx
    simp only [merge_consumption_loop]
    by_cases hmem : acc.2.contains (lookupA e "stat_consumption")
    · rw [if_pos hmem]; exact ih _ x hx
    · rw [if_neg hmem]; exact ih _ x (List.mem_append_left _ hx)

theorem merge_consumption_loop_covers :
    ∀ (prop : List Obj) (acc : List Obj × List (Option Prim)) (e : Obj),
      e ∈ prop →
      (lookupA e "stat_consumption") ∈ (merge_consumption_loop acc prop).2 := by
  intro prop
  induction prop with
  | nil => intro acc e he; simp at he
  | cons t rest ih =>
    intro acc e he
    rcases List.mem_cons.mp he with rfl | hmem
    · simp only [merge_consumption_loop]
      by_cases hmemk : acc.2.contains (lookupA e "stat_consumption")
      · rw [if_pos hmemk]
        exact merge_consumption_loop_keys_mono rest acc _ (by simpa using hmemk)
      · rw [if_neg hmemk]
        exact merge_consumption_loop_keys_mono rest _ _ (by simp)
    · simp only [merge_consumption_loop]
      by_cases hmemk : acc.2.contains (lookupA t "stat_consumption")
      · rw [if_pos hmemk]; exact ih _ e hmem
      · rw [if_neg hmemk]; exact ih _ e hmem

theorem merge_consumption_loop_stable :
    ∀ (prop : List Obj) (acc : List Obj × List (Option Prim)),
      (∀ e ∈ prop, acc.2.contains (lookupA e "stat_consumption")) →
      merge_consumption_loop acc prop = acc := by
  intro prop
  induction prop with
  | nil => intro acc _; simp [merge_consumption_loop]
  | cons e rest ih =>
    intro acc h
    simp only [merge_consumption_loop, if_pos (h e (List.mem_cons_self e rest))]
    exact ih acc (fun t ht => h t (List.mem_cons_of_mem _ ht))

/-- `getSources` and `getConsumption` of a merged document. -/
theorem getSources_merge (P X : PrefsDoc) :
    getSources (merge_prefs P X) =
      (merge_sources_loop (getSources P, (getSources P).filterMap source_key)
        (getSources X)).1 := by
  unfold merge_prefs getSources
  rw [lookupA_setA_other _ (by decide), lookupA_setA_same]

theorem getConsumption_merge (P X : PrefsDoc) :
    getConsumption (merge_prefs P X) =
      (merge_consumption_loop
        (getConsumption P,
          (getConsumption P).map (fun e => lookupA e "stat_consumption"))
        (getConsumption X)).1 := by
  unfold merge_prefs getConsumption
  rw [lookupA_setA_same]

/-- C5 (amended): `merge` is idempotent whenever every proposed
source has a recognized type (`grid`, `solar` or `battery`), i.e.
a structural dedup key.  (For an unrecognized type the Python dedup
key is built from `id(source)`, which changes across the deep copy
performed by `merge`, so such a source is re-appended by the second
merge; see the counterexample.) -/
theorem merge_prefs_idempotent (P X : PrefsDoc)
    (hX : ∀ s ∈ getSources X, (source_key s).isSome) :
    merge_prefs (merge_prefs P X) X = merge_prefs P X := by
  set M := merge_prefs P X with hM
  have hsrc :
      merge_sources_loop (getSources M, (getSources M).filterMap source_key)
        (getSources X) = (getSources M, (getSources M).filterMap source_key) := by
    apply merge_sources_loop_stable
    intro s hs
    obtain ⟨k, hk⟩ := Option.isSome_iff_exists.mp (hX s hs)
    refine ⟨k, hk, ?_⟩
    rw [hM, getSources_merge]
    have hkeys :=
      merge_sources_loop_keys (getSources X) (getSources P)
        ((getSources P).filterMap source_key) rfl
    rw [← hkeys]
    have := merge_sources_loop_covers (getSources X)
      (getSources P, (getSources P).filterMap source_key) s k hs hk
    simpa using this
  have hcons :
      merge_consumption_loop
        (getConsumption M,
          (getConsumption M).map (fun e => lookupA e "stat_consumption"))
        (getConsumption X) =
        (getConsumption M,
          (getConsumption M).map (fun e => lookupA e "stat_consumption")) := by
    apply merge_consumption_loop_stable
    intro e he
    rw [hM, getConsumption_merge]
    have hkeys :=
      merge_consumption_loop_keys (getConsumption X) (getConsumption P)
        ((getConsumption P).map (fun e => lookupA e "stat_consumption")) rfl
    rw [← hkeys]
    have := merge_consumption_loop_covers (getConsumption X)
      (getConsumption P,
        (getConsumption P).map (fun e => lookupA e "stat_consumption")) e he
    simpa using this
  show merge_prefs M X = M
  simp only [merge_prefs]
  rw [hsrc, hcons]
  have h1 : lookupA M "energy_sources" = some (.srcs (getSources M)) := by
    rw [getSources_merge P X, hM]
    simp only [merge_prefs]
    rw [lookupA_setA_other _ (by decide), lookupA_setA_same]
  have h2 : setA M "energy_sources" (.srcs (getSources M)) = M := setA_self h1
  rw [h2]
  have h3 : lookupA M "device_consumption" = some (.cons (getConsumption M)) := by
    rw [getConsumption_merge P X, hM]
    simp only [merge_prefs]
    rw [lookupA_setA_same]
  exact setA_self h3

/-- A proposed configuration containing one unrecognized-type (gas)
source. -/
def gasX : PrefsDoc :=
  [("energy_sources", DVal.srcs [[("type", SVal.pv (.ps "gas"))]])]

/-- C5 (counterexample): merging a configuration whose source has an
unrecognized type is not idempotent — the per-object dedup key is
rebuilt from a fresh object identity after the deep copy, so the
second merge appends the gas source a second time. -/
theorem merge_prefs_not_idempotent :
    merge_prefs (merge_prefs [] gasX) gasX ≠ merge_prefs [] gasX := by
  decide

/-! ## Claim C3 — user-field preservation under apply -/

/-- `getSources` is unaffected by writing the consumption key. -/
theorem getSources_setA_dc (P : PrefsDoc) (v : DVal) :
    getSources (setA P "device_consumption" v) = getSources P := by
  unfold getSources
  rw [lookupA_setA_other _ (by decide)]

/-- The energy-source list of an applied document: the kept existing
sources followed by the appended proposed ones. -/
theorem getSources_apply (P : PrefsDoc) (T : EnergyTopology) :
    getSources (apply_topology_prefs P T) =
      (apply_sources_loop (skipped_eids_of T) (wanted_source_eids_of T)
          (proposed_rate_of T) (getSources P)).1 ++
        apply_sources_append
          (apply_sources_loop (skipped_eids_of T) (wanted_source_eids_of T)
            (proposed_rate_of T) (getSources P)).2
          (getSources (build_topology_aware_config T)) := by
  simp only [apply_topology_prefs]
  rw [getSources_setA_dc]
  unfold getSources
  rw [lookupA_setA_same]

/-- Either `updSourceRate` leaves a source unchanged, or it rewrites
exactly the `stat_rate` entry with the differing truthy rate the
topology proposes under the same dedup key. -/
theorem updSourceRate_cases (pr : String → Option String) (s : Source) :
    updSourceRate pr s = s ∨
      ∃ k r, source_key s = some k ∧ pr k = some r ∧ r ≠ "" ∧
        lookupA s "stat_rate" ≠ some (SVal.pv (.ps r)) ∧
        updSourceRate pr s = setA s "stat_rate" (SVal.pv (.ps r)) := by
  cases hsk : source_key s with
  | none => left; simp [updSourceRate, hsk]
  | some key =>
    cases hr : pr key with
    | none => left; simp [updSourceRate, hsk, hr]
    | some r =>
      by_cases hcond : (r != "" &&
          (lookupA s "stat_rate" != some (SVal.pv (.ps r)))) = true
      · right
        refine ⟨key, r, rfl, hr,
          by simpa using ((Bool.and_eq_true _ _).mp hcond).1,
          by simpa using ((Bool.and_eq_true _ _).mp hcond).2,
          by simp [updSourceRate, hsk, hr, hcond]⟩
      · left; simp [updSourceRate, hsk, hr, hcond]

/-- Every pair of a source except `stat_rate` survives
`updSourceRate`. -/
theorem mem_updSourceRate (pr : String → Option String) (s : Source)
    {k : String} {v : SVal} (hkv : (k, v) ∈ s) (hkne : k ≠ "stat_rate") :
    (k, v) ∈ updSourceRate pr s := by
  rcases updSourceRate_cases pr s with h | ⟨_, _, _, _, _, _, h⟩ <;> rw [h]
  · exact hkv
  · exact mem_setA_of_ne hkv hkne

/-- A kept existing source appears in the loop output: unchanged in
the user branch, rate-updated in the all-wanted branch. -/
theorem apply_sources_loop_mem (skipped wanted : List String)
    (pr : String → Option String) :
    ∀ (l : List Source) (s : Source), s ∈ l →
      (extract_source_entity_ids s).any (primInStrs skipped) = false →
      (if !(extract_source_entity_ids s).isEmpty &&
          (extract_source_entity_ids s).all (primInStrs wanted) then
        updSourceRate pr s
      else s) ∈ (apply_sources_loop skipped wanted pr l).1 := by
  intro l
  induction l with
  | nil => intro s hs; simp at hs
  | cons t rest ih =>
    intro s hs hk
    rcases List.mem_cons.mp hs with rfl | hmem
    · simp only [apply_sources_loop, hk]
      by_cases hw : (!(extract_source_entity_ids s).isEmpty &&
          (extract_source_entity_ids s).all (primInStrs wanted)) = true
      · simp only [hw, if_true, Bool.false_eq_true, if_false]
        exact List.mem_cons_self _ _
      · simp only [hw, Bool.false_eq_true, if_false]
        exact List.mem_cons_self _ _
    · simp only [apply_sources_loop]
      by_cases hdrop : (extract_source_entity_ids t).any (primInStrs skipped) = true
      · rw [if_pos hdrop]; exact ih s hmem hk
      · rw [if_neg hdrop]
        by_cases hw : (!(extract_source_entity_ids t).isEmpty &&
            (extract_source_entity_ids t).all (primInStrs wanted)) = true
        · rw [if_pos hw]; exact List.mem_cons_of_mem _ (ih s hmem hk)
        · rw [if_neg hw]; exact List.mem_cons_of_mem _ (ih s hmem hk)

/-- C3: every key/value pair of a source object of `P` that
`apply_topology_prefs` keeps (its entity ids touch no skipped id) is
present unchanged in the output, with the single exception of
`stat_rate`, which is replaced only when the topology proposes a
different truthy rate for the source with the same dedup key; a kept
source is never split or re-shaped — the output contains the object
itself or the object with only its `stat_rate` entry rewritten. -/
theorem apply_preserves_user_fields (P : PrefsDoc) (T : EnergyTopology)
    (s : Source) (hs : s ∈ getSources P)
    (hkept : (extract_source_entity_ids s).any
      (primInStrs (skipped_eids_of T)) = false) :
    ∃ s', s' ∈ getSources (apply_topology_prefs P T) ∧
      (∀ k v, (k, v) ∈ s → k ≠ "stat_rate" → (k, v) ∈ s') ∧
      (s' = s ∨ ∃ k r, source_key s = some k ∧
        proposed_rate_of T k = some r ∧ r ≠ "" ∧
        lookupA s "stat_rate" ≠ some (SVal.pv (.ps r)) ∧
        s' = setA s "stat_rate" (SVal.pv (.ps r))) := by
  by_cases hw : (!(extract_source_entity_ids s).isEmpty &&
      (extract_source_entity_ids s).all
        (primInStrs (wanted_source_eids_of T))) = true
  · refine ⟨updSourceRate (proposed_rate_of T) s, ?_, ?_, ?_⟩
    · rw [getSources_apply]
      have := apply_sources_loop_mem (skipped_eids_of T)
        (wanted_source_eids_of T) (proposed_rate_of T) (getSources P) s hs hkept
      rw [if_pos hw] at this
      exact List.mem_append_left _ this
    · intro k v hkv hkne
      exact mem_updSourceRate _ _ hkv hkne
    · exact updSourceRate_cases (proposed_rate_of T) s
  · refine ⟨s, ?_, fun k v hkv _ => hkv, Or.inl rfl⟩
    rw [getSources_apply]
    have := apply_sources_loop_mem (skipped_eids_of T)
      (wanted_source_eids_of T) (proposed_rate_of T) (getSources P) s hs hkept
    rw [if_neg hw] at this
    exact List.mem_append_left _ this

/-! ## Claim C4 — apply idempotence (consumption side) -/

/-- `insertAsc` permutes a cons. -/
theorem insertAsc_perm (a : String) (l : List String) :
    List.Perm (insertAsc a l) (a :: l) := by
  induction l with
  | nil => simp [insertAsc]
  | cons b t ih =>
    by_cases h : strLeB a b
    · simp [insertAsc, h]
    · simp only [insertAsc, h, Bool.false_eq_true, if_false]
      exact (List.Perm.cons b ih).trans (List.Perm.swap a b t)

/-- The insertion sort permutes its input. -/
theorem insSortStr_perm (l : List String) : List.Perm (insSortStr l) l := by
  induction l with
  | nil => simp [insSortStr]
  | cons a t ih =>
    exact (insertAsc_perm a (insSortStr t)).trans (List.Perm.cons a ih)

/-- `dedupStr` produces a list without duplicates. -/
theorem dedupStr_nodup (l : List String) : (dedupStr l).Nodup := by
  induction l with
  | nil => simp [dedupStr]
  | cons s rest ih =>
    simp only [dedupStr]
    by_cases h : (dedupStr rest).contains s
    · rw [if_pos h]; exact ih
    · rw [if_neg h]
      refine List.nodup_cons.mpr ⟨?_, ih⟩
      simpa using h

/-- The consumption stat of an updated entry is unchanged. -/
theorem lookupA_updConsEntry_stat (cp cr : String → Option String)
    (s : String) (e : Obj) :
    lookupA (updConsEntry cp cr s e) "stat_consumption" =
      lookupA e "stat_consumption" := by
  cases hp : cp s <;> cases hr : cr s <;>
    simp only [updConsEntry, hp, hr] <;>
    (try rw [lookupA_setA_other _ (by decide)]) <;>
    (try rw [lookupA_setA_other _ (by decide)])

/-- Updating a consumption entry twice equals updating it once. -/
theorem updConsEntry_idem (cp cr : String → Option String) (s : String)
    (e : Obj) :
    updConsEntry cp cr s (updConsEntry cp cr s e) = updConsEntry cp cr s e := by
  cases hp : cp s with
  | none =>
    cases hr : cr s with
    | none => simp [updConsEntry, hp, hr]
    | some w =>
      simp only [updConsEntry, hp, hr]
      exact setA_self (lookupA_setA_same ..)
  | some v =>
    cases hr : cr s with
    | none =>
      simp only [updConsEntry, hp, hr]
      exact setA_self (lookupA_setA_same ..)
    | some w =>
      simp only [updConsEntry, hp, hr]
      have h1 : setA (setA (setA e "included_in_stat" (Prim.ps v)) "stat_rate"
          (Prim.ps w)) "included_in_stat" (Prim.ps v) =
          setA (setA e "included_in_stat" (Prim.ps v)) "stat_rate" (Prim.ps w) := by
        apply setA_self
        rw [lookupA_setA_other _ (by decide), lookupA_setA_same]
      rw [h1]
      exact setA_self (lookupA_setA_same ..)

/-- A fresh consumption entry carries its stat at the head. -/
theorem lookupA_newConsEntry_stat (cp cr : String → Option String)
    (s : String) :
    lookupA (newConsEntry cp cr s) "stat_consumption" = some (Prim.ps s) := by
  cases hp : cp s <;> cases hr : cr s <;>
    simp [newConsEntry, hp, hr, lookupA, List.find?]

/-- Updating a fresh entry changes nothing. -/
theorem updConsEntry_newConsEntry (cp cr : String → Option String)
    (s : String) :
    updConsEntry cp cr s (newConsEntry cp cr s) = newConsEntry cp cr s := by
  cases hp : cp s with
  | none =>
    cases hr : cr s with
    | none => simp [updConsEntry, hp, hr]
    | some w =>
      simp only [updConsEntry, newConsEntry, hp, hr]
      apply setA_self
      simp [lookupA, List.find?]
  | some v =>
    cases hr : cr s with
    | none =>
      simp only [updConsEntry, newConsEntry, hp, hr]
      apply setA_self
      simp [lookupA, List.find?]
    | some w =>
      simp only [updConsEntry, newConsEntry, hp, hr]
      have h1 : setA (([("stat_consumption", Prim.ps s)] ++
          [("included_in_stat", Prim.ps v)]) ++ [("stat_rate", Prim.ps w)])
          "included_in_stat" (Prim.ps v) =
          ([("stat_consumption", Prim.ps s)] ++
            [("included_in_stat", Prim.ps v)]) ++ [("stat_rate", Prim.ps w)] := by
        apply setA_self
        simp [lookupA, List.find?]
      rw [h1]
      apply setA_self
      simp [lookupA, List.find?]

/-- Erasing, one by one, a permutation of a duplicate-free list
empties it. -/
theorem foldl_erase_nil :
    ∀ (l W : List String), W.Nodup → List.Perm l W →
      l.foldl (fun acc s => acc.erase s) W = [] := by
  intro l
  induction l with
  | nil =>
    intro W _ hperm
    simpa using (List.perm_nil.mp hperm.symm).symm
  | cons s rest ih =>
    intro W hW hperm
    simp only [List.foldl_cons]
    refine ih (W.erase s) (hW.erase s) ?_
    have h1 : List.Perm (W.erase s) ((s :: rest).erase s) :=
      (hperm.symm).erase s
    rw [List.erase_cons_head] at h1
    exact h1.symm

/-- The consumption loop maps fresh wanted entries to themselves,
erasing their ids from the wanted set. -/
theorem cons_loop_on_new (skipped : List String)
    (cp cr : String → Option String) :
    ∀ (l : List String) (W : List String), l.Nodup → (∀ s ∈ l, s ∈ W) →
      apply_consumption_loop skipped cp cr W (l.map (newConsEntry cp cr)) =
        (l.map (newConsEntry cp cr), l.foldl (fun acc s => acc.erase s) W) := by
  intro l
  induction l with
  | nil => intro W _ _; simp [apply_consumption_loop]
  | cons s rest ih =>
    intro W hnd hsub
    have hstat := lookupA_newConsEntry_stat cp cr s
    have hmem : W.contains s := by
      simpa using hsub s (List.mem_cons_self s rest)
    simp only [List.map_cons, apply_consumption_loop, hstat, Option.getD_some,
      hmem, if_pos]
    rw [updConsEntry_newConsEntry]
    have hrest : ∀ t ∈ rest, t ∈ W.erase s := by
      intro t ht
      have hne : t ≠ s := by
        intro h
        exact (List.nodup_cons.mp hnd).1 (h ▸ ht)
      exact (List.mem_erase_of_ne hne).mpr (hsub t (List.mem_cons_of_mem _ ht))
    rw [ih (W.erase s) (List.nodup_cons.mp hnd).2 hrest]
    simp

/-- The consumption idempotence kernel: re-running the loop on its
own output (kept entries plus sorted fresh entries) keeps every
entry and leaves no wanted id over. -/
theorem cons_loop_idem (skipped : List String)
    (cp cr : String → Option String) :
    ∀ (K : List Obj) (W : List String), W.Nodup →
      apply_consumption_loop skipped cp cr W
        ((apply_consumption_loop skipped cp cr W K).1 ++
          (insSortStr (apply_consumption_loop skipped cp cr W K).2).map
            (newConsEntry cp cr)) =
        ((apply_consumption_loop skipped cp cr W K).1 ++
          (insSortStr (apply_consumption_loop skipped cp cr W K).2).map
            (newConsEntry cp cr), []) := by
  intro K
  induction K with
  | nil =>
    intro W hW
    have hperm := insSortStr_perm W
    have h := cons_loop_on_new skipped cp cr (insSortStr W) W
      (hperm.nodup_iff.mpr hW) (fun s hs => hperm.mem_iff.mp hs)
    simp only [apply_consumption_loop, List.nil_append]
    rw [h, foldl_erase_nil (insSortStr W) W hW hperm]
  | cons e rest ih =>
    intro W hW
    cases hst : (lookupA e "stat_consumption").getD (Prim.ps "") with
    | ps s =>
      by_cases hw : W.contains s
      · have hupd : (lookupA (updConsEntry cp cr s e)
            "stat_consumption").getD (Prim.ps "") = Prim.ps s := by
          rw [lookupA_updConsEntry_stat, hst]
        simp only [apply_consumption_loop, hst, hw, if_pos, List.cons_append,
          List.append_eq, hupd]
        rw [updConsEntry_idem, ih (W.erase s) (hW.erase s)]
      · by_cases hsk : skipped.contains s
        · simp only [apply_consumption_loop, hst, hw, Bool.false_eq_true,
            if_false, hsk, if_pos]
          exact ih W hW
        · simp only [apply_consumption_loop, hst, hw, Bool.false_eq_true,
            if_false, hsk, List.cons_append, List.append_eq]
          rw [ih W hW]
    | pb n =>
      simp only [apply_consumption_loop, hst, List.cons_append, List.append_eq]
      rw [ih W hW]

/-! ## Claim C4 — apply idempotence (source side) -/

/-- Rewriting `stat_rate` does not change the extracted entity ids. -/
theorem extract_setA_rate (s : Source) (v : SVal) :
    extract_source_entity_ids (setA s "stat_rate" v) =
      extract_source_entity_ids s := by
  have h1 : lookupA (setA s "stat_rate" v) "flow_from" = lookupA s "flow_from" :=
    lookupA_setA_other _ (by decide) _
  have h2 : lookupA (setA s "stat_rate" v) "flow_to" = lookupA s "flow_to" :=
    lookupA_setA_other _ (by decide) _
  have h3 : lookupA (setA s "stat_rate" v) "stat_energy_from" =
      lookupA s "stat_energy_from" := lookupA_setA_other _ (by decide) _
  have h4 : lookupA (setA s "stat_rate" v) "stat_energy_to" =
      lookupA s "stat_energy_to" := lookupA_setA_other _ (by decide) _
  simp only [extract_source_entity_ids, flowsOf, primField, h1, h2, h3, h4]

/-- Rewriting `stat_rate` does not change the dedup key. -/
theorem source_key_setA_rate (s : Source) (v : SVal) :
    source_key (setA s "stat_rate" v) = source_key s := by
  have h0 : lookupA (setA s "stat_rate" v) "type" = lookupA s "type" :=
    lookupA_setA_other _ (by decide) _
  have h1 : lookupA (setA s "stat_rate" v) "flow_from" = lookupA s "flow_from" :=
    lookupA_setA_other _ (by decide) _
  have h2 : lookupA (setA s "stat_rate" v) "flow_to" = lookupA s "flow_to" :=
    lookupA_setA_other _ (by decide) _
  have h3 : lookupA (setA s "stat_rate" v) "stat_energy_from" =
      lookupA s "stat_energy_from" := lookupA_setA_other _ (by decide) _
  have h4 : lookupA (setA s "stat_rate" v) "stat_energy_to" =
      lookupA s "stat_energy_to" := lookupA_setA_other _ (by decide) _
  simp only [source_key, sourceType, srcStrD, primField, flowsOf, h0, h1, h2,
    h3, h4]

/-- Updating the rate twice equals updating it once. -/
theorem updSourceRate_idem (pr : String → Option String) (s : Source) :
    updSourceRate pr (updSourceRate pr s) = updSourceRate pr s := by
  rcases updSourceRate_cases pr s with h | ⟨k, r, hk, hr, _, _, h⟩
  · rw [h, h]
  · rw [h]
    have hkey : source_key (setA s "stat_rate" (SVal.pv (.ps r))) = some k := by
      rw [source_key_setA_rate, hk]
    have hrate : lookupA (setA s "stat_rate" (SVal.pv (.ps r))) "stat_rate" =
        some (SVal.pv (.ps r)) := lookupA_setA_same ..
    simp [updSourceRate, hkey, hr, hrate]

/-- The classifier of the existing-source loop. -/
def keepF (skipped wanted : List String) (pr : String → Option String)
    (s : Source) : Option Source :=
  if (extract_source_entity_ids s).any (primInStrs skipped) then none
  else if !(extract_source_entity_ids s).isEmpty &&
      (extract_source_entity_ids s).all (primInStrs wanted) then
    some (updSourceRate pr s)
  else some s

/-- The matched-id contribution of the existing-source loop. -/
def matchF (skipped wanted : List String) (s : Source) : List Prim :=
  if (extract_source_entity_ids s).any (primInStrs skipped) then []
  else if !(extract_source_entity_ids s).isEmpty &&
      (extract_source_entity_ids s).all (primInStrs wanted) then
    extract_source_entity_ids s
  else []

/-- The existing-source loop, element by element. -/
theorem apply_sources_loop_eq (skipped wanted : List String)
    (pr : String → Option String) :
    ∀ l : List Source,
      apply_sources_loop skipped wanted pr l =
        (l.filterMap (keepF skipped wanted pr),
          l.flatMap (matchF skipped wanted)) := by
  intro l
  induction l with
  | nil => simp [apply_sources_loop]
  | cons s rest ih =>
    simp only [apply_sources_loop, ih, List.filterMap_cons, List.flatMap_cons]
    by_cases hdrop : (extract_source_entity_ids s).any (primInStrs skipped) = true
    · simp [keepF, matchF, hdrop]
    · by_cases hw : (!(extract_source_entity_ids s).isEmpty &&
          (extract_source_entity_ids s).all (primInStrs wanted)) = true
      · simp [keepF, matchF, hdrop, hw]
      · simp [keepF, matchF, hdrop, hw]

theorem getSources_build (T : EnergyTopology) :
    getSources (build_topology_aware_config T) =
      gridPartOf T ++ solarPartOf T ++ battPartOf T := by
  simp [build_topology_aware_config, getSources, lookupA, List.find?]

theorem getConsumption_build (T : EnergyTopology) :
    getConsumption (build_topology_aware_config T) = consumptionPartOf T := by
  simp [build_topology_aware_config, getConsumption, lookupA, List.find?]

/-- Entity ids extracted from a flow list built out of assignments. -/
theorem mem_flow_extract (key : String) (L : List EnergyRole) (x : Prim)
    (hx : x ∈ (L.map (fun a => [(key, Prim.ps a.entity_id)])).filterMap
      (fun f => truthyPrim (lookupA f key))) :
    ∃ a ∈ L, x = .ps a.entity_id := by
  obtain ⟨f, hf, hx⟩ := List.mem_filterMap.mp hx
  obtain ⟨a, ha, rfl⟩ := List.mem_map.mp hf
  refine ⟨a, ha, ?_⟩
  have hl : lookupA [(key, Prim.ps a.entity_id)] key = some (.ps a.entity_id) := by
    simp [lookupA, List.find?]
  rw [hl] at hx
  simp only [truthyPrim] at hx
  by_cases he : a.entity_id == ""
  · rw [if_pos he] at hx; cases hx
  · rw [if_neg he] at hx
    exact (Option.some_inj.mp hx).symm

/-- Entity ids of the proposed grid source come from preferred grid
assignments. -/
theorem extract_gridPart (T : EnergyTopology) (s : Source) (x : Prim)
    (hs : s ∈ gridPartOf T) (hx : x ∈ extract_source_entity_ids s) :
    ∃ a ∈ preferredOf T,
      (a.role = "grid_import" ∨ a.role = "grid_export") ∧
        x = .ps a.entity_id := by
  unfold gridPartOf at hs
  by_cases hne : (!((preferredOf T).filter
        (fun a => a.role == "grid_import")).isEmpty ||
      !((preferredOf T).filter (fun a => a.role == "grid_export")).isEmpty) = true
  · rw [if_pos hne] at hs
    simp only [List.mem_singleton] at hs
    subst hs
    unfold extract_source_entity_ids at hx
    rw [show flowsOf _ "flow_from" = ((preferredOf T).filter
        (fun a => a.role == "grid_import")).map
          (fun a => [("stat_energy_from", Prim.ps a.entity_id)]) by
      simp [flowsOf, lookupA, List.find?]] at hx
    rw [show flowsOf ([("type", SVal.pv (.ps "grid")),
        ("flow_from", SVal.fl (((preferredOf T).filter
          (fun a => a.role == "grid_import")).map
            (fun a => [("stat_energy_from", Prim.ps a.entity_id)]))),
        ("flow_to", SVal.fl (((preferredOf T).filter
          (fun a => a.role == "grid_export")).map
            (fun a => [("stat_energy_to", Prim.ps a.entity_id)])))] : Source)
        "flow_to" = ((preferredOf T).filter
          (fun a => a.role == "grid_export")).map
            (fun a => [("stat_energy_to", Prim.ps a.entity_id)]) by
      simp [flowsOf, lookupA, List.find?]] at hx
    rw [show primField ([("type", SVal.pv (.ps "grid")),
        ("flow_from", SVal.fl (((preferredOf T).filter
          (fun a => a.role == "grid_import")).map
            (fun a => [("stat_energy_from", Prim.ps a.entity_id)]))),
        ("flow_to", SVal.fl (((preferredOf T).filter
          (fun a => a.role == "grid_export")).map
            (fun a => [("stat_energy_to", Prim.ps a.entity_id)])))] : Source)
        "stat_energy_from" = none by simp [primField, lookupA, List.find?]] at hx
    rw [show primField ([("type", SVal.pv (.ps "grid")),
        ("flow_from", SVal.fl (((preferredOf T).filter
          (fun a => a.role == "grid_import")).map
            (fun a => [("stat_energy_from", Prim.ps a.entity_id)]))),
        ("flow_to", SVal.fl (((preferredOf T).filter
          (fun a => a.role == "grid_export")).map
            (fun a => [("stat_energy_to", Prim.ps a.entity_id)])))] : Source)
        "stat_energy_to" = none by simp [primField, lookupA, List.find?]] at hx
    simp only [truthyPrim, Option.toList_none, List.append_nil] at hx
    rcases List.mem_append.mp hx with h | h
    · obtain ⟨a, ha, rfl⟩ := mem_flow_extract _ _ _ h
      have := List.mem_filter.mp ha
      exact ⟨a, this.1, Or.inl (by simpa using this.2), rfl⟩
    · obtain ⟨a, ha, rfl⟩ := mem_flow_extract _ _ _ h
      have := List.mem_filter.mp ha
      exact ⟨a, this.1, Or.inr (by simpa using this.2), rfl⟩
  · rw [if_neg hne] at hs
    simp at hs

theorem truthy_some_eq (e : String) (x : Prim)
    (h : truthyPrim (some (.ps e)) = some x) : x = .ps e := by
  simp only [truthyPrim] at h
  by_cases hb : e == ""
  · rw [if_pos hb] at h; cases h
  · rw [if_neg hb] at h
    exact (Option.some_inj.mp h).symm

/-- Entity ids of a proposed solar source come from the preferred
solar assignment it was built from. -/
theorem extract_solarPart (T : EnergyTopology) (s : Source) (x : Prim)
    (hs : s ∈ solarPartOf T) (hx : x ∈ extract_source_entity_ids s) :
    ∃ a ∈ preferredOf T, a.role = "solar" ∧ x = .ps a.entity_id := by
  unfold solarPartOf at hs
  obtain ⟨a, ha, rfl⟩ := List.mem_map.mp hs
  have hmf := List.mem_filter.mp ha
  refine ⟨a, hmf.1, by simpa using hmf.2, ?_⟩
  cases hr : truthyVal a.rate_entity_id with
  | none =>
    rw [hr] at hx
    have hx2 : truthyPrim (some (Prim.ps a.entity_id)) = some x ∨
        truthyPrim none = some x := by
      simpa [extract_source_entity_ids, flowsOf, primField, lookupA,
        List.find?] using hx
    rcases hx2 with h | h
    · exact truthy_some_eq _ _ h
    · simp [truthyPrim] at h
  | some r =>
    rw [hr] at hx
    have hx2 : truthyPrim (some (Prim.ps a.entity_id)) = some x ∨
        truthyPrim none = some x := by
      simpa [extract_source_entity_ids, flowsOf, primField, lookupA,
        List.find?] using hx
    rcases hx2 with h | h
    · exact truthy_some_eq _ _ h
    · simp [truthyPrim] at h

theorem truthyPrim_none : truthyPrim none = none := rfl

theorem mem_of_headQ {α : Type} {l : List α} {a : α}
    (h : l.head? = some a) : a ∈ l := by
  cases l with
  | nil => cases h
  | cons b t =>
    simp only [List.head?_cons, Option.some_inj] at h
    exact h ▸ List.mem_cons_self b t

/-- Entity ids of the proposed battery source come from preferred
battery assignments. -/
theorem extract_battPart (T : EnergyTopology) (s : Source) (x : Prim)
    (hs : s ∈ battPartOf T) (hx : x ∈ extract_source_entity_ids s) :
    ∃ a ∈ preferredOf T,
      (a.role = "battery_discharge" ∨ a.role = "battery_charge") ∧
        x = .ps a.entity_id := by
  unfold battPartOf at hs
  by_cases hne : (!((preferredOf T).filter
        (fun a => a.role == "battery_discharge")).isEmpty ||
      !((preferredOf T).filter (fun a => a.role == "battery_charge")).isEmpty) = true
  · rw [if_pos hne] at hs
    simp only [List.mem_singleton] at hs
    subst hs
    cases hbd : ((preferredOf T).filter
        (fun a => a.role == "battery_discharge")).head? with
    | none =>
      cases hbc : ((preferredOf T).filter
          (fun a => a.role == "battery_charge")).head? with
      | none =>
        cases hfr : (((preferredOf T).filter
              (fun a => a.role == "battery_discharge")) ++
            ((preferredOf T).filter (fun a => a.role == "battery_charge"))).findSome?
              (fun a => truthyVal a.rate_entity_id) <;>
          rw [hbd, hbc, hfr] at hx <;>
          simp [extract_source_entity_ids, flowsOf, primField, lookupA,
            List.find?, truthyPrim_none] at hx
      | some a2 =>
        have ha2 := List.mem_filter.mp (mem_of_headQ hbc)
        cases hfr : (((preferredOf T).filter
              (fun a => a.role == "battery_discharge")) ++
            ((preferredOf T).filter (fun a => a.role == "battery_charge"))).findSome?
              (fun a => truthyVal a.rate_entity_id) <;>
          rw [hbd, hbc, hfr] at hx <;>
          [skip; skip] <;>
          · have hx2 : truthyPrim (some (Prim.ps a2.entity_id)) = some x := by
              simpa [extract_source_entity_ids, flowsOf, primField, lookupA,
                List.find?, truthyPrim_none] using hx
            exact ⟨a2, ha2.1, Or.inr (by simpa using ha2.2),
              truthy_some_eq _ _ hx2⟩
    | some a1 =>
      have ha1 := List.mem_filter.mp (mem_of_headQ hbd)
      cases hbc : ((preferredOf T).filter
          (fun a => a.role == "battery_charge")).head? with
      | none =>
        cases hfr : (((preferredOf T).filter
              (fun a => a.role == "battery_discharge")) ++
            ((preferredOf T).filter (fun a => a.role == "battery_charge"))).findSome?
              (fun a => truthyVal a.rate_entity_id) <;>
          rw [hbd, hbc, hfr] at hx <;>
          [skip; skip] <;>
          · have hx2 : truthyPrim (some (Prim.ps a1.entity_id)) = some x := by
              simpa [extract_source_entity_ids, flowsOf, primField, lookupA,
                List.find?, truthyPrim_none] using hx
            exact ⟨a1, ha1.1, Or.inl (by simpa using ha1.2),
              truthy_some_eq _ _ hx2⟩
      | some a2 =>
        have ha2 := List.mem_filter.mp (mem_of_headQ hbc)
        cases hfr : (((preferredOf T).filter
              (fun a => a.role == "battery_discharge")) ++
            ((preferredOf T).filter (fun a => a.role == "battery_charge"))).findSome?
              (fun a => truthyVal a.rate_entity_id) <;>
          rw [hbd, hbc, hfr] at hx <;>
          [skip; skip] <;>
          · have hx2 : truthyPrim (some (Prim.ps a1.entity_id)) = some x ∨
                truthyPrim (some (Prim.ps a2.entity_id)) = some x := by
              simpa [extract_source_entity_ids, flowsOf, primField, lookupA,
                List.find?, truthyPrim_none] using hx
            rcases hx2 with h | h
            · exact ⟨a1, ha1.1, Or.inl (by simpa using ha1.2),
                truthy_some_eq _ _ h⟩
            · exact ⟨a2, ha2.1, Or.inr (by simpa using ha2.2),
                truthy_some_eq _ _ h⟩
  · rw [if_neg hne] at hs
    simp at hs

/-- Every entity id extracted from a proposed source is the id of a
preferred non-consumption assignment. -/
theorem extract_proposed_wanted (T : EnergyTopology) (p : Source) (x : Prim)
    (hp : p ∈ getSources (build_topology_aware_config T))
    (hx : x ∈ extract_source_entity_ids p) :
    ∃ e, x = Prim.ps e ∧ e ∈ wanted_source_eids_of T := by
  have hwmem : ∀ a ∈ preferredOf T, (a.role != "device_consumption") = true →
      a.entity_id ∈ wanted_source_eids_of T := by
    intro a ha hrole
    exact List.mem_map.mpr ⟨a, List.mem_filter.mpr ⟨ha, hrole⟩, rfl⟩
  rw [getSources_build] at hp
  rcases List.mem_append.mp hp with hp1 | hp2
  · rcases List.mem_append.mp hp1 with hpg | hps
    · obtain ⟨a, ha, hrole, rfl⟩ := extract_gridPart T p x hpg hx
      refine ⟨a.entity_id, rfl, hwmem a ha ?_⟩
      rcases hrole with h | h <;> rw [h] <;> decide
    · obtain ⟨a, ha, hrole, rfl⟩ := extract_solarPart T p x hps hx
      exact ⟨a.entity_id, rfl, hwmem a ha (by rw [hrole]; decide)⟩
  · obtain ⟨a, ha, hrole, rfl⟩ := extract_battPart T p x hp2 hx
    refine ⟨a.entity_id, rfl, hwmem a ha ?_⟩
    rcases hrole with h | h <;> rw [h] <;> decide

/-- Under double-claim freedom (no preferred non-consumption id is
also skipped), proposed sources touch no skipped id. -/
theorem proposed_no_skip (T : EnergyTopology)
    (H1 : ∀ e ∈ wanted_source_eids_of T, e ∉ skipped_eids_of T) :
    ∀ p ∈ getSources (build_topology_aware_config T),
      (extract_source_entity_ids p).any
        (primInStrs (skipped_eids_of T)) = false := by
  intro p hp
  rw [List.any_eq_false]
  intro x hx
  obtain ⟨e, rfl, hw⟩ := extract_proposed_wanted T p x hp hx
  simp only [primInStrs]
  simpa using H1 e hw

/-- All extracted ids of a proposed source are wanted. -/
theorem proposed_all_wanted (T : EnergyTopology) :
    ∀ p ∈ getSources (build_topology_aware_config T),
      (extract_source_entity_ids p).all
        (primInStrs (wanted_source_eids_of T)) = true := by
  intro p hp
  rw [List.all_eq_true]
  intro x hx
  obtain ⟨e, rfl, hw⟩ := extract_proposed_wanted T p x hp hx
  simp only [primInStrs]
  simpa using hw

/-- `filterMap` of a pointwise-identity classifier. -/
theorem filterMap_eq_self {α : Type} (f : α → Option α) :
    ∀ l : List α, (∀ a ∈ l, f a = some a) → l.filterMap f = l := by
  intro l
  induction l with
  | nil => intro _; simp
  | cons a rest ih =>
    intro h
    rw [List.filterMap_cons, h a (List.mem_cons_self a rest),
      ih (fun t ht => h t (List.mem_cons_of_mem _ ht))]

/-- The dedup key of a constructed solar source. -/
theorem source_key_solar_mk (a : EnergyRole) :
    source_key ([("type", SVal.pv (.ps "solar")),
        ("stat_energy_from", SVal.pv (.ps a.entity_id))] ++
      (match truthyVal a.rate_entity_id with
       | some r => [("stat_rate", SVal.pv (.ps r))]
       | none => [])) = some ("solar:" ++ a.entity_id) := by
  cases hr : truthyVal a.rate_entity_id <;>
    simp [source_key, sourceType, srcStrD, primField, flowsOf, lookupA,
      List.find?]

/-- The head character of an appended string is the head of its first part. -/
theorem headOfAppend (p s : String) (c : Char) (h : p.data.head? = some c) :
    (p ++ s).data.head? = some c := by
  rw [String.data_append]
  cases hp : p.data with
  | nil => rw [hp] at h; cases h
  | cons a t =>
      rw [hp] at h
      simpa using h

/-- Dedup keys of the proposed grid source start with `g`. -/
theorem mem_key_gridPart (T : EnergyTopology) (x : Option String)
    (hx : x ∈ (gridPartOf T).map source_key) :
    ∃ k, x = some k ∧ k.data.head? = some 'g' := by
  unfold gridPartOf at hx
  by_cases hne : (!((preferredOf T).filter
        (fun a => a.role == "grid_import")).isEmpty ||
      !((preferredOf T).filter (fun a => a.role == "grid_export")).isEmpty) = true
  · rw [if_pos hne] at hx
    simp only [List.map_cons, List.map_nil, List.mem_singleton] at hx
    subst hx
    simp only [source_key, sourceType, srcStrD, primField, flowsOf, lookupA,
      List.find?]
    refine ⟨_, rfl, ?_⟩
    repeat apply headOfAppend
    decide
  · rw [if_neg hne] at hx
    simp at hx

/-- Dedup keys of proposed solar sources. -/
theorem mem_key_solarPart (T : EnergyTopology) (x : Option String)
    (hx : x ∈ (solarPartOf T).map source_key) :
    ∃ a ∈ (preferredOf T).filter (fun a => a.role == "solar"),
      x = some ("solar:" ++ a.entity_id) := by
  unfold solarPartOf at hx
  rw [List.map_map] at hx
  obtain ⟨a, ha, rfl⟩ := List.mem_map.mp hx
  refine ⟨a, ha, ?_⟩
  show source_key _ = _
  cases hr : truthyVal a.rate_entity_id <;>
    simp [hr, source_key, sourceType, srcStrD, primField, flowsOf, lookupA,
      List.find?]

/-- Dedup keys of the proposed battery source start with `b`. -/
theorem mem_key_battPart (T : EnergyTopology) (x : Option String)
    (hx : x ∈ (battPartOf T).map source_key) :
    ∃ k, x = some k ∧ k.data.head? = some 'b' := by
  unfold battPartOf at hx
  by_cases hne : (!((preferredOf T).filter
        (fun a => a.role == "battery_discharge")).isEmpty ||
      !((preferredOf T).filter (fun a => a.role == "battery_charge")).isEmpty) = true
  · rw [if_pos hne] at hx
    simp only [List.map_cons, List.map_nil, List.mem_singleton] at hx
    subst hx
    cases hbd : ((preferredOf T).filter
        (fun a => a.role == "battery_discharge")).head? <;>
      cases hbc : ((preferredOf T).filter
          (fun a => a.role == "battery_charge")).head? <;>
      cases hfr : (((preferredOf T).filter
            (fun a => a.role == "battery_discharge")) ++
          ((preferredOf T).filter (fun a => a.role == "battery_charge"))).findSome?
            (fun a => truthyVal a.rate_entity_id) <;>
      simp only [source_key, sourceType, srcStrD, primField, flowsOf, lookupA,
        List.find?] <;>
      refine ⟨_, rfl, ?_⟩ <;>
      · repeat apply headOfAppend
        decide
  · rw [if_neg hne] at hx
    simp at hx

/-- `updSourceRate` does not change the extracted entity ids. -/
theorem extract_updSourceRate (pr : String → Option String) (s : Source) :
    extract_source_entity_ids (updSourceRate pr s) =
      extract_source_entity_ids s := by
  rcases updSourceRate_cases pr s with h | ⟨k, r, _, _, _, _, h⟩ <;> rw [h]
  exact extract_setA_rate s _

/-- `updSourceRate` does not change the dedup key. -/
theorem source_key_updSourceRate (pr : String → Option String) (s : Source) :
    source_key (updSourceRate pr s) = source_key s := by
  rcases updSourceRate_cases pr s with h | ⟨k, r, _, _, _, _, h⟩ <;> rw [h]
  exact source_key_setA_rate s _

/-- The keys of the proposed solar sources, in closed form. -/
theorem map_key_solarPart (T : EnergyTopology) :
    (solarPartOf T).map source_key =
      ((preferredOf T).filter (fun a => a.role == "solar")).map
        (fun a => some ("solar:" ++ a.entity_id)) := by
  unfold solarPartOf
  rw [List.map_map]
  apply List.map_congr_left
  intro a _
  show source_key _ = _
  cases hr : truthyVal a.rate_entity_id <;>
    simp [hr, source_key, sourceType, srcStrD, primField, flowsOf, lookupA,
      List.find?]

/-- Prepending `solar:` and boxing in `some` is injective. -/
theorem some_solar_inj :
    Function.Injective (fun e : String => some ("solar:" ++ e)) := by
  intro e1 e2 h
  have h2 : "solar:" ++ e1 = "solar:" ++ e2 := Option.some_inj.mp h
  have h3 : ("solar:" ++ e1).data = ("solar:" ++ e2).data :=
    congrArg String.data h2
  rw [String.data_append, String.data_append] at h3
  exact String.ext (List.append_cancel_left h3)

/-- Under distinct preferred solar entity ids, the dedup keys of the
proposed sources are pairwise distinct: the grid and battery sources
are single and their keys open on different letters than solar keys. -/
theorem proposed_keys_nodup (T : EnergyTopology)
    (H2 : (((preferredOf T).filter (fun a => a.role == "solar")).map
        (·.entity_id)).Nodup) :
    ((getSources (build_topology_aware_config T)).map source_key).Nodup := by
  rw [getSources_build, List.map_append, List.map_append]
  have hg : ((gridPartOf T).map source_key).Nodup := by
    simp only [gridPartOf]; split <;> simp
  have hb : ((battPartOf T).map source_key).Nodup := by
    simp only [battPartOf]; split <;> simp
  have hs : ((solarPartOf T).map source_key).Nodup := by
    rw [map_key_solarPart]
    have h1 := List.Nodup.map some_solar_inj H2
    rw [List.map_map] at h1
    exact h1
  rw [List.nodup_append, List.nodup_append]
  refine ⟨⟨hg, hs, ?_⟩, hb, ?_⟩
  · intro x hxg hxs
    obtain ⟨k, rfl, hheadg⟩ := mem_key_gridPart T x hxg
    obtain ⟨a, _, hx⟩ := mem_key_solarPart T _ hxs
    have hk := Option.some_inj.mp hx
    rw [hk] at hheadg
    have hheads : ("solar:" ++ a.entity_id).data.head? = some 's' :=
      headOfAppend _ _ _ (by decide)
    rw [hheadg] at hheads
    simp at hheads
  · intro x hx1 hxb
    obtain ⟨k, rfl, hheadb⟩ := mem_key_battPart T x hxb
    rcases List.mem_append.mp hx1 with hxg | hxs
    · obtain ⟨k2, he, hheadg⟩ := mem_key_gridPart T _ hxg
      rw [Option.some_inj.mp he] at hheadb
      rw [hheadg] at hheadb
      simp at hheadb
    · obtain ⟨a, _, hx⟩ := mem_key_solarPart T _ hxs
      rw [Option.some_inj.mp hx] at hheadb
      have hheads : ("solar:" ++ a.entity_id).data.head? = some 's' :=
        headOfAppend _ _ _ (by decide)
      rw [hheads] at hheadb
      simp at hheadb

/-- Every proposed source has a (some) dedup key. -/
theorem proposed_key_some (T : EnergyTopology) :
    ∀ p ∈ getSources (build_topology_aware_config T),
      ∃ k, source_key p = some k := by
  intro p hp
  rw [getSources_build] at hp
  rcases List.mem_append.mp hp with hp1 | hpb
  · rcases List.mem_append.mp hp1 with hpg | hps
    · obtain ⟨k, hk, _⟩ :=
        mem_key_gridPart T (source_key p) (List.mem_map_of_mem _ hpg)
      exact ⟨k, hk⟩
    · obtain ⟨a, _, hk⟩ :=
        mem_key_solarPart T (source_key p) (List.mem_map_of_mem _ hps)
      exact ⟨_, hk⟩
  · obtain ⟨k, hk, _⟩ :=
      mem_key_battPart T (source_key p) (List.mem_map_of_mem _ hpb)
    exact ⟨k, hk⟩

/-- Reverse `find?` under duplicate-free keys locates the element
itself. -/
theorem find_rev_key {α : Type} (f : α → Option String) (l : List α) (p : α)
    (hp : p ∈ l) (hnd : (l.map f).Nodup) (k : String) (hk : f p = some k) :
    l.reverse.find? (fun s => f s == some k) = some p := by
  have hex : ∃ x ∈ l.reverse, (f x == some k) = true :=
    ⟨p, List.mem_reverse.mpr hp, by rw [hk]; exact beq_self_eq_true _⟩
  obtain ⟨q, hq⟩ :=
    Option.isSome_iff_exists.mp (List.find?_isSome.mpr hex)
  have hqpred := List.find?_some hq
  have hqmem : q ∈ l := List.mem_reverse.mp (List.mem_of_find?_eq_some hq)
  have hfq : f q = some k := by simpa using hqpred
  have hqp : q = p :=
    List.inj_on_of_nodup_map hnd hqmem hp (by rw [hfq, hk])
  rw [hq, hqp]

/-- With pairwise-distinct keys, the proposed rate under a proposed
source key is that source's own rate, so the rate update fixes every
proposed source. -/
theorem proposed_self_rate (T : EnergyTopology)
    (H2 : (((preferredOf T).filter (fun a => a.role == "solar")).map
        (·.entity_id)).Nodup) :
    ∀ p ∈ getSources (build_topology_aware_config T),
      updSourceRate (proposed_rate_of T) p = p := by
  intro p hp
  obtain ⟨k, hk⟩ := proposed_key_some T p hp
  have hfind := find_rev_key source_key _ p hp (proposed_keys_nodup T H2) k hk
  have hpr : proposed_rate_of T k =
      (match lookupA p "stat_rate" with
       | some (.pv (.ps r)) => some r
       | _ => none) := by
    unfold proposed_rate_of
    rw [hfind]
    rfl
  rcases updSourceRate_cases (proposed_rate_of T) p with
    h | ⟨k2, r, hk2, hprk2, hrne, hlne, hupd⟩
  · exact h
  · exfalso
    rw [hk] at hk2
    rw [← Option.some_inj.mp hk2] at hprk2
    rw [hpr] at hprk2
    cases hl : lookupA p "stat_rate" with
    | none => rw [hl] at hprk2; simp at hprk2
    | some sv =>
      cases sv with
      | fl f => rw [hl] at hprk2; simp at hprk2
      | pv pr0 =>
        cases pr0 with
        | pb n => rw [hl] at hprk2; simp at hprk2
        | ps r0 =>
          rw [hl] at hprk2
          simp only [Option.some_inj] at hprk2
          exact hlne (by rw [hl, hprk2])

/-- A dropped source is one touching a skipped id; it contributes no
matched ids. -/
theorem keepF_none_matchF (sk w : List String) (pr : String → Option String)
    (s : Source) (h : keepF sk w pr s = none) : matchF sk w s = [] := by
  unfold keepF at h
  unfold matchF
  by_cases hdrop : (extract_source_entity_ids s).any (primInStrs sk) = true
  · rw [if_pos hdrop]
  · rw [if_neg hdrop] at h
    by_cases hw : (!(extract_source_entity_ids s).isEmpty &&
        (extract_source_entity_ids s).all (primInStrs w)) = true
    · rw [if_pos hw] at h; cases h
    · rw [if_neg hw] at h; cases h

/-- A kept source is kept again, unchanged. -/
theorem keepF_of_keepF (sk w : List String) (pr : String → Option String)
    (s t : Source) (h : keepF sk w pr s = some t) :
    keepF sk w pr t = some t := by
  unfold keepF at h ⊢
  by_cases hdrop : (extract_source_entity_ids s).any (primInStrs sk) = true
  · rw [if_pos hdrop] at h; cases h
  · rw [if_neg hdrop] at h
    by_cases hw : (!(extract_source_entity_ids s).isEmpty &&
        (extract_source_entity_ids s).all (primInStrs w)) = true
    · rw [if_pos hw] at h
      have ht : t = updSourceRate pr s := (Option.some_inj.mp h).symm
      subst ht
      rw [extract_updSourceRate, if_neg hdrop, if_pos hw,
        updSourceRate_idem]
    · rw [if_neg hw] at h
      have ht : t = s := (Option.some_inj.mp h).symm
      subst ht
      rw [if_neg hdrop, if_neg hw]

/-- A kept source contributes the same matched ids again. -/
theorem matchF_of_keepF (sk w : List String) (pr : String → Option String)
    (s t : Source) (h : keepF sk w pr s = some t) :
    matchF sk w t = matchF sk w s := by
  unfold keepF at h
  unfold matchF
  by_cases hdrop : (extract_source_entity_ids s).any (primInStrs sk) = true
  · rw [if_pos hdrop] at h; cases h
  · rw [if_neg hdrop] at h
    by_cases hw : (!(extract_source_entity_ids s).isEmpty &&
        (extract_source_entity_ids s).all (primInStrs w)) = true
    · rw [if_pos hw] at h
      have ht : t = updSourceRate pr s := (Option.some_inj.mp h).symm
      subst ht
      rw [extract_updSourceRate]
    · rw [if_neg hw] at h
      have ht : t = s := (Option.some_inj.mp h).symm
      subst ht
      rfl

/-- Re-filtering kept sources keeps all of them. -/
theorem filterMap_keepF_idem (sk w : List String)
    (pr : String → Option String) (l : List Source) :
    (l.filterMap (keepF sk w pr)).filterMap (keepF sk w pr) =
      l.filterMap (keepF sk w pr) := by
  apply filterMap_eq_self
  intro t ht
  obtain ⟨s, _, hs⟩ := List.mem_filterMap.mp ht
  exact keepF_of_keepF sk w pr s t hs

/-- The matched ids of the kept sources are the matched ids of the
originals. -/
theorem flatMap_matchF_keepF (sk w : List String)
    (pr : String → Option String) (l : List Source) :
    (l.filterMap (keepF sk w pr)).flatMap (matchF sk w) =
      l.flatMap (matchF sk w) := by
  induction l with
  | nil => rfl
  | cons s rest ih =>
    rw [List.filterMap_cons, List.flatMap_cons]
    cases h : keepF sk w pr s with
    | none => rw [keepF_none_matchF sk w pr s h, ih]; rfl
    | some t => rw [List.flatMap_cons, matchF_of_keepF sk w pr s t h, ih]

/-- The append loop only emits proposed sources. -/
theorem mem_apply_sources_append :
    ∀ (m : List Prim) (l : List Source) (p : Source),
      p ∈ apply_sources_append m l → p ∈ l := by
  intro m l
  induction l generalizing m with
  | nil => intro p hp; simp [apply_sources_append] at hp
  | cons q rest ih =>
    intro p hp
    unfold apply_sources_append at hp
    by_cases hall : ((extract_source_entity_ids q).all
        (fun x => m.contains x)) = true
    · rw [if_pos hall] at hp
      exact List.mem_cons_of_mem _ (ih m p hp)
    · rw [if_neg hall] at hp
      rcases List.mem_cons.mp hp with rfl | hp2
      · exact List.mem_cons_self _ _
      · exact List.mem_cons_of_mem _
          (ih (m ++ extract_source_entity_ids q) p hp2)

/-- When the matched set already covers every proposed id, the append
loop emits nothing. -/
theorem apply_sources_append_nil :
    ∀ (m : List Prim) (l : List Source),
      (∀ p ∈ l, ∀ x ∈ extract_source_entity_ids p, x ∈ m) →
      apply_sources_append m l = [] := by
  intro m l
  induction l generalizing m with
  | nil => intro _; rfl
  | cons q rest ih =>
    intro h
    unfold apply_sources_append
    have hall : ((extract_source_entity_ids q).all
        (fun x => m.contains x)) = true := by
      rw [List.all_eq_true]
      intro x hx
      simpa using h q (List.mem_cons_self _ _) x hx
    rw [if_pos hall]
    exact ih m (fun p hp x hx => h p (List.mem_cons_of_mem _ hp) x hx)

/-- Every proposed id ends up matched: either it was matched before
the append loop ran, or its source was appended and the loop output
matches it. -/
theorem apply_sources_append_cover (sk w : List String) :
    ∀ (m : List Prim) (l : List Source),
      (∀ p ∈ l, matchF sk w p = extract_source_entity_ids p) →
      ∀ p ∈ l, ∀ x ∈ extract_source_entity_ids p,
        x ∈ m ++ (apply_sources_append m l).flatMap (matchF sk w) := by
  intro m l
  induction l generalizing m with
  | nil => intro _ p hp; simp at hp
  | cons q rest ih =>
    intro hm p hp x hx
    unfold apply_sources_append
    by_cases hall : ((extract_source_entity_ids q).all
        (fun x => m.contains x)) = true
    · rw [if_pos hall]
      rcases List.mem_cons.mp hp with rfl | hp2
      · have := (List.all_eq_true.mp hall) x hx
        exact List.mem_append_left _ (by simpa using this)
      · exact ih m (fun t ht => hm t (List.mem_cons_of_mem _ ht)) p hp2 x hx
    · rw [if_neg hall]
      rw [List.flatMap_cons, hm q (List.mem_cons_self _ _)]
      rcases List.mem_cons.mp hp with rfl | hp2
      · exact List.mem_append_right _ (List.mem_append_left _ hx)
      · have hxin := ih (m ++ extract_source_entity_ids q)
          (fun t ht => hm t (List.mem_cons_of_mem _ ht)) p hp2 x hx
        rcases List.mem_append.mp hxin with h1 | h2
        · rcases List.mem_append.mp h1 with ha | hb
          · exact List.mem_append_left _ ha
          · exact List.mem_append_right _ (List.mem_append_left _ hb)
        · exact List.mem_append_right _ (List.mem_append_right _ h2)

/-- The consumption list `apply_topology_prefs` writes: kept entries
followed by sorted fresh wanted entries. -/
def keptConsOf (P : PrefsDoc) (T : EnergyTopology) : List Obj :=
  (apply_consumption_loop (skipped_eids_of T) (consumption_parents_of T)
      (consumption_rates_of T) (wanted_consumption_of T)
      (getConsumption P)).1 ++
    (insSortStr (apply_consumption_loop (skipped_eids_of T)
        (consumption_parents_of T) (consumption_rates_of T)
        (wanted_consumption_of T) (getConsumption P)).2).map
      (newConsEntry (consumption_parents_of T) (consumption_rates_of T))

/-- The source list `apply_topology_prefs` writes: kept existing
sources followed by the not-yet-matched proposed ones. -/
def keptSrcOf (P : PrefsDoc) (T : EnergyTopology) : List Source :=
  (apply_sources_loop (skipped_eids_of T) (wanted_source_eids_of T)
      (proposed_rate_of T) (getSources P)).1 ++
    apply_sources_append
      (apply_sources_loop (skipped_eids_of T) (wanted_source_eids_of T)
        (proposed_rate_of T) (getSources P)).2
      (getSources (build_topology_aware_config T))

/-- `apply_topology_prefs`, assembled from its two write-backs. -/
theorem apply_topology_prefs_eq (P : PrefsDoc) (T : EnergyTopology) :
    apply_topology_prefs P T =
      setA (setA P "device_consumption" (DVal.cons (keptConsOf P T)))
        "energy_sources" (DVal.srcs (keptSrcOf P T)) := by
  simp only [apply_topology_prefs]
  rw [getSources_setA_dc]
  rfl

/-- Under double-claim freedom and distinct keys, the existing-source
loop keeps every proposed source unchanged. -/
theorem keepF_proposed (T : EnergyTopology)
    (H1 : ∀ e ∈ wanted_source_eids_of T, e ∉ skipped_eids_of T)
    (H2 : (((preferredOf T).filter (fun a => a.role == "solar")).map
        (·.entity_id)).Nodup) :
    ∀ p ∈ getSources (build_topology_aware_config T),
      keepF (skipped_eids_of T) (wanted_source_eids_of T)
        (proposed_rate_of T) p = some p := by
  intro p hp
  unfold keepF
  rw [proposed_no_skip T H1 p hp]
  simp only [Bool.false_eq_true, if_false]
  by_cases he : (extract_source_entity_ids p).isEmpty = true
  · rw [he]
    simp
  · have hcond : (!(extract_source_entity_ids p).isEmpty &&
        (extract_source_entity_ids p).all
          (primInStrs (wanted_source_eids_of T))) = true := by
      rw [proposed_all_wanted T p hp]
      simp [he]
    rw [if_pos hcond, proposed_self_rate T H2 p hp]

/-- Under double-claim freedom, a proposed source contributes exactly
its own ids to the matched set. -/
theorem matchF_proposed (T : EnergyTopology)
    (H1 : ∀ e ∈ wanted_source_eids_of T, e ∉ skipped_eids_of T) :
    ∀ p ∈ getSources (build_topology_aware_config T),
      matchF (skipped_eids_of T) (wanted_source_eids_of T) p =
        extract_source_entity_ids p := by
  intro p hp
  unfold matchF
  rw [proposed_no_skip T H1 p hp]
  simp only [Bool.false_eq_true, if_false]
  by_cases he : (extract_source_entity_ids p).isEmpty = true
  · rw [he]
    simp only [Bool.not_true, Bool.false_and, Bool.false_eq_true, if_false]
    exact (List.isEmpty_iff.mp he).symm
  · have hcond : (!(extract_source_entity_ids p).isEmpty &&
        (extract_source_entity_ids p).all
          (primInStrs (wanted_source_eids_of T))) = true := by
      rw [proposed_all_wanted T p hp]
      simp [he]
    rw [if_pos hcond]

/-- C4 (amended): `apply_topology_prefs` is idempotent on every
preferences document for a topology in which no preferred
non-consumption entity id is also claimed by a non-preferred
assignment, and the preferred solar entity ids are pairwise
distinct. -/
theorem apply_topology_prefs_idempotent (P : PrefsDoc) (T : EnergyTopology)
    (H1 : ∀ e ∈ wanted_source_eids_of T, e ∉ skipped_eids_of T)
    (H2 : (((preferredOf T).filter (fun a => a.role == "solar")).map
        (·.entity_id)).Nodup) :
    apply_topology_prefs (apply_topology_prefs P T) T =
      apply_topology_prefs P T := by
  have hRdc : lookupA (apply_topology_prefs P T) "device_consumption" =
      some (DVal.cons (keptConsOf P T)) := by
    rw [apply_topology_prefs_eq, lookupA_setA_other _ (by decide)]
    exact lookupA_setA_same _ _ _
  have hRC : getConsumption (apply_topology_prefs P T) = keptConsOf P T := by
    unfold getConsumption
    rw [hRdc]
  have hRes : lookupA (apply_topology_prefs P T) "energy_sources" =
      some (DVal.srcs (keptSrcOf P T)) := by
    rw [apply_topology_prefs_eq]
    exact lookupA_setA_same _ _ _
  have hRS : getSources (apply_topology_prefs P T) = keptSrcOf P T := by
    unfold getSources
    rw [hRes]
  have hcons2 : apply_consumption_loop (skipped_eids_of T)
      (consumption_parents_of T) (consumption_rates_of T)
      (wanted_consumption_of T) (keptConsOf P T) = (keptConsOf P T, []) :=
    cons_loop_idem (skipped_eids_of T) (consumption_parents_of T)
      (consumption_rates_of T) (getConsumption P) (wanted_consumption_of T)
      (dedupStr_nodup _)
  have hKC2 : keptConsOf (apply_topology_prefs P T) T = keptConsOf P T := by
    have h0 : apply_consumption_loop (skipped_eids_of T)
        (consumption_parents_of T) (consumption_rates_of T)
        (wanted_consumption_of T)
        (getConsumption (apply_topology_prefs P T)) =
        (keptConsOf P T, []) := by
      rw [hRC]
      exact hcons2
    show (apply_consumption_loop (skipped_eids_of T)
        (consumption_parents_of T) (consumption_rates_of T)
        (wanted_consumption_of T)
        (getConsumption (apply_topology_prefs P T))).1 ++ _ = _
    rw [h0]
    simp [insSortStr]
  have hA := apply_sources_loop_eq (skipped_eids_of T)
    (wanted_source_eids_of T) (proposed_rate_of T) (getSources P)
  have h21 : (keptSrcOf P T).filterMap (keepF (skipped_eids_of T)
      (wanted_source_eids_of T) (proposed_rate_of T)) = keptSrcOf P T := by
    unfold keptSrcOf
    rw [hA, List.filterMap_append]
    congr 1
    · exact filterMap_keepF_idem _ _ _ _
    · apply filterMap_eq_self
      intro p hp
      exact keepF_proposed T H1 H2 p (mem_apply_sources_append _ _ p hp)
  have h22 : (keptSrcOf P T).flatMap (matchF (skipped_eids_of T)
      (wanted_source_eids_of T)) =
      ((getSources P).flatMap (matchF (skipped_eids_of T)
        (wanted_source_eids_of T))) ++
      (apply_sources_append ((getSources P).flatMap
          (matchF (skipped_eids_of T) (wanted_source_eids_of T)))
        (getSources (build_topology_aware_config T))).flatMap
        (matchF (skipped_eids_of T) (wanted_source_eids_of T)) := by
    unfold keptSrcOf
    rw [hA, List.flatMap_append, flatMap_matchF_keepF]
  have h23 : apply_sources_append ((keptSrcOf P T).flatMap
      (matchF (skipped_eids_of T) (wanted_source_eids_of T)))
      (getSources (build_topology_aware_config T)) = [] := by
    apply apply_sources_append_nil
    intro p hp x hx
    rw [h22]
    exact apply_sources_append_cover (skipped_eids_of T)
      (wanted_source_eids_of T) _ _ (matchF_proposed T H1) p hp x hx
  have hKS2 : keptSrcOf (apply_topology_prefs P T) T = keptSrcOf P T := by
    show (apply_sources_loop (skipped_eids_of T) (wanted_source_eids_of T)
        (proposed_rate_of T)
        (getSources (apply_topology_prefs P T))).1 ++ _ = _
    rw [hRS, apply_sources_loop_eq, h21, h23, List.append_nil]
  rw [apply_topology_prefs_eq (apply_topology_prefs P T) T, hKC2, hKS2,
    setA_self hRdc]
  exact setA_self hRes

/-- A topology whose preferred grid-import entity id is also claimed
by a non-preferred assignment of the same id. -/
def doubleClaimT : EnergyTopology :=
  { role_assignments :=
      [{ role := "grid_import", entity_id := "g", platform := "p",
         preferred := true, reason := "" },
       { role := "grid_import", entity_id := "g", platform := "p",
         preferred := false, reason := "" },
       { role := "battery_discharge", entity_id := "b", platform := "p",
         preferred := true, reason := "" }] }

/-- C4 (counterexample): when an entity id is both wanted (preferred)
and skipped (claimed by a non-preferred assignment), the first
application appends the proposed grid source, the second application
drops it as skipped and re-appends it after the battery source, so
the document keeps changing. -/
theorem apply_topology_prefs_not_idempotent :
    apply_topology_prefs (apply_topology_prefs [] doubleClaimT)
        doubleClaimT ≠
      apply_topology_prefs [] doubleClaimT := by
  decide

/-- A topology with distinct preferred ids and no double claims. -/
def cleanT : EnergyTopology :=
  { role_assignments :=
      [{ role := "grid_import", entity_id := "g", platform := "p",
         preferred := true, reason := "" },
       { role := "solar", entity_id := "s", platform := "p",
         preferred := true, reason := "" },
       { role := "device_consumption", entity_id := "c", platform := "p",
         preferred := false, reason := "" }] }

theorem apply_topology_prefs_idempotent_witness :
    apply_topology_prefs (apply_topology_prefs [] cleanT) cleanT =
      apply_topology_prefs [] cleanT :=
  apply_topology_prefs_idempotent [] cleanT (by decide) (by decide)

/-! ## Claim C6 — a single battery source -/

/-- A circuit device carrying an imported-energy entity, for panel 1. -/
def battCirc1 : HADevice :=
  { id := "c1", model := some "Circuit",
    identifiers := [("span_ebus", "s1_n1")],
    entities := [{ entity_id := "sensor.b1_discharge",
                   unique_id := "c1-imported-energy",
                   platform := "span_ebus" }] }

/-- A circuit device carrying an imported-energy entity, for panel 2. -/
def battCirc2 : HADevice :=
  { id := "c2", model := some "Circuit",
    identifiers := [("span_ebus", "s2_n2")],
    entities := [{ entity_id := "sensor.b2_discharge",
                   unique_id := "c2-imported-energy",
                   platform := "span_ebus" }] }

/-- Two panel trees, each with its own battery feed circuit. -/
def battTree1 : SpanDeviceTree :=
  { panel := { id := "p1", identifiers := [("span_ebus", "s1")] },
    circuits := [battCirc1] }

def battTree2 : SpanDeviceTree :=
  { panel := { id := "p2", identifiers := [("span_ebus", "s2")] },
    circuits := [battCirc2] }

/-- Two topologies, each reporting an IN_PANEL battery on its own
feed circuit. -/
def battTopo1 : SpanTopology :=
  { serial := "s1", battery_position := some "IN_PANEL",
    battery_feed_circuit_id := some "n1" }

def battTopo2 : SpanTopology :=
  { serial := "s2", battery_position := some "IN_PANEL",
    battery_feed_circuit_id := some "n2" }

/-- C6 (counterexample): with two panels whose batteries are
IN_PANEL, the engine emits a preferred battery_discharge assignment
for each panel's feed circuit — two battery sources, not one; the
single-battery break exists only in the UPSTREAM branch of the
loop. -/
theorem battery_not_single :
    (((build_energy_topology [battTree1, battTree2] [battTopo1, battTopo2]
          [] []).role_assignments.filter
        (fun a => a.preferred && a.role == "battery_discharge")).map
      (·.entity_id)) = ["sensor.b1_discharge", "sensor.b2_discharge"] := by
  decide

/-- C6 (amended): the dashboard configuration built from any
topology contains at most one battery-typed energy source — the
battery section of `build_topology_aware_config` emits a single
merged source out of the head battery assignments, while the role
assignments themselves may name several batteries (one per IN_PANEL
panel). -/
theorem battery_source_unique (T : EnergyTopology) :
    ((getSources (build_topology_aware_config T)).filter
        (fun s => sourceType s == some "battery")).length ≤ 1 := by
  rw [getSources_build, List.filter_append, List.filter_append]
  have hg : (gridPartOf T).filter
      (fun s => sourceType s == some "battery") = [] := by
    simp only [gridPartOf]
    split
    · simp [sourceType, primField, lookupA, List.find?]
    · rfl
  have hs : (solarPartOf T).filter
      (fun s => sourceType s == some "battery") = [] := by
    rw [List.filter_eq_nil_iff]
    intro s hsm
    unfold solarPartOf at hsm
    obtain ⟨a, ha, rfl⟩ := List.mem_map.mp hsm
    cases hr : truthyVal a.rate_entity_id <;>
      simp [hr, sourceType, primField, lookupA, List.find?]
  have hb : ((battPartOf T).filter
      (fun s => sourceType s == some "battery")).length ≤ 1 := by
    simp only [battPartOf]
    split
    · exact le_trans (List.length_filter_le _ _) (by simp)
    · simp
  rw [hg, hs]
  simpa using hb

/-! ## Claims C1 and C2 — shared section decomposition -/

/-- The battery-vendor-matched integration. -/
def bess_integ (topologies : List SpanTopology)
    (integrations : List EnergyIntegration) : Option EnergyIntegration :=
  find_platform_for_vendor (bess_vendor topologies) integrations

/-- The solar-vendor-matched integration. -/
def pv_integ (topologies : List SpanTopology)
    (integrations : List EnergyIntegration) : Option EnergyIntegration :=
  find_platform_for_vendor (pv_vendor topologies) integrations

/-- The grid, battery and solar sections in emission order. -/
def pre_solar_assignments (trees : List SpanDeviceTree)
    (topologies : List SpanTopology)
    (integrations : List EnergyIntegration) : List EnergyRole :=
  (grid_section trees topologies (bess_integ topologies integrations)).1 ++
    battery_section trees (bess_integ topologies integrations) topologies ++
    solar_section trees (pv_integ topologies integrations) topologies

/-- All source-side assignments: the three sections plus the solar
fallback when no preferred solar assignment exists yet. -/
def all_source_assignments (trees : List SpanDeviceTree)
    (topologies : List SpanTopology)
    (integrations : List EnergyIntegration) : List EnergyRole :=
  pre_solar_assignments trees topologies integrations ++
    (if (pre_solar_assignments trees topologies integrations).any
        (fun a => a.role == "solar" && a.preferred) then []
     else solar_fallback trees)

/-- The assignment list of the engine, decomposed into the source
sections followed by the consumption section. -/
theorem build_assignments_eq (trees : List SpanDeviceTree)
    (topologies : List SpanTopology)
    (integrations : List EnergyIntegration)
    (circuit_roles : List CircuitRole) :
    (build_energy_topology trees topologies integrations
        circuit_roles).role_assignments =
      all_source_assignments trees topologies integrations ++
        consumption_section trees circuit_roles
          (all_source_assignments trees topologies integrations) := by
  have hbf : ∀ b : Bool, ¬(b = true) → b = false := by decide
  simp only [build_energy_topology, all_source_assignments,
    pre_solar_assignments, bess_integ, pv_integ]
  by_cases hc : (((grid_section trees topologies
        (find_platform_for_vendor (bess_vendor topologies) integrations)).1 ++
      (battery_section trees
        (find_platform_for_vendor (bess_vendor topologies) integrations)
        topologies ++
      solar_section trees
        (find_platform_for_vendor (pv_vendor topologies) integrations)
        topologies)).any (fun a => a.role == "solar" && a.preferred)) = true
  · simp only [List.append_assoc, hc, eq_self_iff_true, if_true,
      List.append_nil]
  · simp only [List.append_assoc, hbf _ hc, Bool.false_eq_true, if_false]

/-- Every grid-section assignment carries a grid role. -/
theorem grid_section_role (trees : List SpanDeviceTree)
    (topologies : List SpanTopology) (bi : Option EnergyIntegration) :
    ∀ a ∈ (grid_section trees topologies bi).1,
      a.role = "grid_import" ∨ a.role = "grid_export" := by
  intro a ha
  cases bi with
  | some biv =>
    cases hup : all_bess_upstream topologies with
    | true =>
      simp only [grid_section, hup, List.mem_append] at ha
      rcases ha with (hai | hae) | has
      · cases hi : find_entity_on_integration biv "import" <;>
          rw [hi] at hai <;> simp at hai
        · left; rw [hai]
      · cases he : find_entity_on_integration biv "export" <;>
          rw [he] at hae <;> simp at hae
        · right; rw [hae]
      · obtain ⟨t, _, hmem⟩ := List.mem_flatMap.mp has
        rcases List.mem_append.mp hmem with h1 | h2
        · cases hf : find_upstream_energy t "imported-energy" <;>
            rw [hf] at h1 <;> simp at h1
          · left; rw [h1]
        · cases hf : find_upstream_energy t "exported-energy" <;>
            rw [hf] at h2 <;> simp at h2
          · right; rw [h2]
    | false =>
      simp only [grid_section, hup] at ha
      obtain ⟨t, _, hmem⟩ := List.mem_flatMap.mp ha
      rcases List.mem_append.mp hmem with h1 | h2
      · cases hf : find_upstream_energy t "imported-energy" <;>
          rw [hf] at h1 <;> simp at h1
        · left; rw [h1]
      · cases hf : find_upstream_energy t "exported-energy" <;>
          rw [hf] at h2 <;> simp at h2
        · right; rw [h2]
  | none =>
    cases hup : all_bess_upstream topologies <;>
      simp only [grid_section, hup] at ha <;>
      obtain ⟨t, _, hmem⟩ := List.mem_flatMap.mp ha <;>
      rcases List.mem_append.mp hmem with h1 | h2
    · cases hf : find_upstream_energy t "imported-energy" <;>
        rw [hf] at h1 <;> simp at h1
      · left; rw [h1]
    · cases hf : find_upstream_energy t "exported-energy" <;>
        rw [hf] at h2 <;> simp at h2
      · right; rw [h2]
    · cases hf : find_upstream_energy t "imported-energy" <;>
        rw [hf] at h1 <;> simp at h1
      · left; rw [h1]
    · cases hf : find_upstream_energy t "exported-energy" <;>
        rw [hf] at h2 <;> simp at h2
      · right; rw [h2]

/-- Every battery-section assignment carries a battery role. -/
theorem battery_section_role (trees : List SpanDeviceTree)
    (bi : Option EnergyIntegration) :
    ∀ (topos : List SpanTopology) (a : EnergyRole),
      a ∈ battery_section trees bi topos →
      a.role = "battery_discharge" ∨ a.role = "battery_charge" := by
  intro topos
  induction topos with
  | nil => intro a h; simp [battery_section] at h
  | cons topo rest ih =>
    intro a h
    simp only [battery_section] at h
    split at h
    · rcases List.mem_append.mp h with h1 | h2
      · rcases List.mem_append.mp h1 with h3 | h4
        · split at h3
          · rcases List.mem_append.mp h3 with h5 | h6
            · split at h5
              · simp at h5; left; rw [h5]
              · simp at h5
            · split at h6
              · simp at h6; right; rw [h6]
              · simp at h6
          · simp at h3
        · split at h4
          · obtain ⟨e, _, he⟩ := List.mem_flatMap.mp h4
            split at he
            · simp at he
              rw [he]
              by_cases hx : sContains e.entity_id "export" = true
              · left; simp [hx]
              · right; simp [hx]
            · simp at he
          · simp at h4
      · exact ih a h2
    · split at h
      · split at h
        · obtain ⟨e, _, he⟩ := List.mem_flatMap.mp h
          split at he
          · split at he
            · simp at he; left; rw [he]
            · split at he
              · simp at he; right; rw [he]
              · simp at he
          · simp at he
        · exact ih a h
      · exact ih a h

/-- Every solar-section assignment carries the solar role. -/
theorem solar_section_role (trees : List SpanDeviceTree)
    (pi : Option EnergyIntegration) :
    ∀ (topos : List SpanTopology) (a : EnergyRole),
      a ∈ solar_section trees pi topos → a.role = "solar" := by
  intro topos
  induction topos with
  | nil => intro a h; simp [solar_section] at h
  | cons topo rest ih =>
    intro a h
    simp only [solar_section] at h
    split at h
    · rcases List.mem_append.mp h with h1 | h2
      · split at h1
        · split at h1
          · simp at h1; rw [h1]
          · simp at h1
        · simp at h1
      · split at h2
        · obtain ⟨e, _, he⟩ := List.mem_map.mp h2
          rw [← he]
        · simp at h2
    · split at h
      · split at h
        · obtain ⟨e, _, he⟩ := List.mem_map.mp h
          rw [← he]
        · exact ih a h
      · exact ih a h

/-- Every solar-fallback assignment carries the solar role. -/
theorem solar_fallback_role :
    ∀ (trees : List SpanDeviceTree) (a : EnergyRole),
      a ∈ solar_fallback trees → a.role = "solar" := by
  intro trees
  induction trees with
  | nil => intro a h; simp [solar_fallback] at h
  | cons t rest ih =>
    intro a h
    simp only [solar_fallback] at h
    split at h
    · split at h
      · simp at h; rw [h]
      · exact ih a h
    · exact ih a h

/-- Every consumption-section assignment carries the consumption
role. -/
theorem consumption_section_role (trees : List SpanDeviceTree)
    (circuit_roles : List CircuitRole) (assignments : List EnergyRole) :
    ∀ a ∈ consumption_section trees circuit_roles assignments,
      a.role = "device_consumption" := by
  have hloop : ∀ (pg : List String) (ds : List (String × String))
      (ts : List SpanDeviceTree) (acc : List EnergyRole × List (String × String)),
      (∀ a ∈ acc.1, a.role = "device_consumption") →
      ∀ a ∈ (panel_consumption_loop pg ds acc ts).1,
        a.role = "device_consumption" := by
    intro pg ds ts
    induction ts with
    | nil => intro acc hacc a h; exact hacc a h
    | cons t rest ih =>
      intro acc hacc a h
      simp only [panel_consumption_loop] at h
      split at h
      · exact ih acc hacc a h
      · split at h
        · split at h
          · exact ih acc hacc a h
          · refine ih _ ?_ a h
            intro b hb
            rcases List.mem_append.mp hb with hb1 | hb2
            · exact hacc b hb1
            · simp at hb2; rw [hb2]
        · exact ih acc hacc a h
  intro a h
  unfold consumption_section at h
  rcases List.mem_append.mp h with h1 | h2
  · exact hloop _ _ _ _ (by intro b hb; simp at hb) a h1
  · obtain ⟨t, _, hmem⟩ := List.mem_flatMap.mp h2
    obtain ⟨c, _, hc⟩ := List.mem_flatMap.mp hmem
    split at hc
    · split at hc
      · simp at hc
        rw [hc.2]
      · simp at hc
        rw [hc.2]
    · simp at hc

/-- The grid-role slice of the engine output is exactly the grid
section: no other section emits a grid role. -/
theorem grid_filter_eq (trees : List SpanDeviceTree)
    (topologies : List SpanTopology)
    (integrations : List EnergyIntegration)
    (circuit_roles : List CircuitRole) :
    (build_energy_topology trees topologies integrations
        circuit_roles).role_assignments.filter
        (fun a => a.role == "grid_import" || a.role == "grid_export") =
      (grid_section trees topologies (bess_integ topologies integrations)).1 := by
  rw [build_assignments_eq, List.filter_append]
  have hcons : (consumption_section trees circuit_roles
      (all_source_assignments trees topologies integrations)).filter
      (fun a => a.role == "grid_import" || a.role == "grid_export") = [] := by
    rw [List.filter_eq_nil_iff]
    intro a ha
    rw [consumption_section_role trees circuit_roles _ a ha]
    decide
  rw [hcons, List.append_nil]
  unfold all_source_assignments pre_solar_assignments
  rw [List.filter_append, List.filter_append, List.filter_append]
  have hg : (grid_section trees topologies
      (bess_integ topologies integrations)).1.filter
      (fun a => a.role == "grid_import" || a.role == "grid_export") =
      (grid_section trees topologies (bess_integ topologies integrations)).1 := by
    rw [List.filter_eq_self]
    intro a ha
    rcases grid_section_role trees topologies _ a ha with h | h <;>
      simp [h]
  have hb : (battery_section trees (bess_integ topologies integrations)
      topologies).filter
      (fun a => a.role == "grid_import" || a.role == "grid_export") = [] := by
    rw [List.filter_eq_nil_iff]
    intro a ha
    rcases battery_section_role trees _ topologies a ha with h | h <;>
      simp [h]
  have hs : (solar_section trees (pv_integ topologies integrations)
      topologies).filter
      (fun a => a.role == "grid_import" || a.role == "grid_export") = [] := by
    rw [List.filter_eq_nil_iff]
    intro a ha
    simp [solar_section_role trees _ topologies a ha]
  have hf : ((if ((grid_section trees topologies
        (bess_integ topologies integrations)).1 ++
        battery_section trees (bess_integ topologies integrations)
          topologies ++
        solar_section trees (pv_integ topologies integrations)
          topologies).any (fun a => a.role == "solar" && a.preferred) then
        ([] : List EnergyRole)
      else solar_fallback trees)).filter
      (fun a => a.role == "grid_import" || a.role == "grid_export") = [] := by
    split
    · rfl
    · rw [List.filter_eq_nil_iff]
      intro a ha
      simp [solar_fallback_role trees a ha]
  rw [hg, hb, hs, hf]
  simp

/-- C2: grid-source selection.  When a vendor-matched battery
integration exists and every panel reports an UPSTREAM battery, the
integration's site-import/site-export entities become the preferred
grid assignments and every tree's upstream entities are emitted
non-preferred; in every other case each tree's upstream
imported- and exported-energy entities are emitted as preferred grid
assignments. -/
theorem grid_source_selection (trees : List SpanDeviceTree)
    (topologies : List SpanTopology)
    (integrations : List EnergyIntegration)
    (circuit_roles : List CircuitRole) :
    (∀ bi, bess_integ topologies integrations = some bi →
      all_bess_upstream topologies = true →
      ((((build_energy_topology trees topologies integrations
            circuit_roles).role_assignments.filter
            (fun a => a.role == "grid_import" || a.role == "grid_export")).filter
            (fun a => a.preferred)).map
          (fun a => (a.role, a.entity_id, a.platform)) =
        (match find_entity_on_integration bi "import" with
         | some gi => [("grid_import",
             ((bi.energy_entities.find?
                 (fun e => sContains e.entity_id "site_import")).getD
               gi).entity_id, bi.platform)]
         | none => []) ++
        (match find_entity_on_integration bi "export" with
         | some ge => [("grid_export",
             ((bi.energy_entities.find?
                 (fun e => sContains e.entity_id "site_export")).getD
               ge).entity_id, bi.platform)]
         | none => [])) ∧
      ((((build_energy_topology trees topologies integrations
            circuit_roles).role_assignments.filter
            (fun a => a.role == "grid_import" || a.role == "grid_export")).filter
            (fun a => !a.preferred)).map
          (fun a => (a.role, a.entity_id, a.platform)) =
        trees.flatMap (fun t =>
          (match find_upstream_energy t "imported-energy" with
           | some e => [("grid_import", e.entity_id, "span_ebus")]
           | none => []) ++
          (match find_upstream_energy t "exported-energy" with
           | some e => [("grid_export", e.entity_id, "span_ebus")]
           | none => [])))) ∧
    ((∀ bi, bess_integ topologies integrations = some bi →
        all_bess_upstream topologies = false) →
      (((build_energy_topology trees topologies integrations
            circuit_roles).role_assignments.filter
          (fun a => a.role == "grid_import" || a.role == "grid_export")).map
          (fun a => (a.role, a.entity_id, a.preferred, a.platform)) =
        trees.flatMap (fun t =>
          (match find_upstream_energy t "imported-energy" with
           | some e => [("grid_import", e.entity_id, true, "span_ebus")]
           | none => []) ++
          (match find_upstream_energy t "exported-energy" with
           | some e => [("grid_export", e.entity_id, true, "span_ebus")]
           | none => [])))) := by
  constructor
  · intro bi hbi hup
    rw [grid_filter_eq, hbi]
    simp only [grid_section, hup]
    constructor
    · rw [List.filter_append, List.filter_append, List.map_append,
        List.map_append]
      have h1 : ∀ (ts : List SpanDeviceTree),
          ((ts.flatMap (fun t =>
            (match find_upstream_energy t "imported-energy" with
             | some e => [{ role := "grid_import", entity_id := e.entity_id,
                            platform := "span_ebus", preferred := false,
                            reason := "BESS UPSTREAM — SPAN upstream is post-battery, not true grid" }]
             | none => ([] : List EnergyRole)) ++
            (match find_upstream_energy t "exported-energy" with
             | some e => [{ role := "grid_export", entity_id := e.entity_id,
                            platform := "span_ebus", preferred := false,
                            reason := "BESS UPSTREAM — SPAN upstream is post-battery, not true grid" }]
             | none => []))).filter (fun a => a.preferred)) = [] := by
        intro ts
        rw [List.filter_eq_nil_iff]
        intro a ha
        obtain ⟨t, _, hmem⟩ := List.mem_flatMap.mp ha
        rcases List.mem_append.mp hmem with hm | hm <;>
          [cases hf : find_upstream_energy t "imported-energy";
           cases hf : find_upstream_energy t "exported-energy"] <;>
          rw [hf] at hm <;> simp at hm <;> rw [hm] <;> simp
      rw [h1 trees]
      cases hi : find_entity_on_integration bi "import" <;>
        cases he : find_entity_on_integration bi "export" <;>
        simp
    · rw [List.filter_append, List.filter_append, List.map_append,
        List.map_append]
      have h4 : ∀ (l : List EnergyRole), (∀ a ∈ l, a.preferred = true) →
          l.filter (fun a => !a.preferred) = [] := by
        intro l hl
        rw [List.filter_eq_nil_iff]
        intro a ha
        simp [hl a ha]
      rw [h4 _ (by
        cases hi : find_entity_on_integration bi "import" <;> simp)]
      rw [h4 _ (by
        cases he : find_entity_on_integration bi "export" <;> simp)]
      have h6 : ∀ (ts : List SpanDeviceTree),
          ((ts.flatMap (fun t =>
            (match find_upstream_energy t "imported-energy" with
             | some e => [{ role := "grid_import", entity_id := e.entity_id,
                            platform := "span_ebus", preferred := false,
                            reason := "BESS UPSTREAM — SPAN upstream is post-battery, not true grid" }]
             | none => ([] : List EnergyRole)) ++
            (match find_upstream_energy t "exported-energy" with
             | some e => [{ role := "grid_export", entity_id := e.entity_id,
                            platform := "span_ebus", preferred := false,
                            reason := "BESS UPSTREAM — SPAN upstream is post-battery, not true grid" }]
             | none => []))).filter (fun a => !a.preferred)).map
            (fun a => (a.role, a.entity_id, a.platform)) =
          ts.flatMap (fun t =>
            (match find_upstream_energy t "imported-energy" with
             | some e => [("grid_import", e.entity_id, "span_ebus")]
             | none => []) ++
            (match find_upstream_energy t "exported-energy" with
             | some e => [("grid_export", e.entity_id, "span_ebus")]
             | none => [])) := by
        intro ts
        induction ts with
        | nil => rfl
        | cons t rest ih =>
          rw [List.flatMap_cons, List.flatMap_cons, List.filter_append,
            List.map_append, ih, List.filter_append, List.map_append]
          congr 1
          congr 1
          · cases hf : find_upstream_energy t "imported-energy" <;> simp
          · cases hf : find_upstream_energy t "exported-energy" <;> simp
      rw [h6 trees]
      simp
  · intro hnb
    rw [grid_filter_eq]
    have hmain : ∀ (ts : List SpanDeviceTree),
        ((ts.flatMap (fun t =>
          (match find_upstream_energy t "imported-energy" with
           | some e => [{ role := "grid_import", entity_id := e.entity_id,
                          platform := "span_ebus", preferred := true,
                          reason := "SPAN upstream metering — no UPSTREAM BESS or no matching integration" }]
           | none => ([] : List EnergyRole)) ++
          (match find_upstream_energy t "exported-energy" with
           | some e => [{ role := "grid_export", entity_id := e.entity_id,
                          platform := "span_ebus", preferred := true,
                          reason := "SPAN upstream metering — no UPSTREAM BESS or no matching integration" }]
           | none => []))).map
          (fun a => (a.role, a.entity_id, a.preferred, a.platform))) =
        ts.flatMap (fun t =>
          (match find_upstream_energy t "imported-energy" with
           | some e => [("grid_import", e.entity_id, true, "span_ebus")]
           | none => []) ++
          (match find_upstream_energy t "exported-energy" with
           | some e => [("grid_export", e.entity_id, true, "span_ebus")]
           | none => [])) := by
      intro ts
      induction ts with
      | nil => rfl
      | cons t rest ih =>
        rw [List.flatMap_cons, List.flatMap_cons, List.map_append, ih,
          List.map_append]
        congr 1
        congr 1
        · cases hf : find_upstream_energy t "imported-energy" <;> simp
        · cases hf : find_upstream_energy t "exported-energy" <;> simp
    cases hbio : bess_integ topologies integrations with
    | none =>
      cases hup2 : all_bess_upstream topologies <;>
        simp only [grid_section, hup2] <;> exact hmain trees
    | some bi =>
      simp only [grid_section, hnb bi hbio]
      exact hmain trees

/-- A tree whose panel carries an upstream imported-energy entity. -/
def gridTree : SpanDeviceTree :=
  { panel := { id := "p", identifiers := [("span_ebus", "s")],
               entities := [{ entity_id := "sensor.grid_in",
                              unique_id := "p-lugs-upstream_imported-energy",
                              platform := "span_ebus" }] } }

theorem grid_source_selection_witness :
    (((build_energy_topology [gridTree] [] [] []).role_assignments.filter
        (fun a => a.role == "grid_import" || a.role == "grid_export")).map
        (fun a => (a.role, a.entity_id, a.preferred, a.platform))) =
      [("grid_import", "sensor.grid_in", true, "span_ebus")] := by
  have h := (grid_source_selection [gridTree] [] [] []).2
    (fun bi hbi => by decide)
  rw [h]
  decide

/-! ## Claim C1 — double-count freedom of preferred assignments -/

/-- The panel entities of a tree. -/
def panEnts (t : SpanDeviceTree) : List HAEntity := t.panel.entities

/-- The site-metering entities of a tree. -/
def smEnts (t : SpanDeviceTree) : List HAEntity :=
  match t.site_metering with
  | some sm => sm.entities
  | none => []

/-- The solar-device entities of a tree. -/
def solEnts (t : SpanDeviceTree) : List HAEntity :=
  match t.solar with
  | some sd => sd.entities
  | none => []

/-- The circuit entities of a tree. -/
def circEnts (t : SpanDeviceTree) : List HAEntity :=
  t.circuits.flatMap (·.entities)

/-- The three entity locations the decision engine draws sources
from: panel or site-metering device, solar sub-device, circuits. -/
def kindEnts (i : Nat) (t : SpanDeviceTree) : List HAEntity :=
  if i = 0 then panEnts t ++ smEnts t
  else if i = 1 then solEnts t
  else circEnts t

/-- All entities of a tree visible to the decision engine. -/
def treeEnts (t : SpanDeviceTree) : List HAEntity :=
  (panEnts t ++ smEnts t) ++ solEnts t ++ circEnts t

/-- All entities of all trees. -/
def allEnts (trees : List SpanDeviceTree) : List HAEntity :=
  trees.flatMap treeEnts

/-- The IN_PANEL battery feed circuit ids. -/
def battFeedIds (topologies : List SpanTopology) : List String :=
  topologies.filterMap (fun topo =>
    if topo.battery_position == some "IN_PANEL" &&
        optStrTruthy topo.battery_feed_circuit_id then
      some ((topo.battery_feed_circuit_id).getD "")
    else none)

/-- The IN_PANEL solar feed circuit ids. -/
def solarFeedIds (topologies : List SpanTopology) : List String :=
  topologies.filterMap (fun topo =>
    if topo.solar_position == some "IN_PANEL" &&
        optStrTruthy topo.solar_feed_circuit_id then
      some ((topo.solar_feed_circuit_id).getD "")
    else none)

/-- The entity ids of the preferred assignments of one role. -/
def prefEidsOf (T : EnergyTopology) (r : String) : List String :=
  (T.role_assignments.filter (fun a => a.preferred && a.role == r)).map
    (·.entity_id)

/-- `_find_circuit_entity` returns an entity of the device with the
requested unique-id suffix. -/
theorem fce_mem (d : HADevice) (sfx : String) (e : HAEntity)
    (h : find_circuit_entity d sfx = some e) :
    e ∈ d.entities ∧ sEndsWith e.unique_id sfx = true := by
  unfold find_circuit_entity at h
  refine ⟨List.mem_of_find?_eq_some h, ?_⟩
  have := List.find?_some h
  exact ((Bool.and_eq_true _ _).mp this).2

/-- `_find_upstream_energy` returns a panel or site-metering entity
whose unique id ends with the requested suffix. -/
theorem fue_mem (t : SpanDeviceTree) (sfx : String) (e : HAEntity)
    (h : find_upstream_energy t sfx = some e) :
    e ∈ panEnts t ++ smEnts t ∧ sEndsWith e.unique_id sfx = true := by
  unfold find_upstream_energy at h
  cases h1 : find_circuit_entity t.panel ("lugs-upstream_" ++ sfx) with
  | some e1 =>
    simp only [h1, Option.some_inj] at h
    subst h
    obtain ⟨hm, hs⟩ := fce_mem _ _ _ h1
    exact ⟨List.mem_append_left _ hm, sEndsWith_of_append hs⟩
  | none =>
    simp only [h1] at h
    cases h2 : t.site_metering with
    | some sm =>
      simp only [h2] at h
      cases h3 : find_circuit_entity sm sfx with
      | some e2 =>
        simp only [h3, Option.some_inj] at h
        subst h
        obtain ⟨hm, hs⟩ := fce_mem _ _ _ h3
        refine ⟨List.mem_append_right _ ?_, hs⟩
        simp only [smEnts, h2]
        exact hm
      | none =>
        simp only [h3] at h
        obtain ⟨hm, hs⟩ := fce_mem _ _ _ h
        exact ⟨List.mem_append_left _ hm, hs⟩
    | none =>
      simp only [h2] at h
      obtain ⟨hm, hs⟩ := fce_mem _ _ _ h
      exact ⟨List.mem_append_left _ hm, hs⟩

/-- `_find_circuit_by_node_id` returns a circuit of some tree with
the requested node id. -/
theorem fcni_mem (trees : List SpanDeviceTree) (target : String)
    (c : HADevice) (h : find_circuit_by_node_id trees target = some c) :
    (∃ t ∈ trees, c ∈ t.circuits) ∧ circuit_node_id c = some target := by
  unfold find_circuit_by_node_id at h
  constructor
  · have := List.mem_of_find?_eq_some h
    obtain ⟨t, ht, hc⟩ := List.mem_flatMap.mp this
    exact ⟨t, ht, hc⟩
  · have := List.find?_some h
    simpa using this

/-- A member of a list bounds the sum of a mapped list. -/
theorem le_sum_mem {α : Type} (g : α → Nat) (l : List α)
    (x : α) (hx : x ∈ l) : g x ≤ (l.map g).sum :=
  List.le_sum_of_mem (List.mem_map_of_mem g hx)

/-- Two distinct member values bound the sum of a mapped list. -/
theorem sum_two_le {α : Type} [DecidableEq α] (g : α → Nat) (l : List α)
    (x y : α) (hx : x ∈ l) (hy : y ∈ l) (hxy : x ≠ y) :
    g x + g y ≤ (l.map g).sum := by
  have hperm := List.perm_cons_erase hx
  have hy2 : y ∈ l.erase x := (List.mem_erase_of_ne (Ne.symm hxy)).mpr hy
  rw [List.Perm.sum_eq (List.Perm.map g hperm)]
  simp only [List.map_cons, List.sum_cons]
  have h2 := List.le_sum_of_mem (List.mem_map_of_mem g hy2)
  omega

/-- Occurrence count distributes over `flatMap`. -/
theorem count_over_flatMap {α β : Type} [DecidableEq β] (f : α → List β)
    (l : List α) (a : β) :
    ((l.flatMap f).count a) = (l.map (fun t => (f t).count a)).sum := by
  induction l with
  | nil => rfl
  | cons t rest ih =>
    rw [List.flatMap_cons, List.count_append, List.map_cons, List.sum_cons, ih]

/-- Entities of either location kind live in the master list. -/
theorem kind_sub_allEnts (trees : List SpanDeviceTree) (i : Nat)
    (t : SpanDeviceTree) (ht : t ∈ trees) (e : HAEntity)
    (he : e ∈ kindEnts i t) : e ∈ allEnts trees := by
  refine List.mem_flatMap.mpr ⟨t, ht, ?_⟩
  unfold treeEnts
  unfold kindEnts at he
  by_cases h0 : i = 0
  · rw [if_pos h0] at he
    exact List.mem_append_left _ (List.mem_append_left _ he)
  · rw [if_neg h0] at he
    by_cases h1 : i = 1
    · rw [if_pos h1] at he
      exact List.mem_append_left _ (List.mem_append_right _ he)
    · rw [if_neg h1] at he
      exact List.mem_append_right _ he

/-- Under globally distinct entity ids, equal ids mean equal
entities. -/
theorem allEnts_inj (trees : List SpanDeviceTree)
    (hn : ((allEnts trees).map (·.entity_id)).Nodup)
    (e1 e2 : HAEntity) (h1 : e1 ∈ allEnts trees) (h2 : e2 ∈ allEnts trees)
    (heq : e1.entity_id = e2.entity_id) : e1 = e2 :=
  List.inj_on_of_nodup_map hn h1 h2 heq

theorem kindEnts_zero (t : SpanDeviceTree) :
    kindEnts 0 t = panEnts t ++ smEnts t := rfl

theorem kindEnts_one (t : SpanDeviceTree) : kindEnts 1 t = solEnts t := rfl

theorem kindEnts_two (t : SpanDeviceTree) : kindEnts 2 t = circEnts t := rfl

/-- Entities found at two different location kinds have distinct
ids when the master id list is duplicate-free. -/
theorem kind_disjoint (trees : List SpanDeviceTree)
    (hn : ((allEnts trees).map (·.entity_id)).Nodup)
    (i j : Nat) (hi : i < 3) (hj : j < 3) (hij : i ≠ j)
    (t1 t2 : SpanDeviceTree) (h1 : t1 ∈ trees) (h2 : t2 ∈ trees)
    (e1 e2 : HAEntity) (he1 : e1 ∈ kindEnts i t1) (he2 : e2 ∈ kindEnts j t2) :
    e1.entity_id ≠ e2.entity_id := by
  intro heq
  have hv : e1 = e2 := allEnts_inj trees hn e1 e2
    (kind_sub_allEnts trees i t1 h1 e1 he1)
    (kind_sub_allEnts trees j t2 h2 e2 he2) heq
  subst hv
  have hnodup : (allEnts trees).Nodup := List.Nodup.of_map _ hn
  have hle1 : (allEnts trees).count e1 ≤ 1 := by
    rw [List.nodup_iff_count_le_one] at hnodup
    exact hnodup e1
  have hkind_le : ∀ (k : Nat) (t : SpanDeviceTree),
      (kindEnts k t).count e1 ≤ (treeEnts t).count e1 := by
    intro k t
    unfold treeEnts kindEnts
    rw [List.count_append, List.count_append]
    by_cases h0 : k = 0
    · rw [if_pos h0]; omega
    · rw [if_neg h0]
      by_cases hk1 : k = 1
      · rw [if_pos hk1]; omega
      · rw [if_neg hk1]; omega
  have hcount : 2 ≤ (allEnts trees).count e1 := by
    unfold allEnts
    rw [count_over_flatMap]
    by_cases ht : t1 = t2
    · subst ht
      have hp1 : 0 < (kindEnts i t1).count e1 := List.count_pos_iff.mpr he1
      have hp2 : 0 < (kindEnts j t1).count e1 := List.count_pos_iff.mpr he2
      have hcc : 2 ≤ (treeEnts t1).count e1 := by
        unfold treeEnts
        rw [List.count_append, List.count_append]
        interval_cases i <;> interval_cases j <;>
          first
            | exact absurd rfl hij
            | (simp only [kindEnts_zero, kindEnts_one, kindEnts_two]
                  at hp1 hp2; omega)
      calc 2 ≤ (treeEnts t1).count e1 := hcc
        _ ≤ _ := le_sum_mem (fun t => (treeEnts t).count e1) trees t1 h1
    · have hp1 : 1 ≤ (treeEnts t1).count e1 :=
        le_trans (List.count_pos_iff.mpr he1) (hkind_le i t1)
      have hp2 : 1 ≤ (treeEnts t2).count e1 :=
        le_trans (List.count_pos_iff.mpr he2) (hkind_le j t2)
      have hs : (treeEnts t1).count e1 + (treeEnts t2).count e1 ≤
          (trees.map (fun t => (treeEnts t).count e1)).sum :=
        sum_two_le (fun t => (treeEnts t).count e1) trees t1 t2 h1 h2 ht
      omega
  omega

/-- Entities of two distinct circuits have distinct ids when the
master id list is duplicate-free. -/
theorem circ_disjoint (trees : List SpanDeviceTree)
    (hn : ((allEnts trees).map (·.entity_id)).Nodup)
    (t1 t2 : SpanDeviceTree) (h1 : t1 ∈ trees) (h2 : t2 ∈ trees)
    (c1 c2 : HADevice) (hc1 : c1 ∈ t1.circuits) (hc2 : c2 ∈ t2.circuits)
    (hcc : c1 ≠ c2) (e1 e2 : HAEntity) (he1 : e1 ∈ c1.entities)
    (he2 : e2 ∈ c2.entities) : e1.entity_id ≠ e2.entity_id := by
  intro heq
  have hk1 : e1 ∈ kindEnts 2 t1 := by
    rw [kindEnts_two]
    exact List.mem_flatMap.mpr ⟨c1, hc1, he1⟩
  have hk2 : e2 ∈ kindEnts 2 t2 := by
    rw [kindEnts_two]
    exact List.mem_flatMap.mpr ⟨c2, hc2, he2⟩
  have hv : e1 = e2 := allEnts_inj trees hn e1 e2
    (kind_sub_allEnts trees 2 t1 h1 e1 hk1)
    (kind_sub_allEnts trees 2 t2 h2 e2 hk2) heq
  subst hv
  have hnodup : (allEnts trees).Nodup := List.Nodup.of_map _ hn
  have hle1 : (allEnts trees).count e1 ≤ 1 := by
    rw [List.nodup_iff_count_le_one] at hnodup
    exact hnodup e1
  have hcirc_le : ∀ t : SpanDeviceTree,
      (circEnts t).count e1 ≤ (treeEnts t).count e1 := by
    intro t
    unfold treeEnts
    rw [List.count_append, List.count_append]
    omega
  have hcount : 2 ≤ (allEnts trees).count e1 := by
    unfold allEnts
    rw [count_over_flatMap]
    by_cases ht : t1 = t2
    · subst ht
      have hcc2 : 2 ≤ (circEnts t1).count e1 := by
        unfold circEnts
        rw [count_over_flatMap]
        have hp1 : 1 ≤ (c1.entities).count e1 := List.count_pos_iff.mpr he1
        have hp2 : 1 ≤ (c2.entities).count e1 := List.count_pos_iff.mpr he2
        have hs : (c1.entities).count e1 + (c2.entities).count e1 ≤
            (t1.circuits.map (fun c => (c.entities).count e1)).sum :=
          sum_two_le (fun c => (c.entities).count e1) t1.circuits c1 c2
            hc1 hc2 hcc
        omega
      calc 2 ≤ (circEnts t1).count e1 := hcc2
        _ ≤ (treeEnts t1).count e1 := hcirc_le t1
        _ ≤ _ := le_sum_mem (fun t => (treeEnts t).count e1) trees t1 h1
    · have hp1 : 1 ≤ (treeEnts t1).count e1 := by
        have hin := List.count_pos_iff.mpr
          (List.mem_flatMap.mpr ⟨c1, hc1, he1⟩)
        exact le_trans hin (hcirc_le t1)
      have hp2 : 1 ≤ (treeEnts t2).count e1 := by
        have hin := List.count_pos_iff.mpr
          (List.mem_flatMap.mpr ⟨c2, hc2, he2⟩)
        exact le_trans hin (hcirc_le t2)
      have hs : (treeEnts t1).count e1 + (treeEnts t2).count e1 ≤
          (trees.map (fun t => (treeEnts t).count e1)).sum :=
        sum_two_le (fun t => (treeEnts t).count e1) trees t1 t2 h1 h2 ht
      omega
  omega

/-- With no UPSTREAM battery, the all-upstream test fails. -/
theorem no_upstream_all_false (topologies : List SpanTopology)
    (ha : ∀ topo ∈ topologies, topo.battery_position ≠ some "UPSTREAM") :
    all_bess_upstream topologies = false := by
  cases topologies with
  | nil => rfl
  | cons t rest =>
    unfold all_bess_upstream
    have h := ha t (List.mem_cons_self t rest)
    have hb : (t.battery_position == some "UPSTREAM") = false :=
      beq_eq_false_iff_ne.mpr h
    simp [hb]

/-- In the per-tree branch each grid assignment names an upstream
panel or site-metering entity with the matching suffix. -/
theorem grid_sectionB_mem (trees : List SpanDeviceTree)
    (topologies : List SpanTopology) (bi : Option EnergyIntegration)
    (hfalse : all_bess_upstream topologies = false) (a : EnergyRole)
    (hmem : a ∈ (grid_section trees topologies bi).1) :
    ∃ t ∈ trees, ∃ e, e ∈ panEnts t ++ smEnts t ∧
      a.entity_id = e.entity_id ∧
      ((a.role = "grid_import" ∧
         sEndsWith e.unique_id "imported-energy" = true) ∨
       (a.role = "grid_export" ∧
         sEndsWith e.unique_id "exported-energy" = true)) := by
  cases bi <;> simp only [grid_section, hfalse] at hmem <;>
    · obtain ⟨t, ht, hm2⟩ := List.mem_flatMap.mp hmem
      rcases List.mem_append.mp hm2 with hh | hh
      · cases hf : find_upstream_energy t "imported-energy" with
        | none => simp only [hf] at hh; simp at hh
        | some e =>
          simp only [hf] at hh
          simp at hh
          obtain ⟨hme, hs⟩ := fue_mem t _ e hf
          exact ⟨t, ht, e, hme, by rw [hh], Or.inl ⟨by rw [hh], hs⟩⟩
      · cases hf : find_upstream_energy t "exported-energy" with
        | none => simp only [hf] at hh; simp at hh
        | some e =>
          simp only [hf] at hh
          simp at hh
          obtain ⟨hme, hs⟩ := fue_mem t _ e hf
          exact ⟨t, ht, e, hme, by rw [hh], Or.inr ⟨by rw [hh], hs⟩⟩

/-- Battery feed ids only grow when a topology is prepended. -/
theorem battFeedIds_sub (topo : SpanTopology) (rest : List SpanTopology) :
    ∀ nid ∈ battFeedIds rest, nid ∈ battFeedIds (topo :: rest) := by
  intro nid h
  unfold battFeedIds
  rw [List.filterMap_cons]
  split
  · exact h
  · exact List.mem_cons_of_mem _ h

/-- Solar feed ids only grow when a topology is prepended. -/
theorem solarFeedIds_sub (topo : SpanTopology) (rest : List SpanTopology) :
    ∀ nid ∈ solarFeedIds rest, nid ∈ solarFeedIds (topo :: rest) := by
  intro nid h
  unfold solarFeedIds
  rw [List.filterMap_cons]
  split
  · exact h
  · exact List.mem_cons_of_mem _ h

/-- Every fallback solar assignment names an imported-energy entity
of a solar sub-device. -/
theorem solar_fallback_mem :
    ∀ (trees : List SpanDeviceTree) (a : EnergyRole),
      a ∈ solar_fallback trees →
      ∃ t ∈ trees, ∃ e, e ∈ solEnts t ∧ a.entity_id = e.entity_id ∧
        sEndsWith e.unique_id "imported-energy" = true := by
  intro trees
  induction trees with
  | nil => intro a h; simp [solar_fallback] at h
  | cons t rest ih =>
    intro a h
    cases hsolar : t.solar with
    | some sd =>
      cases hfce : find_circuit_entity sd "imported-energy" with
      | some e =>
        simp only [solar_fallback, hsolar, hfce] at h
        simp at h
        obtain ⟨hme, hs⟩ := fce_mem sd _ e hfce
        refine ⟨t, List.mem_cons_self t rest, e, ?_, by rw [h], hs⟩
        simp only [solEnts, hsolar]
        exact hme
      | none =>
        simp only [solar_fallback, hsolar, hfce] at h
        obtain ⟨t2, ht2, rest2⟩ := ih a h
        exact ⟨t2, List.mem_cons_of_mem _ ht2, rest2⟩
    | none =>
      simp only [solar_fallback, hsolar] at h
      obtain ⟨t2, ht2, rest2⟩ := ih a h
      exact ⟨t2, List.mem_cons_of_mem _ ht2, rest2⟩

/-- With no UPSTREAM battery, every preferred battery assignment
names an imported- or exported-energy entity of an IN_PANEL feed
circuit. -/
theorem battery_section_pref_mem (trees : List SpanDeviceTree)
    (bi : Option EnergyIntegration) :
    ∀ (topos : List SpanTopology),
      (∀ topo ∈ topos, topo.battery_position ≠ some "UPSTREAM") →
      ∀ a ∈ battery_section trees bi topos, a.preferred = true →
      ∃ nid, nid ∈ battFeedIds topos ∧
        ∃ c, (∃ t ∈ trees, c ∈ t.circuits) ∧ circuit_node_id c = some nid ∧
        ∃ e ∈ c.entities, a.entity_id = e.entity_id ∧
          ((a.role = "battery_discharge" ∧
             sEndsWith e.unique_id "imported-energy" = true) ∨
           (a.role = "battery_charge" ∧
             sEndsWith e.unique_id "exported-energy" = true)) := by
  have hbff : ∀ b : Bool, ¬(b = true) → b = false := by decide
  intro topos
  induction topos with
  | nil => intro _ a h; simp [battery_section] at h
  | cons topo rest ih =>
    intro ha a h hpref
    have harest : ∀ topo2 ∈ rest, topo2.battery_position ≠ some "UPSTREAM" :=
      fun topo2 h2 => ha topo2 (List.mem_cons_of_mem _ h2)
    by_cases hin : (topo.battery_position == some "IN_PANEL" &&
        optStrTruthy topo.battery_feed_circuit_id) = true
    · simp only [battery_section, hin, eq_self_iff_true, if_true] at h
      have hfeed : ((topo.battery_feed_circuit_id).getD "") ∈
          battFeedIds (topo :: rest) := by
        simp only [battFeedIds, List.filterMap_cons, hin, eq_self_iff_true,
          if_true]
        exact List.mem_cons_self _ _
      rcases List.mem_append.mp h with h1 | h2
      · rcases List.mem_append.mp h1 with h3 | h4
        · cases hcn : find_circuit_by_node_id trees
              ((topo.battery_feed_circuit_id).getD "") with
          | none => simp only [hcn] at h3; simp at h3
          | some circuit =>
            simp only [hcn] at h3
            obtain ⟨⟨t, ht, hc⟩, hnode⟩ := fcni_mem trees _ circuit hcn
            rcases List.mem_append.mp h3 with h5 | h6
            · cases hfd : find_circuit_entity circuit "imported-energy" with
              | none => simp only [hfd] at h5; simp at h5
              | some discharge =>
                simp only [hfd] at h5
                simp at h5
                obtain ⟨hme, hs⟩ := fce_mem circuit _ discharge hfd
                exact ⟨_, hfeed, circuit, ⟨t, ht, hc⟩, hnode, discharge, hme,
                  by rw [h5], Or.inl ⟨by rw [h5], hs⟩⟩
            · cases hfc : find_circuit_entity circuit "exported-energy" with
              | none => simp only [hfc] at h6; simp at h6
              | some charge =>
                simp only [hfc] at h6
                simp at h6
                obtain ⟨hme, hs⟩ := fce_mem circuit _ charge hfc
                exact ⟨_, hfeed, circuit, ⟨t, ht, hc⟩, hnode, charge, hme,
                  by rw [h6], Or.inr ⟨by rw [h6], hs⟩⟩
        · cases bi with
          | none => simp at h4
          | some biv =>
            simp at h4
            obtain ⟨x, hx, heq⟩ := h4
            rw [heq.2] at hpref
            simp at hpref
      · obtain ⟨nid, hnid, rest'⟩ := ih harest a h2 hpref
        exact ⟨nid, battFeedIds_sub topo rest nid hnid, rest'⟩
    · simp only [battery_section, hbff _ hin, Bool.false_eq_true,
        if_false] at h
      cases bi with
      | none =>
        obtain ⟨nid, hnid, rest'⟩ := ih harest a h hpref
        exact ⟨nid, battFeedIds_sub topo rest nid hnid, rest'⟩
      | some biv =>
        by_cases hup : (topo.battery_position == some "UPSTREAM") = true
        · exact absurd (by simpa using hup) (ha topo (List.mem_cons_self _ _))
        · simp only [hbff _ hup, Bool.false_eq_true, if_false] at h
          obtain ⟨nid, hnid, rest'⟩ := ih harest a h hpref
          exact ⟨nid, battFeedIds_sub topo rest nid hnid, rest'⟩

/-- With no UPSTREAM solar, every preferred solar-section assignment
names the imported-energy entity of an IN_PANEL solar feed
circuit. -/
theorem solar_section_pref_mem (trees : List SpanDeviceTree)
    (pi : Option EnergyIntegration) :
    ∀ (topos : List SpanTopology),
      (∀ topo ∈ topos, topo.solar_position ≠ some "UPSTREAM") →
      ∀ a ∈ solar_section trees pi topos, a.preferred = true →
      ∃ nid, nid ∈ solarFeedIds topos ∧
        ∃ c, (∃ t ∈ trees, c ∈ t.circuits) ∧ circuit_node_id c = some nid ∧
        ∃ e ∈ c.entities, a.entity_id = e.entity_id ∧
          sEndsWith e.unique_id "imported-energy" = true := by
  have hbff : ∀ b : Bool, ¬(b = true) → b = false := by decide
  intro topos
  induction topos with
  | nil => intro _ a h; simp [solar_section] at h
  | cons topo rest ih =>
    intro ha a h hpref
    have harest : ∀ topo2 ∈ rest, topo2.solar_position ≠ some "UPSTREAM" :=
      fun topo2 h2 => ha topo2 (List.mem_cons_of_mem _ h2)
    by_cases hin : (topo.solar_position == some "IN_PANEL" &&
        optStrTruthy topo.solar_feed_circuit_id) = true
    · simp only [solar_section, hin, eq_self_iff_true, if_true] at h
      have hfeed : ((topo.solar_feed_circuit_id).getD "") ∈
          solarFeedIds (topo :: rest) := by
        simp only [solarFeedIds, List.filterMap_cons, hin, eq_self_iff_true,
          if_true]
        exact List.mem_cons_self _ _
      rcases List.mem_append.mp h with h1 | h2
      · cases hcn : find_circuit_by_node_id trees
            ((topo.solar_feed_circuit_id).getD "") with
        | none => simp only [hcn] at h1; simp at h1
        | some circuit =>
          simp only [hcn] at h1
          obtain ⟨⟨t, ht, hc⟩, hnode⟩ := fcni_mem trees _ circuit hcn
          cases hfs : find_circuit_entity circuit "imported-energy" with
          | none => simp only [hfs] at h1; simp at h1
          | some solar_entity =>
            simp only [hfs] at h1
            simp at h1
            obtain ⟨hme, hs⟩ := fce_mem circuit _ solar_entity hfs
            exact ⟨_, hfeed, circuit, ⟨t, ht, hc⟩, hnode, solar_entity, hme,
              by rw [h1], hs⟩
      · cases pi with
        | none => simp at h2
        | some piv =>
          simp at h2
          obtain ⟨x, hx, heq⟩ := h2
          rw [← heq] at hpref
          simp at hpref
    · simp only [solar_section, hbff _ hin, Bool.false_eq_true,
        if_false] at h
      cases pi with
      | none =>
        obtain ⟨nid, hnid, rest'⟩ := ih harest a h hpref
        exact ⟨nid, solarFeedIds_sub topo rest nid hnid, rest'⟩
      | some piv =>
        by_cases hup : (topo.solar_position == some "UPSTREAM") = true
        · exact absurd (by simpa using hup) (ha topo (List.mem_cons_self _ _))
        · simp only [hbff _ hup, Bool.false_eq_true, if_false] at h
          obtain ⟨nid, hnid, rest'⟩ := ih harest a h hpref
          exact ⟨nid, solarFeedIds_sub topo rest nid hnid, rest'⟩

/-- Every assignment of the engine comes from one of the five
sections. -/
theorem pref_origin (trees : List SpanDeviceTree)
    (topologies : List SpanTopology)
    (integrations : List EnergyIntegration)
    (circuit_roles : List CircuitRole) (a : EnergyRole)
    (hmem : a ∈ (build_energy_topology trees topologies integrations
        circuit_roles).role_assignments) :
    a ∈ (grid_section trees topologies
        (bess_integ topologies integrations)).1 ∨
    a ∈ battery_section trees (bess_integ topologies integrations)
        topologies ∨
    a ∈ solar_section trees (pv_integ topologies integrations) topologies ∨
    a ∈ solar_fallback trees ∨
    a.role = "device_consumption" := by
  rw [build_assignments_eq] at hmem
  rcases List.mem_append.mp hmem with h1 | h2
  · unfold all_source_assignments at h1
    rcases List.mem_append.mp h1 with h3 | h4
    · unfold pre_solar_assignments at h3
      rcases List.mem_append.mp h3 with h5 | h6
      · rcases List.mem_append.mp h5 with h7 | h8
        · exact Or.inl h7
        · exact Or.inr (Or.inl h8)
      · exact Or.inr (Or.inr (Or.inl h6))
    · split at h4
      · simp at h4
      · exact Or.inr (Or.inr (Or.inr (Or.inl h4)))
  · exact Or.inr (Or.inr (Or.inr (Or.inr
      (consumption_section_role trees circuit_roles _ a h2))))

/-- Classification of a preferred source-role assignment: the entity
it names, its location kind and its unique-id suffix. -/
theorem pref_entity_classify (trees : List SpanDeviceTree)
    (topologies : List SpanTopology)
    (integrations : List EnergyIntegration)
    (circuit_roles : List CircuitRole)
    (ha : ∀ topo ∈ topologies, topo.battery_position ≠ some "UPSTREAM")
    (hb : ∀ topo ∈ topologies, topo.solar_position ≠ some "UPSTREAM")
    (a : EnergyRole)
    (hmem : a ∈ (build_energy_topology trees topologies integrations
        circuit_roles).role_assignments)
    (hpref : a.preferred = true)
    (hrole : a.role = "grid_import" ∨ a.role = "grid_export" ∨
      a.role = "solar" ∨ a.role = "battery_discharge" ∨
      a.role = "battery_charge") :
    ∃ e, e ∈ allEnts trees ∧ a.entity_id = e.entity_id ∧
      ((a.role = "grid_import" ∨ a.role = "solar" ∨
          a.role = "battery_discharge") →
        sEndsWith e.unique_id "imported-energy" = true) ∧
      ((a.role = "grid_export" ∨ a.role = "battery_charge") →
        sEndsWith e.unique_id "exported-energy" = true) ∧
      ((a.role = "grid_import" ∨ a.role = "grid_export") →
        ∃ t ∈ trees, e ∈ kindEnts 0 t) ∧
      (a.role = "solar" →
        ((∃ t ∈ trees, e ∈ kindEnts 1 t) ∨
         (∃ nid t c, t ∈ trees ∧ c ∈ t.circuits ∧ e ∈ c.entities ∧
           circuit_node_id c = some nid ∧ nid ∈ solarFeedIds topologies))) ∧
      ((a.role = "battery_discharge" ∨ a.role = "battery_charge") →
        ∃ nid t c, t ∈ trees ∧ c ∈ t.circuits ∧ e ∈ c.entities ∧
          circuit_node_id c = some nid ∧ nid ∈ battFeedIds topologies) := by
  rcases pref_origin trees topologies integrations circuit_roles a hmem
    with hg | hbt | hs | hf | hcons
  · obtain ⟨t, ht, e, hme, heid, hcase⟩ := grid_sectionB_mem trees
      topologies _ (no_upstream_all_false topologies ha) a hg
    have hek : e ∈ kindEnts 0 t := by rw [kindEnts_zero]; exact hme
    have hall := kind_sub_allEnts trees 0 t ht e hek
    rcases hcase with ⟨hri, hsi⟩ | ⟨hre, hse⟩
    · refine ⟨e, hall, heid, fun _ => hsi, ?_, fun _ => ⟨t, ht, hek⟩, ?_, ?_⟩
      · intro hr
        rcases hr with h | h <;> exact absurd (hri.symm.trans h) (by decide)
      · intro hr
        exact absurd (hri.symm.trans hr) (by decide)
      · intro hr
        rcases hr with h | h <;> exact absurd (hri.symm.trans h) (by decide)
    · refine ⟨e, hall, heid, ?_, fun _ => hse, fun _ => ⟨t, ht, hek⟩, ?_, ?_⟩
      · intro hr
        rcases hr with h | h | h <;>
          exact absurd (hre.symm.trans h) (by decide)
      · intro hr
        exact absurd (hre.symm.trans hr) (by decide)
      · intro hr
        rcases hr with h | h <;> exact absurd (hre.symm.trans h) (by decide)
  · obtain ⟨nid, hnid, c, ⟨t, ht, hct⟩, hnode, e, hme, heid, hcase⟩ :=
      battery_section_pref_mem trees _ topologies ha a hbt hpref
    have hek : e ∈ kindEnts 2 t := by
      rw [kindEnts_two]
      exact List.mem_flatMap.mpr ⟨c, hct, hme⟩
    have hall := kind_sub_allEnts trees 2 t ht e hek
    have hbkc : ∃ nid t c, t ∈ trees ∧ c ∈ t.circuits ∧ e ∈ c.entities ∧
        circuit_node_id c = some nid ∧ nid ∈ battFeedIds topologies :=
      ⟨nid, t, c, ht, hct, hme, hnode, hnid⟩
    rcases hcase with ⟨hrd, hsd⟩ | ⟨hrc, hsc⟩
    · refine ⟨e, hall, heid, fun _ => hsd, ?_, ?_, ?_, fun _ => hbkc⟩
      · intro hr
        rcases hr with h | h <;> exact absurd (hrd.symm.trans h) (by decide)
      · intro hr
        rcases hr with h | h <;> exact absurd (hrd.symm.trans h) (by decide)
      · intro hr
        exact absurd (hrd.symm.trans hr) (by decide)
    · refine ⟨e, hall, heid, ?_, fun _ => hsc, ?_, ?_, fun _ => hbkc⟩
      · intro hr
        rcases hr with h | h | h <;>
          exact absurd (hrc.symm.trans h) (by decide)
      · intro hr
        rcases hr with h | h <;> exact absurd (hrc.symm.trans h) (by decide)
      · intro hr
        exact absurd (hrc.symm.trans hr) (by decide)
  · obtain ⟨nid, hnid, c, ⟨t, ht, hct⟩, hnode, e, hme, heid, hsuf⟩ :=
      solar_section_pref_mem trees _ topologies hb a hs hpref
    have hrole2 : a.role = "solar" :=
      solar_section_role trees _ topologies a hs
    have hek : e ∈ kindEnts 2 t := by
      rw [kindEnts_two]
      exact List.mem_flatMap.mpr ⟨c, hct, hme⟩
    have hall := kind_sub_allEnts trees 2 t ht e hek
    refine ⟨e, hall, heid, fun _ => hsuf, ?_, ?_,
      fun _ => Or.inr ⟨nid, t, c, ht, hct, hme, hnode, hnid⟩, ?_⟩
    · intro hr
      rcases hr with h | h <;> exact absurd (hrole2.symm.trans h) (by decide)
    · intro hr
      rcases hr with h | h <;> exact absurd (hrole2.symm.trans h) (by decide)
    · intro hr
      rcases hr with h | h <;> exact absurd (hrole2.symm.trans h) (by decide)
  · obtain ⟨t, ht, e, hme, heid, hsuf⟩ := solar_fallback_mem trees a hf
    have hrole2 : a.role = "solar" := solar_fallback_role trees a hf
    have hek : e ∈ kindEnts 1 t := by rw [kindEnts_one]; exact hme
    have hall := kind_sub_allEnts trees 1 t ht e hek
    refine ⟨e, hall, heid, fun _ => hsuf, ?_, ?_,
      fun _ => Or.inl ⟨t, ht, hek⟩, ?_⟩
    · intro hr
      rcases hr with h | h <;> exact absurd (hrole2.symm.trans h) (by decide)
    · intro hr
      rcases hr with h | h <;> exact absurd (hrole2.symm.trans h) (by decide)
    · intro hr
      rcases hr with h | h <;> exact absurd (hrole2.symm.trans h) (by decide)
  · rcases hrole with h | h | h | h | h <;>
      exact absurd (hcons.symm.trans h) (by decide)

/-- C1 (amended): with no UPSTREAM battery or solar topology (so no
integration entity is promoted to a preferred source), disjoint
battery and solar feed circuits, and globally distinct entity ids
over the trees, the preferred entity-id sets of the five source
roles are pairwise disjoint. -/
theorem preferred_roles_disjoint (trees : List SpanDeviceTree)
    (topologies : List SpanTopology)
    (integrations : List EnergyIntegration)
    (circuit_roles : List CircuitRole)
    (ha : ∀ topo ∈ topologies, topo.battery_position ≠ some "UPSTREAM")
    (hb : ∀ topo ∈ topologies, topo.solar_position ≠ some "UPSTREAM")
    (hc : ∀ i ∈ battFeedIds topologies, i ∉ solarFeedIds topologies)
    (hn : ((allEnts trees).map (·.entity_id)).Nodup) :
    ∀ r1 ∈ (["grid_import", "grid_export", "solar", "battery_discharge",
        "battery_charge"] : List String),
      ∀ r2 ∈ (["grid_import", "grid_export", "solar", "battery_discharge",
          "battery_charge"] : List String), r1 ≠ r2 →
      ∀ x ∈ prefEidsOf (build_energy_topology trees topologies integrations
          circuit_roles) r1,
        x ∉ prefEidsOf (build_energy_topology trees topologies integrations
          circuit_roles) r2 := by
  intro r1 hr1 r2 hr2 hne x hx1 hx2
  obtain ⟨a1, ha1f, heid1⟩ := List.mem_map.mp hx1
  obtain ⟨a2, ha2f, heid2⟩ := List.mem_map.mp hx2
  obtain ⟨ha1m, ha1c⟩ := List.mem_filter.mp ha1f
  obtain ⟨ha2m, ha2c⟩ := List.mem_filter.mp ha2f
  have hp1 : a1.preferred = true := ((Bool.and_eq_true _ _).mp ha1c).1
  have hp2 : a2.preferred = true := ((Bool.and_eq_true _ _).mp ha2c).1
  have hr1a : a1.role = r1 := by
    simpa using ((Bool.and_eq_true _ _).mp ha1c).2
  have hr2a : a2.role = r2 := by
    simpa using ((Bool.and_eq_true _ _).mp ha2c).2
  have hrole1 : a1.role = "grid_import" ∨ a1.role = "grid_export" ∨
      a1.role = "solar" ∨ a1.role = "battery_discharge" ∨
      a1.role = "battery_charge" := by
    rw [hr1a]
    simpa using hr1
  have hrole2 : a2.role = "grid_import" ∨ a2.role = "grid_export" ∨
      a2.role = "solar" ∨ a2.role = "battery_discharge" ∨
      a2.role = "battery_charge" := by
    rw [hr2a]
    simpa using hr2
  obtain ⟨e1, he1all, heq1, himp1, hexp1, hgk1, hsk1, hbk1⟩ :=
    pref_entity_classify trees topologies integrations circuit_roles
      ha hb a1 ha1m hp1 hrole1
  obtain ⟨e2, he2all, heq2, himp2, hexp2, hgk2, hsk2, hbk2⟩ :=
    pref_entity_classify trees topologies integrations circuit_roles
      ha hb a2 ha2m hp2 hrole2
  have heide : e1.entity_id = e2.entity_id := by
    rw [← heq1, ← heq2, heid1, heid2]
  have hv : e1 = e2 := allEnts_inj trees hn e1 e2 he1all he2all heide
  subst hv
  have hg_s : (∃ t ∈ trees, e1 ∈ kindEnts 0 t) →
      ((∃ t ∈ trees, e1 ∈ kindEnts 1 t) ∨
       (∃ nid t c, t ∈ trees ∧ c ∈ t.circuits ∧ e1 ∈ c.entities ∧
         circuit_node_id c = some nid ∧ nid ∈ solarFeedIds topologies)) →
      False := by
    rintro ⟨t1, ht1, hk1⟩
      (⟨t2, ht2, hk2⟩ | ⟨nid, t2, c2, ht2, hc2, hme2, _, _⟩)
    · exact kind_disjoint trees hn 0 1 (by omega) (by omega) (by omega)
        t1 t2 ht1 ht2 e1 e1 hk1 hk2 rfl
    · have hk2 : e1 ∈ kindEnts 2 t2 := by
        rw [kindEnts_two]
        exact List.mem_flatMap.mpr ⟨c2, hc2, hme2⟩
      exact kind_disjoint trees hn 0 2 (by omega) (by omega) (by omega)
        t1 t2 ht1 ht2 e1 e1 hk1 hk2 rfl
  have hg_b : (∃ t ∈ trees, e1 ∈ kindEnts 0 t) →
      (∃ nid t c, t ∈ trees ∧ c ∈ t.circuits ∧ e1 ∈ c.entities ∧
        circuit_node_id c = some nid ∧ nid ∈ battFeedIds topologies) →
      False := by
    rintro ⟨t1, ht1, hk1⟩ ⟨nid, t2, c2, ht2, hc2, hme2, _, _⟩
    have hk2 : e1 ∈ kindEnts 2 t2 := by
      rw [kindEnts_two]
      exact List.mem_flatMap.mpr ⟨c2, hc2, hme2⟩
    exact kind_disjoint trees hn 0 2 (by omega) (by omega) (by omega)
      t1 t2 ht1 ht2 e1 e1 hk1 hk2 rfl
  have hs_b : ((∃ t ∈ trees, e1 ∈ kindEnts 1 t) ∨
      (∃ nid t c, t ∈ trees ∧ c ∈ t.circuits ∧ e1 ∈ c.entities ∧
        circuit_node_id c = some nid ∧ nid ∈ solarFeedIds topologies)) →
      (∃ nid t c, t ∈ trees ∧ c ∈ t.circuits ∧ e1 ∈ c.entities ∧
        circuit_node_id c = some nid ∧ nid ∈ battFeedIds topologies) →
      False := by
    rintro (⟨t1, ht1, hk1⟩ | ⟨ns, ts, cs, hts, hcs, hmes, hnodes, hnids⟩)
      ⟨nb, tb, cb, htb, hcb, hmeb, hnodeb, hnidb⟩
    · have hk2 : e1 ∈ kindEnts 2 tb := by
        rw [kindEnts_two]
        exact List.mem_flatMap.mpr ⟨cb, hcb, hmeb⟩
      exact kind_disjoint trees hn 1 2 (by omega) (by omega) (by omega)
        t1 tb ht1 htb e1 e1 hk1 hk2 rfl
    · have hcne : cs ≠ cb := by
        intro hcc
        rw [hcc, hnodeb] at hnodes
        refine hc nb hnidb ?_
        rw [Option.some_inj.mp hnodes]
        exact hnids
      exact circ_disjoint trees hn ts tb hts htb cs cb hcs hcb hcne
        e1 e1 hmes hmeb rfl
  rw [hr1a] at hgk1 hsk1 hbk1 himp1 hexp1
  rw [hr2a] at hgk2 hsk2 hbk2 himp2 hexp2
  simp only [List.mem_cons, List.not_mem_nil, or_false] at hr1 hr2
  rcases hr1 with rfl | rfl | rfl | rfl | rfl <;>
    rcases hr2 with rfl | rfl | rfl | rfl | rfl <;>
    first
      | exact hne rfl
      | exact not_imported_and_exported (himp1 (Or.inl rfl)) (hexp2 (Or.inl rfl))
      | exact not_imported_and_exported (himp1 (Or.inl rfl)) (hexp2 (Or.inr rfl))
      | exact not_imported_and_exported (himp1 (Or.inr (Or.inl rfl))) (hexp2 (Or.inl rfl))
      | exact not_imported_and_exported (himp1 (Or.inr (Or.inl rfl))) (hexp2 (Or.inr rfl))
      | exact not_imported_and_exported (himp1 (Or.inr (Or.inr rfl))) (hexp2 (Or.inl rfl))
      | exact not_imported_and_exported (himp1 (Or.inr (Or.inr rfl))) (hexp2 (Or.inr rfl))
      | exact not_imported_and_exported (himp2 (Or.inl rfl)) (hexp1 (Or.inl rfl))
      | exact not_imported_and_exported (himp2 (Or.inl rfl)) (hexp1 (Or.inr rfl))
      | exact not_imported_and_exported (himp2 (Or.inr (Or.inl rfl))) (hexp1 (Or.inl rfl))
      | exact not_imported_and_exported (himp2 (Or.inr (Or.inl rfl))) (hexp1 (Or.inr rfl))
      | exact not_imported_and_exported (himp2 (Or.inr (Or.inr rfl))) (hexp1 (Or.inl rfl))
      | exact not_imported_and_exported (himp2 (Or.inr (Or.inr rfl))) (hexp1 (Or.inr rfl))
      | exact hg_s (hgk1 (Or.inl rfl)) (hsk2 rfl)
      | exact hg_s (hgk1 (Or.inr rfl)) (hsk2 rfl)
      | exact hg_s (hgk2 (Or.inl rfl)) (hsk1 rfl)
      | exact hg_s (hgk2 (Or.inr rfl)) (hsk1 rfl)
      | exact hg_b (hgk1 (Or.inl rfl)) (hbk2 (Or.inl rfl))
      | exact hg_b (hgk1 (Or.inl rfl)) (hbk2 (Or.inr rfl))
      | exact hg_b (hgk1 (Or.inr rfl)) (hbk2 (Or.inl rfl))
      | exact hg_b (hgk1 (Or.inr rfl)) (hbk2 (Or.inr rfl))
      | exact hg_b (hgk2 (Or.inl rfl)) (hbk1 (Or.inl rfl))
      | exact hg_b (hgk2 (Or.inl rfl)) (hbk1 (Or.inr rfl))
      | exact hg_b (hgk2 (Or.inr rfl)) (hbk1 (Or.inl rfl))
      | exact hg_b (hgk2 (Or.inr rfl)) (hbk1 (Or.inr rfl))
      | exact hs_b (hsk1 rfl) (hbk2 (Or.inl rfl))
      | exact hs_b (hsk1 rfl) (hbk2 (Or.inr rfl))
      | exact hs_b (hsk2 rfl) (hbk1 (Or.inl rfl))
      | exact hs_b (hsk2 rfl) (hbk1 (Or.inr rfl))

/-- An UPSTREAM battery topology with a Tesla vendor. -/
def bessTopoU : SpanTopology :=
  { serial := "s", battery_position := some "UPSTREAM",
    battery_vendor := some "Tesla" }

/-- A powerwall integration whose single energy entity mentions both
battery and site-import in its id. -/
def bessIntg : EnergyIntegration :=
  { platform := "powerwall",
    energy_entities := [{ entity_id := "sensor.battery_site_import",
                          unique_id := "u1", platform := "powerwall" }] }

/-- C1 (counterexample): with an UPSTREAM battery and a matched
integration, the same integration entity id is emitted both as the
preferred grid_import (site-import keyword search) and as the
preferred battery_charge (battery and import keyword search), so the
preferred role sets are not pairwise disjoint. -/
theorem preferred_roles_overlap :
    "sensor.battery_site_import" ∈ prefEidsOf
      (build_energy_topology [] [bessTopoU] [bessIntg] []) "grid_import" ∧
    "sensor.battery_site_import" ∈ prefEidsOf
      (build_energy_topology [] [bessTopoU] [bessIntg] []) "battery_charge" := by
  decide

theorem preferred_roles_disjoint_witness :
    "sensor.b1_discharge" ∉ prefEidsOf
      (build_energy_topology [battTree1] [battTopo1] [] []) "grid_import" :=
  preferred_roles_disjoint [battTree1] [battTopo1] [] []
    (by decide) (by decide) (by decide) (by decide)
    "battery_discharge" (by decide) "grid_import" (by decide) (by decide)
    "sensor.b1_discharge" (by decide)

/-! ## Remaining witnesses -/

theorem tree_builder_partition_witness :
    (cycDevA ∈ panels_of (span_devices_of [cycDevA, cycDevB] []) ↔
      (cycDevA.model = some "SPAN Panel" ∨
        ¬ ∃ v, cycDevA.via_device_id = some v ∧ v ≠ "" ∧
          ∃ p ∈ span_devices_of [cycDevA, cycDevB] [], p.id = v)) ∧
    (cycDevA ∉ panels_of (span_devices_of [cycDevA, cycDevB] []) →
      ∃ v, cycDevA.via_device_id = some v ∧
        cycDevA ∈ (lookupA (children_by_parent_of
          (span_devices_of [cycDevA, cycDevB] [])) v).getD []) :=
  tree_builder_partition [cycDevA, cycDevB] [] cycDevA (by decide)

/-- An entity with a device class already set. -/
def enrichE : HAEntity :=
  { entity_id := "sensor.x", unique_id := "ux", platform := "p",
    device_class := some "power" }

/-- A state table that carries a different device class for it. -/
def enrichStates : List (String × StateEntry) :=
  [("sensor.x", { state := .ps "1",
                  attributes := [("device_class", "energy"),
                                 ("unit_of_measurement", "kWh")] })]

theorem enrich_never_overwrites_witness :
    (enrich_entity enrichStates enrichE).device_class = some "power" :=
  (enrich_never_overwrites enrichStates enrichE).1 (by decide)

/-- A proposed configuration whose single source is a recognized
solar source. -/
def solarX : PrefsDoc :=
  [("energy_sources", DVal.srcs [[("type", SVal.pv (.ps "solar")),
      ("stat_energy_from", SVal.pv (.ps "s1"))]])]

theorem merge_prefs_idempotent_witness :
    merge_prefs (merge_prefs [] solarX) solarX = merge_prefs [] solarX :=
  merge_prefs_idempotent [] solarX (by decide)

/-- A user-authored grid source with a custom field. -/
def userSrc : Source :=
  [("type", SVal.pv (.ps "grid")), ("note", SVal.pv (.ps "mine"))]

/-- A document holding only the user-authored source. -/
def userDoc : PrefsDoc := [("energy_sources", DVal.srcs [userSrc])]

theorem apply_preserves_user_fields_witness :
    ∃ s', s' ∈ getSources (apply_topology_prefs userDoc cleanT) ∧
      (∀ k v, (k, v) ∈ userSrc → k ≠ "stat_rate" → (k, v) ∈ s') ∧
      (s' = userSrc ∨ ∃ k r, source_key userSrc = some k ∧
        proposed_rate_of cleanT k = some r ∧ r ≠ "" ∧
        lookupA userSrc "stat_rate" ≠ some (SVal.pv (.ps r)) ∧
        s' = setA userSrc "stat_rate" (SVal.pv (.ps r))) :=
  apply_preserves_user_fields userDoc cleanT userSrc (by decide) (by decide)
